import Mathlib

/-!
Quizolute: completion client, request handlers and presentation helpers.

A shallow embedding of `src/server.js` and `src/script.js`.

* JavaScript strings are modelled by `String`, a sequence of code points.  The
  one operation of the source that counts UTF-16 code units, `substring`, is
  modelled on the code units (`toUtf16`); a string with an unpaired surrogate,
  which `substring` can produce, is kept by its code units (`Json.str16`).
* The hosted inference endpoint is an external collaborator.  It is modelled
  by an outcome function (`Remote`), and every function that talks to it
  returns the ordered list of requests it issued together with its result.
* A JavaScript exception is modelled by `Except.error msg`, where `msg` is the
  `message` of the thrown `Error`.
-/

namespace Quizolute

/-! ## Completion client (`src/server.js`) -/

/-- A chat message `{ role, content }`. -/
structure Message where
  role : String
  content : String
deriving DecidableEq, Repr

/-- The argument object of `hf.chatCompletion` as the text client builds it.
`temperature` is the decimal literal of the source counted in tenths
(`0.7` is `7`). -/
structure ChatRequest where
  model : String
  messages : List Message
  max_tokens : Nat
  temperature : Nat
deriving DecidableEq, Repr

/-- Outcome of the body of the `try` block, that is of
`(await hf.chatCompletion(req)).choices[0].message.content`:
`.ok text` when it evaluates to `text`, `.error msg` when it throws an error
whose `message` is `msg`.  The first argument is the `retryCount` of the
invocation that issues the call, so that every call of a run may be given its
own outcome. -/
abbrev Remote := Nat → ChatRequest → Except String String

deriving instance DecidableEq for Except

/-- What a run of the client did: the requests issued, in order, and the value
returned (`.ok`) or the message of the error raised (`.error`). -/
structure Run where
  calls : List ChatRequest
  result : Except String String
deriving DecidableEq, Repr

/-- The model constants of `src/server.js`. -/
structure ModelConfig where
  TEXT_MODEL : String
  FALLBACK_MODELS : List String
deriving DecidableEq, Repr

/-- The constants as they stand in the source. -/
def modelConfig : ModelConfig where
  TEXT_MODEL := "Qwen/Qwen2.5-72B-Instruct"
  FALLBACK_MODELS :=
    ["meta-llama/Llama-3.1-8B-Instruct",
     "microsoft/Phi-3-mini-4k-instruct",
     "HuggingFaceH4/zephyr-7b-beta"]

/-- `const models = [TEXT_MODEL, ...FALLBACK_MODELS]`. -/
def ModelConfig.models (cfg : ModelConfig) : List String :=
  cfg.TEXT_MODEL :: cfg.FALLBACK_MODELS

/-- `models[Math.min(retryCount, models.length - 1)]`; the list is never empty,
so the index is always in range. -/
def ModelConfig.modelAt (cfg : ModelConfig) (retryCount : Nat) : String :=
  cfg.models.getD (min retryCount (cfg.models.length - 1)) cfg.TEXT_MODEL

/-- The request of `generateChatCompletion` for one attempt. -/
def completionRequest (cfg : ModelConfig) (systemPrompt userMessage : String)
    (retryCount : Nat) : ChatRequest where
  model := cfg.modelAt retryCount
  messages := [⟨"system", systemPrompt⟩, ⟨"user", userMessage⟩]
  max_tokens := 2048
  temperature := 7

/-- `generateChatCompletion(systemPrompt, userMessage, retryCount)`.
On success the text is returned.  On failure the next model is tried while
`retryCount < models.length - 1`; the recursive call is returned as it is, so
an error raised by it is passed on unchanged.  Otherwise the error is wrapped
as `AI generation failed: ...`. -/
def generateChatCompletion (cfg : ModelConfig) (hf : Remote)
    (systemPrompt userMessage : String) (retryCount : Nat) : Run :=
  let req := completionRequest cfg systemPrompt userMessage retryCount
  match hf retryCount req with
  | .ok content => ⟨[req], .ok content⟩
  | .error message =>
    if retryCount < cfg.models.length - 1 then
      let rest := generateChatCompletion cfg hf systemPrompt userMessage (retryCount + 1)
      ⟨req :: rest.calls, rest.result⟩
    else
      ⟨[req], .error ("AI generation failed: " ++ message)⟩
termination_by cfg.models.length - 1 - retryCount
decreasing_by omega

/-! ## `JSON.parse` (platform function)

A recursive-descent reading of the JSON grammar (ECMA-404).  `none` stands for
the `SyntaxError` that `JSON.parse` throws.  Numbers are kept as their lexeme,
object members as the list of pairs in source order.  A string is `str` when
it is a sequence of code points and `str16`, the list of its UTF-16 code
units, when it has an unpaired surrogate.  A `\u` escape in a text is read as
one code point (the parser does not pair surrogate escapes).  The recursion on
nested values is bounded by the length of the text, which no well-formed text
exceeds. -/
inductive Json where
  | null
  | bool (b : Bool)
  | num (lexeme : String)
  | str (s : String)
  | str16 (units : List Nat)
  | arr (items : List Json)
  | obj (members : List (String × Json))
deriving Repr

namespace JSON

def isWhitespace (c : Char) : Bool :=
  c == ' ' || c == '\t' || c == '\n' || c == '\r'

def skipWhitespace : List Char → List Char
  | [] => []
  | c :: cs => if isWhitespace c then skipWhitespace cs else c :: cs

def hexValue (c : Char) : Option Nat :=
  if '0' ≤ c ∧ c ≤ '9' then some (c.toNat - 48)
  else if 'a' ≤ c ∧ c ≤ 'f' then some (c.toNat - 87)
  else if 'A' ≤ c ∧ c ≤ 'F' then some (c.toNat - 55)
  else none

def parseStringBody : List Char → List Char → Option (String × List Char)
  | _, [] => none
  | acc, '"' :: rest => some (String.mk acc.reverse, rest)
  | acc, '\\' :: 'u' :: a :: b :: c :: d :: rest =>
    match hexValue a, hexValue b, hexValue c, hexValue d with
    | some x, some y, some z, some w =>
      parseStringBody (Char.ofNat (((x * 16 + y) * 16 + z) * 16 + w) :: acc) rest
    | _, _, _, _ => none
  | acc, '\\' :: e :: rest =>
    if e == '"' then parseStringBody ('"' :: acc) rest
    else if e == '\\' then parseStringBody ('\\' :: acc) rest
    else if e == '/' then parseStringBody ('/' :: acc) rest
    else if e == 'b' then parseStringBody (Char.ofNat 8 :: acc) rest
    else if e == 'f' then parseStringBody (Char.ofNat 12 :: acc) rest
    else if e == 'n' then parseStringBody ('\n' :: acc) rest
    else if e == 'r' then parseStringBody ('\r' :: acc) rest
    else if e == 't' then parseStringBody ('\t' :: acc) rest
    else none
  | acc, c :: rest =>
    if c.toNat < 32 || c == '\\' then none else parseStringBody (c :: acc) rest

def digits (cs : List Char) : List Char × List Char := cs.span Char.isDigit

def parseNumber (cs : List Char) : Option (String × List Char) :=
  let (sign, r0) := match cs with
    | '-' :: r => (['-'], r)
    | r => ([], r)
  let intPart : Option (List Char × List Char) := match r0 with
    | '0' :: r => some (['0'], r)
    | r => match digits r with
      | ([], _) => none
      | (ds, r1) => some (ds, r1)
  match intPart with
  | none => none
  | some (ip, r1) =>
    let frac : Option (List Char × List Char) := match r1 with
      | '.' :: r => match digits r with
        | ([], _) => none
        | (ds, r2) => some ('.' :: ds, r2)
      | r => some ([], r)
    match frac with
    | none => none
    | some (fp, r2) =>
      let expo : Option (List Char × List Char) := match r2 with
        | e :: r =>
          if e == 'e' || e == 'E' then
            let (sg, r3) := match r with
              | '+' :: r4 => (['+'], r4)
              | '-' :: r4 => (['-'], r4)
              | r4 => ([], r4)
            match digits r3 with
            | ([], _) => none
            | (ds, r5) => some (e :: sg ++ ds, r5)
          else some ([], e :: r)
        | [] => some ([], [])
      match expo with
      | none => none
      | some (ep, r3) => some (String.mk (sign ++ ip ++ fp ++ ep), r3)

mutual
def parseValue : Nat → List Char → Option (Json × List Char)
  | 0, _ => none
  | fuel + 1, cs =>
    match skipWhitespace cs with
    | 'n' :: 'u' :: 'l' :: 'l' :: rest => some (.null, rest)
    | 't' :: 'r' :: 'u' :: 'e' :: rest => some (.bool true, rest)
    | 'f' :: 'a' :: 'l' :: 's' :: 'e' :: rest => some (.bool false, rest)
    | '"' :: rest =>
      match parseStringBody [] rest with
      | some (s, rest') => some (.str s, rest')
      | none => none
    | '[' :: rest =>
      match skipWhitespace rest with
      | ']' :: rest' => some (.arr [], rest')
      | _ => parseElements fuel rest []
    | '{' :: rest =>
      match skipWhitespace rest with
      | '}' :: rest' => some (.obj [], rest')
      | _ => parseMembers fuel rest []
    | other =>
      match parseNumber other with
      | some (lexeme, rest) => some (.num lexeme, rest)
      | none => none
def parseElements : Nat → List Char → List Json → Option (Json × List Char)
  | 0, _, _ => none
  | fuel + 1, cs, acc =>
    match parseValue fuel cs with
    | none => none
    | some (v, rest) =>
      match skipWhitespace rest with
      | ',' :: rest' => parseElements fuel rest' (v :: acc)
      | ']' :: rest' => some (.arr (v :: acc).reverse, rest')
      | _ => none
def parseMembers : Nat → List Char → List (String × Json) → Option (Json × List Char)
  | 0, _, _ => none
  | fuel + 1, cs, acc =>
    match skipWhitespace cs with
    | '"' :: rest =>
      match parseStringBody [] rest with
      | none => none
      | some (key, rest1) =>
        match skipWhitespace rest1 with
        | ':' :: rest2 =>
          match parseValue fuel rest2 with
          | none => none
          | some (v, rest3) =>
            match skipWhitespace rest3 with
            | ',' :: rest4 => parseMembers fuel rest4 ((key, v) :: acc)
            | '}' :: rest4 => some (.obj ((key, v) :: acc).reverse, rest4)
            | _ => none
        | _ => none
    | _ => none
end

def parse (text : String) : Option Json :=
  match parseValue (text.length + 1) text.toList with
  | some (v, rest) => if (skipWhitespace rest).isEmpty then some v else none
  | none => none

end JSON

/-! ## Response parsing of the flashcard and quiz handlers (`src/server.js`) -/

/-- `response.match(/\[[\s\S]*\]/)`: the leftmost `[` that has a `]` after it,
up to the last `]` of the text (the star is greedy and `[\s\S]` matches every
character).  `none` is the `null` of a failed match, `some m` is `jsonMatch[0]`. -/
def bracketMatch (response : String) : Option String :=
  match response.toList.dropWhile (fun c => c != '[') with
  | [] => none
  | _ :: rest =>
    match rest.reverse.dropWhile (fun c => c != ']') with
    | [] => none
    | body => some (String.mk ('[' :: body.reverse))

/-- The UTF-16 code units of one code point: itself below `0x10000`, a high
and a low surrogate otherwise. -/
def utf16Units (c : Char) : List Nat :=
  if c.toNat < 0x10000 then [c.toNat]
  else [0xD800 + (c.toNat - 0x10000) / 0x400, 0xDC00 + (c.toNat - 0x10000) % 0x400]

/-- The UTF-16 code units of a string, which `length` and `substring` count. -/
def toUtf16 (s : String) : List Nat :=
  s.toList.flatMap utf16Units

/-- The code points of a list of UTF-16 code units; `none` when a surrogate is
unpaired. -/
def decodeUtf16 : List Nat → Option (List Char)
  | [] => some []
  | [u] => if 0xD800 ≤ u ∧ u < 0xE000 then none else some [Char.ofNat u]
  | u :: l :: rest =>
    if 0xD800 ≤ u ∧ u < 0xDC00 then
      if 0xDC00 ≤ l ∧ l < 0xE000 then
        (decodeUtf16 rest).map fun cs =>
          Char.ofNat (0x10000 + (u - 0xD800) * 0x400 + (l - 0xDC00)) :: cs
      else none
    else if 0xDC00 ≤ u ∧ u < 0xE000 then none
    else (decodeUtf16 (l :: rest)).map fun cs => Char.ofNat u :: cs

/-- The string value with the given UTF-16 code units. -/
def Json.ofUtf16 (units : List Nat) : Json :=
  match decodeUtf16 units with
  | some cs => .str (String.mk cs)
  | none => .str16 units

/-- `s.substring(0, n)`, by its UTF-16 code units: the first `n` code units of
`s`, all of them when `s` has fewer. -/
def substring0 (s : String) (n : Nat) : List Nat :=
  (toUtf16 s).take n

/-- `jsonMatch ? JSON.parse(jsonMatch[0]) : JSON.parse(response)`; `none` when
the `try` block throws. -/
def parseBracketed (response : String) : Option Json :=
  match bracketMatch response with
  | some m => JSON.parse m
  | none => JSON.parse response

/-- The value of the `catch` branch of the flashcard handler. -/
def flashcardFallback (response : String) : Json :=
  .arr [.obj [("question", .str "Generated content"),
              ("answer", Json.ofUtf16 (substring0 response 500))]]

/-- The value of the `catch` branch of the quiz handler. -/
def quizFallback (response : String) : Json :=
  .arr [.obj [("question", .str "Generated content"),
              ("options", .arr [.str "A) See details"]),
              ("correct", .str "A"),
              ("explanation", Json.ofUtf16 (substring0 response 200))]]

/-- The `flashcards` value computed by `POST /api/generate-flashcards` from the
raw model response (lines 194-200). -/
def parseFlashcardsResponse (response : String) : Json :=
  match parseBracketed response with
  | some v => v
  | none => flashcardFallback response

/-- The `quiz` value computed by `POST /api/generate-quiz` from the raw model
response (lines 326-332). -/
def parseQuizResponse (response : String) : Json :=
  match parseBracketed response with
  | some v => v
  | none => quizFallback response

/-! ## Markdown conversion (`src/script.js`)

Every regular expression of the source is read as a `Matcher`; `replaceAll`
is the global replacement. -/


/-- Line terminators of ECMAScript: the characters `.` does not match and after
which `^` matches in multiline mode. -/
def isLineTerminator (c : Char) : Bool :=
  c == '\n' || c == '\r' || c == Char.ofNat 0x2028 || c == Char.ofNat 0x2029

/-- One attempt of a regular expression at a position: given whether the
position starts a line and the text from the position on, the replacement text
and the number of characters matched (at least one). -/
abbrev Matcher := Bool → List Char → Option (List Char × Nat)

/-- `text.replace(/re/g, replacement)` read left to right: at a position where
the expression matches, the replacement is emitted and the scan resumes after
the match (the first argument counts the matched characters still to skip);
elsewhere the character is copied. -/
def replaceAllAux (m : Matcher) : Nat → Bool → List Char → List Char
  | _, _, [] => []
  | skip + 1, _, c :: cs => replaceAllAux m skip (isLineTerminator c) cs
  | 0, atLineStart, c :: cs =>
    match m atLineStart (c :: cs) with
    | some (replacement, len) =>
      replacement ++ replaceAllAux m (len - 1) (isLineTerminator c) cs
    | none => c :: replaceAllAux m 0 (isLineTerminator c) cs

/-- `text.replace(/re/g, replacement)` on strings. -/
def replaceAll (m : Matcher) (text : String) : String :=
  String.mk (replaceAllAux m 0 true text.toList)

/-- `/pat/g` for a literal `pat`. -/
def literal (pat replacement : String) : Matcher := fun _ cs =>
  if pat.toList.isPrefixOf cs then some (replacement.toList, pat.length) else none

/-- What `(.*)` captures: the characters up to the next line terminator. -/
def restOfLine (cs : List Char) : List Char :=
  cs.takeWhile (fun c => !isLineTerminator c)

/-- `/marker(.*)/g` (or `/^marker(.*)$/gm` when `anchored`) with replacement
`tagOpen$1tagClose`. -/
def lineMatcher (anchored : Bool) (marker tagOpen tagClose : String) : Matcher :=
  fun atLineStart cs =>
    if (!anchored || atLineStart) && marker.toList.isPrefixOf cs then
      let group := restOfLine (cs.drop marker.length)
      some (tagOpen.toList ++ group ++ tagClose.toList, marker.length + group.length)
    else none

/-- `/^\d+\. (.*)$/gm` with replacement `<li>$1</li>`. -/
def numberedMatcher : Matcher := fun atLineStart cs =>
  let ds := cs.takeWhile Char.isDigit
  if atLineStart && !ds.isEmpty && ". ".toList.isPrefixOf (cs.drop ds.length) then
    let group := restOfLine (cs.drop (ds.length + 2))
    some ("<li>".toList ++ group ++ "</li>".toList, ds.length + 2 + group.length)
  else none

/-- The shortest run of characters other than line terminators that is
followed by `closer`: what a lazy `.*?` captures before `closer`. -/
def lazyUntil (closer : List Char) : List Char → Option (List Char)
  | [] => none
  | c :: cs =>
    if closer.isPrefixOf (c :: cs) then some []
    else if isLineTerminator c then none
    else (lazyUntil closer cs).map (fun g => c :: g)

/-- The shortest run of any characters that is followed by `closer`: what a
lazy `[\s\S]*?` captures before `closer`. -/
def lazyAnyUntil (closer : List Char) : List Char → Option (List Char)
  | [] => none
  | c :: cs =>
    if closer.isPrefixOf (c :: cs) then some []
    else (lazyAnyUntil closer cs).map (fun g => c :: g)

/-- `/delim(.+?)delim/g` with replacement `tagOpen$1tagClose`. -/
def delimitedMatcher (delim tagOpen tagClose : String) : Matcher := fun _ cs =>
  if delim.toList.isPrefixOf cs then
    match cs.drop delim.length with
    | [] => none
    | c :: rest =>
      if isLineTerminator c then none
      else match lazyUntil delim.toList rest with
        | none => none
        | some g =>
          some (tagOpen.toList ++ c :: g ++ tagClose.toList,
            delim.length + (1 + g.length) + delim.length)
  else none

/-- The fence of a code block, three backticks. -/
def fence : List Char := [Char.ofNat 96, Char.ofNat 96, Char.ofNat 96]

/-- The code-block expression: a fence, `([\s\S]*?)`, a fence; replacement
`<pre><code>$1</code></pre>`. -/
def codeBlockMatcher : Matcher := fun _ cs =>
  if fence.isPrefixOf cs then
    match lazyAnyUntil fence (cs.drop 3) with
    | none => none
    | some g => some ("<pre><code>".toList ++ g ++ "</code></pre>".toList, 3 + g.length + 3)
  else none

/-- The inline-code expression: a backtick, one or more characters other than
a backtick, a backtick; replacement `<code>$1</code>`. -/
def inlineCodeMatcher : Matcher := fun _ cs =>
  match cs with
  | [] => none
  | c :: rest =>
    if c == Char.ofNat 96 then
      let group := rest.takeWhile (fun x => x != Char.ofNat 96)
      if !group.isEmpty && [Char.ofNat 96].isPrefixOf (rest.drop group.length) then
        some ("<code>".toList ++ group ++ "</code>".toList, 1 + group.length + 1)
      else none
    else none

/-- The shortest beginning of `line` that ends with the last occurrence of
`pat` in `line`, if `pat` occurs. -/
def throughLast (pat : List Char) : List Char → Option (List Char)
  | [] => none
  | c :: cs =>
    match throughLast pat cs with
    | some p => some (c :: p)
    | none => if pat.isPrefixOf (c :: cs) then some pat else none

/-- `/(<li>.*<\/li>)+/g` with replacement `<ul>$&</ul>`.  The greedy `.*` runs
to the last `</li>` of the line, after which the group cannot repeat. -/
def listBlockMatcher : Matcher := fun _ cs =>
  if "<li>".toList.isPrefixOf cs then
    match throughLast "</li>".toList (restOfLine (cs.drop 4)) with
    | none => none
    | some body =>
      some ("<ul>".toList ++ "<li>".toList ++ body ++ "</ul>".toList, 4 + body.length)
  else none

/-- The conversion of `renderSummary` (lines 390-398): the value of `html`. -/
def summaryToHtml (summary : String) : String :=
  summary
    |> replaceAll (lineMatcher false "## " "<h2>" "</h2>")
    |> replaceAll (lineMatcher false "- " "<li>" "</li>")
    |> replaceAll (literal "\n\n" "</p><p>")
    |> replaceAll (literal "\n" "<br>")
    |> replaceAll listBlockMatcher

/-- The unordered-list expression `/^[\-\*] (.*)$/gm`. -/
def bulletMatcher : Matcher := fun atLineStart cs =>
  match lineMatcher true "- " "<li>" "</li>" atLineStart cs with
  | some r => some r
  | none => lineMatcher true "* " "<li>" "</li>" atLineStart cs

/-- `s.startsWith(t)`. -/
def startsWith (s t : String) : Bool :=
  t.toList.isPrefixOf s.toList

/-- `markdownToHtml(text)`. -/
def markdownToHtml (text : String) : String :=
  if text.toList.isEmpty then "" else
  let html := text
    |> replaceAll (literal "&" "&amp;")
    |> replaceAll (literal "<" "&lt;")
    |> replaceAll (literal ">" "&gt;")
    |> replaceAll (lineMatcher true "### " "<h4>" "</h4>")
    |> replaceAll (lineMatcher true "## " "<h3>" "</h3>")
    |> replaceAll (lineMatcher true "# " "<h2>" "</h2>")
    |> replaceAll (delimitedMatcher "**" "<strong>" "</strong>")
    |> replaceAll (delimitedMatcher "__" "<strong>" "</strong>")
    |> replaceAll (delimitedMatcher "*" "<em>" "</em>")
    |> replaceAll (delimitedMatcher "_" "<em>" "</em>")
    |> replaceAll codeBlockMatcher
    |> replaceAll inlineCodeMatcher
    |> replaceAll bulletMatcher
    |> replaceAll numberedMatcher
    |> replaceAll (literal "\n\n" "</p><p>")
    |> replaceAll (literal "\n" "<br>")
    |> replaceAll listBlockMatcher
  if !startsWith html "<h" && !startsWith html "<ul" && !startsWith html "<pre" then
    "<p>" ++ html ++ "</p>"
  else html

/-! ### Vocabulary of the statements

The definitions of this part do not come from the source: they word the
inputs and the expected outputs of the properties proved below. -/

/-- Escaping of one character: `&`, `<` and `>` become `&amp;`, `&lt;` and
`&gt;`; every other character is kept. -/
def escapeChar (c : Char) : List Char :=
  if c = '&' then "&amp;".toList
  else if c = '<' then "&lt;".toList
  else if c = '>' then "&gt;".toList
  else [c]

/-- The escaped text as the specification words it: every `&` replaced by
`&amp;`, then every `<` by `&lt;` and every `>` by `&gt;`, the ampersands of
the later replacements not being escaped again. -/
def escapeHtmlSpec (text : String) : String :=
  String.mk (text.toList.flatMap escapeChar)

/-- The characters that start a markdown construct of `markdownToHtml`:
`#`, `*`, `_`, the backtick, `-`, a digit, the newline. -/
def isMarkdownTrigger (c : Char) : Bool :=
  c == '#' || c == '*' || c == '_' || c == Char.ofNat 96 || c == '-' || c.isDigit || c == '\n'

/-- Items written one after the other, each between `before` and `after`, with
`sep` between two neighbours. -/
def joinWrapped (sep before after : String) : List String → String
  | [] => ""
  | [i] => before ++ i ++ after
  | i :: j :: rest => before ++ i ++ after ++ sep ++ joinWrapped sep before after (j :: rest)

/-- The text of consecutive `- item` lines. -/
def bulletLines (items : List String) : String :=
  joinWrapped "\n" "- " "" items

/-- Number of positions of `text` at which `pat` occurs. -/
def occurrencesAux (pat : List Char) : List Char → Nat
  | [] => 0
  | c :: cs => (if pat.isPrefixOf (c :: cs) then 1 else 0) + occurrencesAux pat cs

/-- Number of occurrences of `pat` in `text`. -/
def occurrences (pat text : String) : Nat :=
  occurrencesAux pat.toList text.toList

/-! ## Presentation layer (`src/script.js`)

The functions below return the `innerHTML` they assign, or the new value of
the state they change. -/

/-- `showError(message)`: the markup put into the results container. -/
def showError (message : String) : String :=
  "\n    <div class=\"results-error\">\n      <p>❌ " ++ message ++ "</p>\n    </div>\n  "

/-- `renderSummary(summary)`: the markup put into the results container. -/
def renderSummary (summary : String) : String :=
  if summary.toList.isEmpty then showError "No summary generated"
  else
    "\n    <div class=\"summary-container\">\n      <p>" ++ summaryToHtml summary
      ++ "</p>\n    </div>\n  "

/-! ### Chat history -/

/-- A child appended to the `chatMessages` element. -/
structure ChatMessageDiv where
  className : String
  innerHTML : String
deriving DecidableEq, Repr

/-- The chat part of the page state: the children of `chatMessages` and the
global `conversationHistory`. -/
structure ChatState where
  chatMessages : List ChatMessageDiv
  conversationHistory : List Message
deriving DecidableEq, Repr

/-- `xs.slice(-n)`: the last `n` elements. -/
def sliceLast {α : Type} (n : Nat) (xs : List α) : List α :=
  xs.drop (xs.length - n)

/-- `addChatMessage(content, isUser, addToHistory)`. -/
def addChatMessage (st : ChatState) (content : String) (isUser addToHistory : Bool) :
    ChatState :=
  let messageDiv : ChatMessageDiv :=
    { className := "chat-message " ++ (if isUser then "user" else "assistant")
      innerHTML :=
        "\n    <div class=\"message-avatar\">" ++ (if isUser then "👤" else "🤖")
          ++ "</div>\n    <div class=\"message-content\">"
          ++ (if isUser then content else markdownToHtml content) ++ "</div>\n  " }
  let chatMessages := st.chatMessages ++ [messageDiv]
  if addToHistory then
    let pushed := st.conversationHistory ++
      [{ role := if isUser then "user" else "assistant", content := content }]
    if pushed.length > 10 then
      { chatMessages := chatMessages, conversationHistory := sliceLast 10 pushed }
    else
      { chatMessages := chatMessages, conversationHistory := pushed }
  else
    { chatMessages := chatMessages, conversationHistory := st.conversationHistory }

/-- The entry that a call pushes on the history (vocabulary of the statements). -/
def historyEntry (call : String × Bool) : Message :=
  { role := if call.2 then "user" else "assistant", content := call.1 }

/-- A sequence of calls `addChatMessage(content, isUser)` that add to the
history (`addToHistory` is `true`), run from the state `st` (vocabulary of the
statements). -/
def addChatMessages (st : ChatState) (calls : List (String × Bool)) : ChatState :=
  calls.foldl (fun acc call => addChatMessage acc call.1 call.2 true) st

/-! ### Quiz -/

/-- A `button.quiz-option`. -/
structure OptionButton where
  textContent : String
  disabled : Bool
  classList : List String
deriving DecidableEq, Repr

/-- The `div.quiz-explanation`. -/
structure ExplanationDiv where
  textContent : String
  classList : List String
deriving DecidableEq, Repr

/-- A `div.quiz-question` of the page, the element tree that the browser
builds from the markup written by `renderQuiz`: its `.quiz-option` buttons in
document order and its `.quiz-explanation`, if any.  The parsing of that
markup is not modelled: the text content of an element is a field of the
element, and the `correctAnswer` that the inline `onclick` passes is an
argument of `handleQuizAnswer`. -/
structure QuizQuestionDiv where
  options : List OptionButton
  explanation : Option ExplanationDiv
deriving DecidableEq, Repr

/-- `classList.add(name)`. -/
def classListAdd (classList : List String) (name : String) : List String :=
  if name ∈ classList then classList else classList ++ [name]

/-- White space of ECMAScript, the characters `trim()` removes. -/
def isWhiteSpace (c : Char) : Bool :=
  let n := c.toNat
  n == 9 || n == 10 || n == 11 || n == 12 || n == 13 || n == 32 || n == 0xA0
    || n == 0x1680 || (0x2000 ≤ n && n ≤ 0x200A) || n == 0x2028 || n == 0x2029
    || n == 0x202F || n == 0x205F || n == 0x3000 || n == 0xFEFF

/-- `s.trim()`. -/
def trim (s : String) : String :=
  String.mk ((s.toList.dropWhile isWhiteSpace).reverse.dropWhile isWhiteSpace).reverse

/-- Whether `opt.textContent.startsWith(correctAnswer + ')')` or
`opt.textContent.startsWith(correctAnswer + ' ')`. -/
def matchesCorrect (correctAnswer : String) (textContent : String) : Bool :=
  startsWith textContent (correctAnswer ++ ")") || startsWith textContent (correctAnswer ++ " ")

/-- The body of the `forEach` of `handleQuizAnswer` for one option. -/
def lockOption (correctAnswer : String) (opt : OptionButton) : OptionButton :=
  let opt := { opt with disabled := true }
  if matchesCorrect correctAnswer opt.textContent then
    { opt with classList := classListAdd opt.classList "correct" }
  else opt

/-- The marking of the clicked button after the loop. -/
def markSelected (button : OptionButton) : OptionButton :=
  let button :=
    if !button.classList.contains "correct" then
      { button with classList := classListAdd button.classList "incorrect" }
    else button
  { button with classList := classListAdd button.classList "selected" }

/-- `f` applied to the element at index `n`. -/
def updateAt {α : Type} (f : α → α) : Nat → List α → List α
  | _, [] => []
  | 0, x :: xs => f x :: xs
  | n + 1, x :: xs => x :: updateAt f n xs

/-- `handleQuizAnswer(button, correctAnswer)` on the question that contains the
button; `button` is the index of the clicked option among the options. -/
def handleQuizAnswer (questionDiv : QuizQuestionDiv) (button : Nat) (correctAnswer : String) :
    QuizQuestionDiv where
  options := updateAt markSelected button (questionDiv.options.map (lockOption correctAnswer))
  explanation := questionDiv.explanation.map fun explanation =>
    if !(trim explanation.textContent).toList.isEmpty then
      { explanation with classList := classListAdd explanation.classList "visible" }
    else explanation

/-! ### Search -/

/-- An entry of `result.relatedTopics`. -/
structure Topic where
  text : String
  url : Option String
deriving DecidableEq, Repr

/-- The `result` object of `GET /api/search`; `none` is `null`. -/
structure SearchResult where
  query : String
  aiSummary : Option String
  abstract : Option String
  abstractSource : Option String
  abstractUrl : Option String
  definition : Option String
  answer : Option String
  relatedTopics : List Topic
deriving DecidableEq, Repr

/-- Truthiness of a value that is a string, `null` or `undefined`. -/
def truthy (v : Option String) : Bool :=
  match v with
  | some s => !s.toList.isEmpty
  | none => false

/-- The markup of one related topic. -/
def topicHtml (topic : Topic) : String :=
  "\n              <div class=\"search-result-text\" style=\"margin-bottom: 0.5rem;\">"
    ++ topic.text ++ "</div>\n              "
    ++ (if truthy topic.url then
          "<a href=\"" ++ topic.url.getD "" ++
            "\" target=\"_blank\" class=\"search-result-link\">Learn more →</a>"
        else "")
    ++ "\n            "

/-- The literal message of `handleSearch` for a result without any block. -/
def noResultsHtml (query : String) : String :=
  "\n          <div class=\"search-result-item\">\n            <div class=\"search-result-text\">No results found for \""
    ++ query
    ++ "\". Try a different search term or ask the AI chatbot above!</div>\n          </div>\n        "

/-- The value of `html` that `handleSearch` builds from `data.result`
(lines 620-683). -/
def searchResultHtml (query : String) (result : SearchResult) : String :=
  let html := ""
  let html :=
    if truthy result.aiSummary then
      html ++ ("\n          <div class=\"search-result-item\" style=\"background: linear-gradient(135deg, #E0F2FE 0%, #F0F9FF 100%); border: 1px solid #7DD3FC;\">\n            <div class=\"search-result-title\" style=\"display: flex; align-items: center; gap: 0.5rem;\">\n              <span>🤖</span> AI Summary\n            </div>\n            <div class=\"search-result-text\">"
        ++ replaceAll (literal "\n" "<br>") (result.aiSummary.getD "")
        ++ "</div>\n          </div>\n        ")
    else html
  let html :=
    if truthy result.abstract then
      html ++ ("\n          <div class=\"search-result-item\">\n            <div class=\"search-result-title\">📚 "
        ++ (if truthy result.abstractSource then result.abstractSource.getD "" else result.query)
        ++ "</div>\n            <div class=\"search-result-text\">"
        ++ result.abstract.getD ""
        ++ "</div>\n            "
        ++ (if truthy result.abstractUrl then
              "<a href=\"" ++ result.abstractUrl.getD "" ++
                "\" target=\"_blank\" class=\"search-result-link\">Read more →</a>"
            else "")
        ++ "\n          </div>\n        ")
    else html
  let html :=
    if truthy result.definition then
      html ++ ("\n          <div class=\"search-result-item\">\n            <div class=\"search-result-title\">📖 Definition</div>\n            <div class=\"search-result-text\">"
        ++ result.definition.getD ""
        ++ "</div>\n          </div>\n        ")
    else html
  let html :=
    if truthy result.answer then
      html ++ ("\n          <div class=\"search-result-item\">\n            <div class=\"search-result-title\">💡 Quick Answer</div>\n            <div class=\"search-result-text\">"
        ++ result.answer.getD ""
        ++ "</div>\n          </div>\n        ")
    else html
  let html :=
    if result.relatedTopics.length > 0 then
      html ++ ("\n          <div class=\"search-result-item\">\n            <div class=\"search-result-title\">🔗 Related Topics</div>\n            "
        ++ String.join (result.relatedTopics.map topicHtml)
        ++ "\n          </div>\n        ")
    else html
  if html.toList.isEmpty then noResultsHtml query else html

/-! ### The blocks of the search markup (vocabulary of the statements) -/

/-- The markup of the AI Summary block of `handleSearch`. -/
def aiSummaryBlock (result : SearchResult) : String :=
  "\n          <div class=\"search-result-item\" style=\"background: linear-gradient(135deg, #E0F2FE 0%, #F0F9FF 100%); border: 1px solid #7DD3FC;\">\n            <div class=\"search-result-title\" style=\"display: flex; align-items: center; gap: 0.5rem;\">\n              <span>🤖</span> AI Summary\n            </div>\n            <div class=\"search-result-text\">"
        ++ replaceAll (literal "\n" "<br>") (result.aiSummary.getD "")
        ++ "</div>\n          </div>\n        "

/-- The markup of the abstract block of `handleSearch`. -/
def abstractBlock (result : SearchResult) : String :=
  "\n          <div class=\"search-result-item\">\n            <div class=\"search-result-title\">📚 "
        ++ (if truthy result.abstractSource then result.abstractSource.getD "" else result.query)
        ++ "</div>\n            <div class=\"search-result-text\">"
        ++ result.abstract.getD ""
        ++ "</div>\n            "
        ++ (if truthy result.abstractUrl then
              "<a href=\"" ++ result.abstractUrl.getD "" ++
                "\" target=\"_blank\" class=\"search-result-link\">Read more →</a>"
            else "")
        ++ "\n          </div>\n        "

/-- The markup of the Definition block of `handleSearch`. -/
def definitionBlock (result : SearchResult) : String :=
  "\n          <div class=\"search-result-item\">\n            <div class=\"search-result-title\">📖 Definition</div>\n            <div class=\"search-result-text\">"
        ++ result.definition.getD ""
        ++ "</div>\n          </div>\n        "

/-- The markup of the Quick Answer block of `handleSearch`. -/
def answerBlock (result : SearchResult) : String :=
  "\n          <div class=\"search-result-item\">\n            <div class=\"search-result-title\">💡 Quick Answer</div>\n            <div class=\"search-result-text\">"
        ++ result.answer.getD ""
        ++ "</div>\n          </div>\n        "

/-- The markup of the Related Topics block of `handleSearch`. -/
def relatedTopicsBlock (result : SearchResult) : String :=
  "\n          <div class=\"search-result-item\">\n            <div class=\"search-result-title\">🔗 Related Topics</div>\n            "
        ++ String.join (result.relatedTopics.map topicHtml)
        ++ "\n          </div>\n        "

/-- What the client receives for its search request: the `fetch` or the JSON
decoding throws, or the body is `data` with `data.success && data.result`
falsy, or `data.result` is a result. -/
inductive SearchResponse where
  | failed
  | noResult
  | success (result : SearchResult)
deriving DecidableEq, Repr

/-- `handleSearch()`: the final markup of the `searchResults` element, `none`
when the function returns at once because the trimmed input is empty.
`input` is `searchInput.value`. -/
def handleSearch (input : String) (response : SearchResponse) : Option String :=
  let query := trim input
  if query.toList.isEmpty then none
  else
    match response with
    | .success result => some (searchResultHtml query result)
    | .noResult =>
      some "<div class=\"search-result-item\"><div class=\"search-result-text\">No results found. Try asking the AI chatbot instead!</div></div>"
    | .failed =>
      some "<div class=\"results-error\">Search failed. Make sure the server is running.</div>"

/-! ## Search handler (`src/server.js`) -/

/-- An entry of `ddgData.RelatedTopics`; `none` is a missing field. -/
structure DdgTopic where
  Text : Option String
  FirstURL : Option String
deriving DecidableEq, Repr

/-- The fields of the instant-answer reply that the handler reads; `none` is a
missing field. -/
structure DdgData where
  Abstract : Option String
  AbstractSource : Option String
  AbstractURL : Option String
  Definition : Option String
  Answer : Option String
  RelatedTopics : Option (List DdgTopic)
deriving DecidableEq, Repr

/-- The empty upstream object `{}`. -/
def DdgData.empty : DdgData :=
  ⟨none, none, none, none, none, none⟩

/-- `value || null`. -/
def orNull (v : Option String) : Option String :=
  if truthy v then v else none

/-- The `searchContext` string (lines 359-378). -/
def searchContext (ddgData : DdgData) : String :=
  let searchContext := ""
  let searchContext :=
    if truthy ddgData.Abstract then
      searchContext ++ ("Main Info: " ++ ddgData.Abstract.getD "" ++ "\n")
    else searchContext
  let searchContext :=
    if truthy ddgData.Definition then
      searchContext ++ ("Definition: " ++ ddgData.Definition.getD "" ++ "\n")
    else searchContext
  let searchContext :=
    if truthy ddgData.Answer then
      searchContext ++ ("Answer: " ++ ddgData.Answer.getD "" ++ "\n")
    else searchContext
  match ddgData.RelatedTopics with
  | none => searchContext
  | some relatedTopics =>
    if relatedTopics.length > 0 then
      let topics := String.intercalate "\n"
        (((relatedTopics.take 5).filter (fun t => truthy t.Text)).map (fun t => t.Text.getD ""))
      if !topics.toList.isEmpty then
        searchContext ++ ("Related Information:\n" ++ topics ++ "\n")
      else searchContext
    else searchContext

/-- The system prompt of the search enhancement. -/
def searchSystemPrompt : String :=
  "You are a helpful research assistant. Based on the search results provided, give a clear, educational answer to the user's question. Be concise but informative. If the information is incomplete, say so."

/-- The user prompt of the search enhancement. -/
def searchUserPrompt (q searchContext : String) : String :=
  "User searched for: \"" ++ q ++ "\"\n\nSearch results:\n" ++ searchContext
    ++ "\n\nProvide a helpful, well-organized answer based on this information."

/-- The AI enhancement (lines 380-399): the requests issued and the value of
`aiSummary`; a failure of the completion client leaves `null`. -/
def searchAiSummary (cfg : ModelConfig) (hf : Remote) (q : String) (ddgData : DdgData) :
    List ChatRequest × Option String :=
  if !(trim (searchContext ddgData)).toList.isEmpty then
    let run := generateChatCompletion cfg hf searchSystemPrompt
      (searchUserPrompt q (searchContext ddgData)) 0
    match run.result with
    | .ok text => (run.calls, some text)
    | .error _ => (run.calls, none)
  else ([], none)

/-- The `result` object assembled at lines 402-414. -/
def searchResult (q : String) (ddgData : DdgData) (aiSummary : Option String) :
    SearchResult where
  query := q
  aiSummary := aiSummary
  abstract := orNull ddgData.Abstract
  abstractSource := orNull ddgData.AbstractSource
  abstractUrl := orNull ddgData.AbstractURL
  definition := orNull ddgData.Definition
  answer := orNull ddgData.Answer
  relatedTopics :=
    ((((ddgData.RelatedTopics.getD []).take 5).map
        (fun topic => (topic.Text, topic.FirstURL))).filter (fun t => truthy t.1)).map
      (fun t => { text := t.1.getD "", url := t.2 })

/-- The success path of `GET /api/search` for a non-empty query `q` and the
decoded upstream reply: the requests issued to the inference endpoint and the
`result` of the response `{ success: true, result }`. -/
def apiSearch (cfg : ModelConfig) (hf : Remote) (q : String) (ddgData : DdgData) :
    List ChatRequest × SearchResult :=
  let ai := searchAiSummary cfg hf q ddgData
  (ai.1, searchResult q ddgData ai.2)

/-! ## Completion with history and vision (`src/server.js`) -/

/-- The request of `generateChatCompletionWithHistory` for one attempt. -/
def historyRequest (cfg : ModelConfig) (messages : List Message) (retryCount : Nat) :
    ChatRequest where
  model := cfg.modelAt retryCount
  messages := messages
  max_tokens := 2048
  temperature := 7

/-- `generateChatCompletionWithHistory(messages, retryCount)`. -/
def generateChatCompletionWithHistory (cfg : ModelConfig) (hf : Remote)
    (messages : List Message) (retryCount : Nat) : Run :=
  let req := historyRequest cfg messages retryCount
  match hf retryCount req with
  | .ok content => ⟨[req], .ok content⟩
  | .error message =>
    if retryCount < cfg.models.length - 1 then
      let rest := generateChatCompletionWithHistory cfg hf messages (retryCount + 1)
      ⟨req :: rest.calls, rest.result⟩
    else
      ⟨[req], .error ("AI generation failed: " ++ message)⟩
termination_by cfg.models.length - 1 - retryCount
decreasing_by omega

/-- `const VISION_MODEL`. -/
def VISION_MODEL : String := "Qwen/Qwen2.5-VL-7B-Instruct"

/-- A part of the `content` array of the vision message. -/
inductive ContentPart where
  | text (text : String)
  | image_url (url : String)
deriving DecidableEq, Repr

/-- The message of the vision request. -/
structure VisionMessage where
  role : String
  content : List ContentPart
deriving DecidableEq, Repr

/-- The argument object of `hf.chatCompletion` in `processImageWithVision`. -/
structure VisionRequest where
  model : String
  messages : List VisionMessage
  max_tokens : Nat
deriving DecidableEq, Repr

/-- Outcome of the body of the `try` block of `processImageWithVision`, as
`Remote` is for the text client. -/
abbrev VisionRemote := VisionRequest → Except String String

/-- What a run of `processImageWithVision` did. -/
structure VisionRun where
  calls : List VisionRequest
  result : Except String String
deriving DecidableEq, Repr

/-- The alphabet of base64. -/
def base64Alphabet : List Char :=
  "ABCDEFGHIJKLMNOPQRSTUVWXYZabcdefghijklmnopqrstuvwxyz0123456789+/".toList

/-- The base64 digit of a value below 64. -/
def base64Digit (n : Nat) : Char :=
  base64Alphabet.getD (n % 64) 'A'

/-- Base64 of a list of bytes, three bytes to four digits, padded with `=`. -/
def base64Chars : List Nat → List Char
  | [] => []
  | [a] => [base64Digit (a / 4), base64Digit (a % 4 * 16), '=', '=']
  | [a, b] =>
    [base64Digit (a / 4), base64Digit (a % 4 * 16 + b / 16), base64Digit (b % 16 * 4), '=']
  | a :: b :: c :: rest =>
    base64Digit (a / 4) :: base64Digit (a % 4 * 16 + b / 16)
      :: base64Digit (b % 16 * 4 + c / 64) :: base64Digit (c % 64) :: base64Chars rest

/-- `buffer.toString('base64')`; a buffer is the list of its bytes. -/
def toBase64 (buffer : List Nat) : String :=
  String.mk (base64Chars (buffer.map fun b => b % 256))

/-- `processImageWithVision(imageBuffer, prompt)`. -/
def processImageWithVision (hfVision : VisionRemote) (imageBuffer : List Nat)
    (prompt : String) : VisionRun :=
  let base64Image := toBase64 imageBuffer
  let mimeType := "image/png"
  let req : VisionRequest :=
    { model := VISION_MODEL
      messages :=
        [{ role := "user"
           content :=
             [.text prompt, .image_url ("data:" ++ mimeType ++ ";base64," ++ base64Image)] }]
      max_tokens := 2048 }
  match hfVision req with
  | .ok content => ⟨[req], .ok content⟩
  | .error message => ⟨[req], .error ("Vision processing failed: " ++ message)⟩

/-! ## Request handlers (`src/server.js`) -/

/-- The file of a multipart request (`req.file`). -/
structure UploadedFile where
  mimetype : String
  buffer : List Nat
deriving DecidableEq, Repr

/-- What the generation handlers read of a request: `req.body.text` and
`req.file`; `none` is a missing field. -/
structure GenerateRequest where
  text : Option String
  file : Option UploadedFile
deriving DecidableEq, Repr

/-- The reply of a handler: `200` with the payload of `{ success: true, ... }`,
`400` with `{ error }`, or `500` with `{ error }`. -/
inductive Reply (β : Type) where
  | ok (payload : β)
  | clientError (error : String)
  | serverError (error : String)
deriving DecidableEq, Repr

/-- The status code of a reply. -/
def Reply.status {β : Type} : Reply β → Nat
  | .ok _ => 200
  | .clientError _ => 400
  | .serverError _ => 500

/-- What a handler did: the vision requests and the text requests it issued,
in order, and its reply. -/
structure HandlerRun (β : Type) where
  visionCalls : List VisionRequest
  calls : List ChatRequest
  reply : Reply β

/-- The input extraction shared by the three generation handlers (lines
159-171, 214-223, 290-299): the vision requests issued and the value of
`textContent`, or the message of the error thrown.  `decode` is
`buffer.toString('utf-8')`, the UTF-8 decoding of the platform. -/
def extractTextContent (hfVision : VisionRemote) (decode : List Nat → String)
    (visionPrompt : String) (req : GenerateRequest) :
    List VisionRequest × Except String String :=
  let textContent := if truthy req.text then req.text.getD "" else ""
  match req.file with
  | none => ([], .ok textContent)
  | some file =>
    let isImage := startsWith file.mimetype "image/"
    if isImage then
      let run := processImageWithVision hfVision file.buffer visionPrompt
      (run.calls, run.result)
    else if file.mimetype = "text/plain" then
      ([], .ok (decode file.buffer))
    else ([], .ok textContent)

/-- The system prompt of the flashcard handler. -/
def flashcardsSystemPrompt : String :=
  "You are an expert educational content creator. Generate flashcards from the provided text.\n\nRules:\n1. Create 5-10 flashcards based on the key concepts\n2. Each flashcard should have a clear question and concise answer\n3. Focus on the most important information\n\nOutput format (JSON array):\n[\n  \x7b\"question\": \"What is...?\", \"answer\": \"...\"\x7d,\n  \x7b\"question\": \"How does...?\", \"answer\": \"...\"\x7d\n]\n\nReturn ONLY the JSON array, no other text."

/-- The system prompt of the summary handler. -/
def summarySystemPrompt : String :=
  "You are an expert summarizer. Create a clear, concise summary.\n\nRules:\n1. Capture the main ideas and key points\n2. Keep the summary to 3-5 paragraphs\n3. Use bullet points for key takeaways\n\nFormat:\n## Summary\n[Your summary]\n\n## Key Takeaways\n- Point 1\n- Point 2\n- Point 3"

/-- The system prompt of the quiz handler. -/
def quizSystemPrompt : String :=
  "You are an expert quiz creator. Generate a quiz from the provided text.\n\nRules:\n1. Create 5 multiple choice questions\n2. Each question should have 4 options (A, B, C, D)\n3. Include the correct answer\n\nOutput format (JSON array):\n[\n  \x7b\n    \"question\": \"What is...?\",\n    \"options\": [\"A) Option 1\", \"B) Option 2\", \"C) Option 3\", \"D) Option 4\"],\n    \"correct\": \"A\",\n    \"explanation\": \"Brief explanation\"\n  \x7d\n]\n\nReturn ONLY the JSON array."

/-- The common shape of the three generation handlers: input extraction, the
`400` reply for blank text, the completion, and `finish` applied to the raw
response; an error thrown on the way gives the `500` reply of the `catch`. -/
def generationHandler {β : Type} (cfg : ModelConfig) (hf : Remote) (hfVision : VisionRemote)
    (decode : List Nat → String) (visionPrompt systemPrompt : String)
    (finish : String → β) (req : GenerateRequest) : HandlerRun β :=
  let extracted := extractTextContent hfVision decode visionPrompt req
  match extracted.2 with
  | .error message => ⟨extracted.1, [], .serverError message⟩
  | .ok textContent =>
    if (trim textContent).toList.isEmpty then
      ⟨extracted.1, [], .clientError "No text content provided"⟩
    else
      let run := generateChatCompletion cfg hf systemPrompt textContent 0
      match run.result with
      | .error message => ⟨extracted.1, run.calls, .serverError message⟩
      | .ok response => ⟨extracted.1, run.calls, .ok (finish response)⟩

/-- `POST /api/generate-flashcards`; the payload is the `flashcards` value. -/
def generateFlashcardsHandler (cfg : ModelConfig) (hf : Remote) (hfVision : VisionRemote)
    (decode : List Nat → String) (req : GenerateRequest) : HandlerRun Json :=
  generationHandler cfg hf hfVision decode
    "Extract all text from this image. Return only the text content."
    flashcardsSystemPrompt parseFlashcardsResponse req

/-- `POST /api/summarize`; the payload is the `summary` value. -/
def summarizeHandler (cfg : ModelConfig) (hf : Remote) (hfVision : VisionRemote)
    (decode : List Nat → String) (req : GenerateRequest) : HandlerRun String :=
  generationHandler cfg hf hfVision decode "Extract all text from this image."
    summarySystemPrompt (fun summary => summary) req

/-- `POST /api/generate-quiz`; the payload is the `quiz` value. -/
def generateQuizHandler (cfg : ModelConfig) (hf : Remote) (hfVision : VisionRemote)
    (decode : List Nat → String) (req : GenerateRequest) : HandlerRun Json :=
  generationHandler cfg hf hfVision decode "Extract all text from this image."
    quizSystemPrompt parseQuizResponse req

/-- The body of a chat request; `none` is a missing field. -/
structure ChatBody where
  message : Option String
  context : Option String
  history : Option (List Message)
deriving DecidableEq, Repr

/-- The system prompt of the chat handler (lines 264-268). -/
def chatSystemPrompt (context : Option String) : String :=
  "You are Quizolute, a helpful AI study buddy. You help students learn and understand their study materials.\n\n"
    ++ (if truthy context then
          "Context from uploaded documents:\n" ++ context.getD "" ++ "\n\n"
        else "")
    ++ "\n\nBe friendly, encouraging, and educational. Keep responses concise but helpful. Use plain text without markdown formatting - avoid using asterisks (*), hashtags (#), or other markdown symbols."

/-- The `messages` array of the chat handler (lines 271-275). -/
def chatMessageList (message : String) (context : Option String) (history : List Message) :
    List Message :=
  [⟨"system", chatSystemPrompt context⟩] ++ sliceLast 8 history ++ [⟨"user", message⟩]

/-- `POST /api/chat`; the payload is the `response` value. -/
def chatHandler (cfg : ModelConfig) (hf : Remote) (body : ChatBody) : HandlerRun String :=
  let history := body.history.getD []
  if !truthy body.message then ⟨[], [], .clientError "No message provided"⟩
  else
    let messages := chatMessageList (body.message.getD "") body.context history
    let run := generateChatCompletionWithHistory cfg hf messages 0
    match run.result with
    | .error message => ⟨[], run.calls, .serverError message⟩
    | .ok response => ⟨[], run.calls, .ok response⟩

/-- `GET /api/search`: `q` is `req.query.q`, `upstream` the decoded reply of
the instant-answer service or the message of the error thrown by the `fetch`. -/
def searchHandler (cfg : ModelConfig) (hf : Remote) (q : Option String)
    (upstream : Except String DdgData) : HandlerRun SearchResult :=
  if !truthy q then ⟨[], [], .clientError "No search query provided"⟩
  else
    match upstream with
    | .error message => ⟨[], [], .serverError message⟩
    | .ok ddgData =>
      let run := apiSearch cfg hf (q.getD "") ddgData
      ⟨[], run.1, .ok run.2⟩

/-! ## Generation request of the client (`src/script.js`) -/

/-- A selected file as `handleGenerate` reads it: `file.type`, and the text
that `readFileAsText(file)` resolves to. -/
structure ClientFile where
  type : String
  text : String
deriving DecidableEq, Repr

/-- An entry appended to the `FormData` of the request. -/
inductive FormEntry where
  | file (file : ClientFile)
  | text (text : String)
deriving DecidableEq, Repr

/-- The generation mode, `currentMode`. -/
inductive Mode where
  | flashcards
  | summary
  | quiz
deriving DecidableEq, Repr

/-- The first `switch` of `handleGenerate`: the endpoint of the mode. -/
def Mode.endpoint : Mode → String
  | .flashcards => "/generate-flashcards"
  | .summary => "/summarize"
  | .quiz => "/generate-quiz"

/-- One turn of the `for` loop of `handleGenerate` on the pair
`(allText, formData)`. -/
def collectFile (acc : String × List FormEntry) (file : ClientFile) :
    String × List FormEntry :=
  if file.type = "text/plain" then (acc.1 ++ (file.text ++ "\n\n"), acc.2)
  else if startsWith file.type "image/" then (acc.1, acc.2 ++ [.file file])
  else acc

/-- What `handleGenerate` has done when it dispatches the request: the new
value of the global `documentContext`, the form data and the endpoint. -/
structure GenerateDispatch where
  documentContext : String
  formData : List FormEntry
  endpoint : String
deriving DecidableEq, Repr

/-- `handleGenerate()` up to the `fetch` (lines 270-322); the rest of the
function renders the reply and does not assign `documentContext`.  `none` is
the immediate return for an empty file list, which leaves everything as it
is. -/
def handleGenerate (uploadedFiles : List ClientFile) (currentMode : Mode)
    (documentContext : String) : Option GenerateDispatch :=
  if uploadedFiles.length = 0 then none
  else
    let collected := uploadedFiles.foldl collectFile ("", [])
    let allText := collected.1
    let formData := collected.2
    if !(trim allText).toList.isEmpty then
      some { documentContext := allText
             formData := formData ++ [.text allText]
             endpoint := currentMode.endpoint }
    else
      some { documentContext := documentContext
             formData := formData
             endpoint := currentMode.endpoint }

/-- The value of `documentContext` after `handleGenerate()`. -/
def documentContextAfter (uploadedFiles : List ClientFile) (currentMode : Mode)
    (documentContext : String) : String :=
  match handleGenerate uploadedFiles currentMode documentContext with
  | some dispatch => dispatch.documentContext
  | none => documentContext

/-- The texts of the `text/plain` files of a request, each followed by an
empty line (vocabulary of the statements). -/
def textOfTextFiles (files : List ClientFile) : String :=
  String.join ((files.filter fun f => f.type = "text/plain").map fun f => f.text ++ "\n\n")

/-! # Properties -/

/-! ### Lemmas on the fallback chain -/

theorem generateChatCompletion_ok (cfg : ModelConfig) (hf : Remote) (sp um : String)
    (r : Nat) (t : String)
    (h : hf r (completionRequest cfg sp um r) = .ok t) :
    generateChatCompletion cfg hf sp um r = ⟨[completionRequest cfg sp um r], .ok t⟩ := by
  rw [generateChatCompletion]
  simp only [h]

theorem generateChatCompletion_error_step (cfg : ModelConfig) (hf : Remote) (sp um : String)
    (r : Nat) (e : String)
    (h : hf r (completionRequest cfg sp um r) = .error e)
    (hr : r < cfg.models.length - 1) :
    generateChatCompletion cfg hf sp um r =
      ⟨completionRequest cfg sp um r :: (generateChatCompletion cfg hf sp um (r + 1)).calls,
       (generateChatCompletion cfg hf sp um (r + 1)).result⟩ := by
  rw [generateChatCompletion]
  simp only [h, hr, if_true]

theorem generateChatCompletion_error_last (cfg : ModelConfig) (hf : Remote) (sp um : String)
    (r : Nat) (e : String)
    (h : hf r (completionRequest cfg sp um r) = .error e)
    (hr : ¬ r < cfg.models.length - 1) :
    generateChatCompletion cfg hf sp um r =
      ⟨[completionRequest cfg sp um r], .error ("AI generation failed: " ++ e)⟩ := by
  rw [generateChatCompletion]
  simp only [h, hr, if_false]

/-- Models `r .. r+d-1` fail, model `r+d` succeeds: `d+1` calls, in order. -/
theorem generateChatCompletion_fail_then_ok (cfg : ModelConfig) (hf : Remote) (sp um : String)
    (t : String) (d : Nat) : ∀ r : Nat,
    r + d < cfg.models.length →
    (∀ i, r ≤ i → i < r + d → ∃ e, hf i (completionRequest cfg sp um i) = .error e) →
    hf (r + d) (completionRequest cfg sp um (r + d)) = .ok t →
    generateChatCompletion cfg hf sp um r =
      ⟨(List.range' r (d + 1)).map (completionRequest cfg sp um), .ok t⟩ := by
  induction d with
  | zero =>
    intro r _ _ hok
    simpa using generateChatCompletion_ok cfg hf sp um r t (by simpa using hok)
  | succ d ih =>
    intro r hlen hfail hok
    obtain ⟨e, he⟩ := hfail r (Nat.le_refl r) (by omega)
    have hstep := generateChatCompletion_error_step cfg hf sp um r e he (by omega)
    have hrec := ih (r + 1) (by omega) (fun i h1 h2 => hfail i (by omega) (by omega))
      (by rw [show r + 1 + d = r + (d + 1) by omega]; exact hok)
    rw [hstep, hrec]
    simp [List.range'_succ]

/-- Models `r .. r+d` all fail and `r+d` is the last index: `d+1` calls and one
wrapped error carrying the last message. -/
theorem generateChatCompletion_all_fail (cfg : ModelConfig) (hf : Remote) (sp um : String)
    (e : String) (d : Nat) : ∀ r : Nat,
    r + d = cfg.models.length - 1 →
    (∀ i, r ≤ i → i < r + d → ∃ m, hf i (completionRequest cfg sp um i) = .error m) →
    hf (r + d) (completionRequest cfg sp um (r + d)) = .error e →
    generateChatCompletion cfg hf sp um r =
      ⟨(List.range' r (d + 1)).map (completionRequest cfg sp um),
       .error ("AI generation failed: " ++ e)⟩ := by
  induction d with
  | zero =>
    intro r hlen _ herr
    simpa using generateChatCompletion_error_last cfg hf sp um r e (by simpa using herr)
      (by omega)
  | succ d ih =>
    intro r hlen hfail herr
    obtain ⟨m, hm⟩ := hfail r (Nat.le_refl r) (by omega)
    have hstep := generateChatCompletion_error_step cfg hf sp um r m hm (by omega)
    have hrec := ih (r + 1) (by omega) (fun i h1 h2 => hfail i (by omega) (by omega))
      (by rw [show r + 1 + d = r + (d + 1) by omega]; exact herr)
    rw [hstep, hrec]
    simp [List.range'_succ]

/-- At an index inside the list `modelAt` is the list element. -/
theorem modelAt_map_range (cfg : ModelConfig) (k : Nat) (hk : k < cfg.models.length) :
    (List.range' 0 (k + 1)).map cfg.modelAt = cfg.models.take (k + 1) := by
  apply List.ext_getElem
  · simp; omega
  · intro i h1 h2
    simp only [List.length_map, List.length_range'] at h1
    simp only [List.getElem_map, List.getElem_range', List.getElem_take]
    simp only [ModelConfig.modelAt]
    have hi : min (0 + 1 * i) (cfg.models.length - 1) = i := by omega
    rw [hi, List.getD_eq_getElem?_getD, List.getElem?_eq_getElem (by omega)]
    rfl

theorem dropWhile_append_cons {α : Type} (p : α → Bool) (l : List α) (a : α) (r : List α)
    (hl : ∀ x ∈ l, p x = true) (ha : p a = false) :
    (l ++ a :: r).dropWhile p = a :: r := by
  induction l with
  | nil => simp [List.dropWhile, ha]
  | cons x xs ih =>
    have hx : p x = true := hl x (List.mem_cons_self x xs)
    simp only [List.cons_append, List.dropWhile, hx]
    exact ih (fun y hy => hl y (List.mem_cons_of_mem x hy))

theorem dropWhile_cons_split {α : Type} (p : α → Bool) (l : List α) (a : α) (r : List α)
    (h : l.dropWhile p = a :: r) : p a = false ∧ l = l.takeWhile p ++ a :: r := by
  constructor
  · have := List.head_dropWhile_not p l (by rw [h]; simp)
    simpa [h] using this
  · rw [← h, List.takeWhile_append_dropWhile]

/-- The match of the bracket scan when the text is `pre [ mid ] post` with no
`[` in `pre` and no `]` in `post`. -/
theorem bracketMatch_span (pre mid post : String)
    (hpre : '[' ∉ pre.toList) (hpost : ']' ∉ post.toList) :
    bracketMatch (pre ++ "[" ++ mid ++ "]" ++ post) = some ("[" ++ mid ++ "]") := by
  have h1 : (pre ++ "[" ++ mid ++ "]" ++ post).toList
      = pre.toList ++ '[' :: (mid.toList ++ ']' :: post.toList) := by
    simp [String.toList]
  have h2 : (pre.toList ++ '[' :: (mid.toList ++ ']' :: post.toList)).dropWhile
      (fun c => c != '[') = '[' :: (mid.toList ++ ']' :: post.toList) := by
    apply dropWhile_append_cons
    · intro x hx
      have : x ≠ '[' := fun h => hpre (h ▸ hx)
      simpa using this
    · simp
  have h3 : (mid.toList ++ ']' :: post.toList).reverse.dropWhile (fun c => c != ']')
      = ']' :: mid.toList.reverse := by
    rw [List.reverse_append, List.reverse_cons, List.append_assoc]
    apply dropWhile_append_cons
    · intro x hx
      have hx' : x ∈ post.toList := by simpa using hx
      have : x ≠ ']' := fun h => hpost (h ▸ hx')
      simpa using this
    · simp
  unfold bracketMatch
  rw [h1, h2]
  simp only [h3]
  congr 1
  apply String.ext
  simp [String.toList]

/-- The bracket scan fails when no `[` of the text is followed by a `]`. -/
theorem bracketMatch_none (response : String)
    (h : ∀ pre mid post : List Char, response.toList ≠ pre ++ '[' :: (mid ++ ']' :: post)) :
    bracketMatch response = none := by
  unfold bracketMatch
  split
  · rfl
  · next x rest hd =>
    obtain ⟨hx, hsplit⟩ := dropWhile_cons_split _ _ _ _ hd
    have hx' : x = '[' := by simpa using hx
    split
    · rfl
    · next body hne =>
      exfalso
      cases hb : rest.reverse.dropWhile (fun c => c != ']') with
      | nil => exact hne hb
      | cons y body' =>
        obtain ⟨hy, hsplit'⟩ := dropWhile_cons_split _ _ _ _ hb
        have hy' : y = ']' := by simpa using hy
        have hrest : rest = body'.reverse ++ ']' ::
            (rest.reverse.takeWhile (fun c => c != ']')).reverse := by
          have := congrArg List.reverse hsplit'
          simpa [hy'] using this
        apply h (response.toList.takeWhile (fun c => c != '[')) body'.reverse
          ((rest.reverse.takeWhile (fun c => c != ']')).reverse)
        rw [← hrest]
        subst hx'
        exact hsplit

/-! ### Lemmas on the markdown conversion -/

theorem replaceAllAux_skip (m : Matcher) : ∀ (xs : List Char) (b : Bool) (ys : List Char),
    ∃ b', replaceAllAux m xs.length b (xs ++ ys) = replaceAllAux m 0 b' ys := by
  intro xs
  induction xs with
  | nil => intro b ys; exact ⟨b, rfl⟩
  | cons x xs ih =>
    intro b ys
    obtain ⟨b', hb'⟩ := ih (isLineTerminator x) ys
    exact ⟨b', by simpa [replaceAllAux] using hb'⟩

theorem replaceAllAux_copy (m : Matcher) (ys : List Char) : ∀ (xs : List Char),
    (∀ c ∈ xs, ∀ b rest, m b (c :: rest) = none) →
    ∀ b, ∃ b', replaceAllAux m 0 b (xs ++ ys) = xs ++ replaceAllAux m 0 b' ys := by
  intro xs
  induction xs with
  | nil => intro _ b; exact ⟨b, rfl⟩
  | cons x xs ih =>
    intro h b
    obtain ⟨b', hb'⟩ := ih (fun c hc => h c (List.mem_cons_of_mem x hc)) (isLineTerminator x)
    refine ⟨b', ?_⟩
    have hx := h x (List.mem_cons_self x xs) b (xs ++ ys)
    show replaceAllAux m 0 b (x :: (xs ++ ys)) = _
    rw [replaceAllAux, hx]
    simp [hb']

theorem replaceAllAux_id (m : Matcher) (cs : List Char)
    (h : ∀ c ∈ cs, ∀ b rest, m b (c :: rest) = none) (b : Bool) :
    replaceAllAux m 0 b cs = cs := by
  obtain ⟨b', hb'⟩ := replaceAllAux_copy m [] cs h b
  simpa [replaceAllAux] using hb'

theorem replaceAll_id (m : Matcher) (text : String)
    (h : ∀ c ∈ text.toList, ∀ b rest, m b (c :: rest) = none) :
    replaceAll m text = text := by
  unfold replaceAll
  rw [replaceAllAux_id m _ h]
  rfl

/-- A one-character literal is replaced character by character. -/
theorem replaceAllAux_literal_char (x : Char) (rep : String) (cs : List Char) (b : Bool) :
    replaceAllAux (literal (String.mk [x]) rep) 0 b cs
      = cs.flatMap (fun c => if c = x then rep.toList else [c]) := by
  induction cs generalizing b with
  | nil => rfl
  | cons c cs ih =>
    by_cases hc : c = x
    · subst hc
      simp [replaceAllAux, literal, String.length, ih]
    · have hc' : ¬ x = c := fun h => hc h.symm
      simp [replaceAllAux, literal, hc, hc', ih]

theorem literal_none (pat rep : String) (p : Char) (ps : List Char) (hp : pat.data = p :: ps)
    (c : Char) (hc : c ≠ p) (b : Bool) (rest : List Char) :
    literal pat rep b (c :: rest) = none := by
  have hc' : ¬ p = c := fun h => hc h.symm
  simp [literal, hp, hc']

theorem lineMatcher_none (anchored : Bool) (marker o cl : String) (p : Char) (ps : List Char)
    (hp : marker.data = p :: ps)
    (c : Char) (hc : c ≠ p) (b : Bool) (rest : List Char) :
    lineMatcher anchored marker o cl b (c :: rest) = none := by
  have hc' : ¬ p = c := fun h => hc h.symm
  simp [lineMatcher, hp, hc']

theorem delimitedMatcher_none (delim o cl : String) (p : Char) (ps : List Char)
    (hp : delim.data = p :: ps)
    (c : Char) (hc : c ≠ p) (b : Bool) (rest : List Char) :
    delimitedMatcher delim o cl b (c :: rest) = none := by
  have hc' : ¬ p = c := fun h => hc h.symm
  simp [delimitedMatcher, hp, hc']

theorem codeBlockMatcher_none (c : Char) (hc : c ≠ Char.ofNat 96) (b : Bool) (rest : List Char) :
    codeBlockMatcher b (c :: rest) = none := by
  have hc' : ¬ Char.ofNat 96 = c := fun h => hc h.symm
  simp [codeBlockMatcher, fence, hc']

theorem inlineCodeMatcher_none (c : Char) (hc : c ≠ Char.ofNat 96) (b : Bool)
    (rest : List Char) : inlineCodeMatcher b (c :: rest) = none := by
  simp [inlineCodeMatcher, hc]

theorem bulletMatcher_none (c : Char) (h1 : c ≠ '-') (h2 : c ≠ '*') (b : Bool)
    (rest : List Char) : bulletMatcher b (c :: rest) = none := by
  simp [bulletMatcher, lineMatcher_none true "- " "<li>" "</li>" '-' [' '] rfl c h1,
    lineMatcher_none true "* " "<li>" "</li>" '*' [' '] rfl c h2]

theorem numberedMatcher_none (c : Char) (hc : c.isDigit = false) (b : Bool)
    (rest : List Char) : numberedMatcher b (c :: rest) = none := by
  simp [numberedMatcher, List.takeWhile, hc]

theorem listBlockMatcher_none (c : Char) (hc : c ≠ '<') (b : Bool)
    (rest : List Char) : listBlockMatcher b (c :: rest) = none := by
  have hc' : ¬ '<' = c := fun h => hc h.symm
  simp [listBlockMatcher, hc']

theorem replaceAll_literal_char_toList (x : Char) (pat rep : String) (hpat : pat = String.mk [x])
    (text : String) :
    (replaceAll (literal pat rep) text).toList
      = text.toList.flatMap (fun c => if c = x then rep.toList else [c]) := by
  subst hpat
  exact replaceAllAux_literal_char x rep text.toList true

/-- The three escaping replacements of `markdownToHtml` amount to the
character-wise escaping. -/
theorem escape_chain_eq (text : String) :
    replaceAll (literal ">" "&gt;") (replaceAll (literal "<" "&lt;")
      (replaceAll (literal "&" "&amp;") text)) = escapeHtmlSpec text := by
  apply String.ext
  show (replaceAll (literal ">" "&gt;") _).toList = _
  rw [replaceAll_literal_char_toList '>' ">" "&gt;" rfl,
    replaceAll_literal_char_toList '<' "<" "&lt;" rfl,
    replaceAll_literal_char_toList '&' "&" "&amp;" rfl,
    List.flatMap_assoc, List.flatMap_assoc]
  show _ = text.toList.flatMap escapeChar
  congr 1
  funext c
  by_cases h1 : c = '&'
  · subst h1; decide
  · by_cases h2 : c = '<'
    · subst h2; decide
    · by_cases h3 : c = '>'
      · subst h3; decide
      · simp [escapeChar, h1, h2, h3]

theorem escapeHtmlSpec_chars (text : String)
    (hplain : ∀ c ∈ text.toList, isMarkdownTrigger c = false) :
    ∀ c ∈ (escapeHtmlSpec text).toList,
      isMarkdownTrigger c = false ∧ c ≠ '<' ∧ c ≠ '>' := by
  intro c hc
  have hc' : c ∈ text.toList.flatMap escapeChar := hc
  obtain ⟨a, ha, hca⟩ := List.mem_flatMap.mp hc'
  unfold escapeChar at hca
  split at hca
  · have : ∀ x ∈ "&amp;".toList, isMarkdownTrigger x = false ∧ x ≠ '<' ∧ x ≠ '>' := by decide
    exact this c hca
  · split at hca
    · have : ∀ x ∈ "&lt;".toList, isMarkdownTrigger x = false ∧ x ≠ '<' ∧ x ≠ '>' := by decide
      exact this c hca
    · split at hca
      · have : ∀ x ∈ "&gt;".toList, isMarkdownTrigger x = false ∧ x ≠ '<' ∧ x ≠ '>' := by
          decide
        exact this c hca
      · have hca' : c = a := by simpa using hca
        subst hca'
        exact ⟨hplain c ha, by assumption, by assumption⟩

theorem escapeHtmlSpec_ne_nil (text : String) (hne : text ≠ "") :
    (escapeHtmlSpec text).toList ≠ [] := by
  intro h
  have h' : text.toList.flatMap escapeChar = [] := h
  rw [List.flatMap_eq_nil_iff] at h'
  cases ht : text.toList with
  | nil => exact hne (String.ext ht)
  | cons a as =>
    have := h' a (by rw [ht]; exact List.mem_cons_self a as)
    unfold escapeChar at this
    split at this
    · exact absurd this (by decide)
    · split at this
      · exact absurd this (by decide)
      · split at this
        · exact absurd this (by decide)
        · exact absurd this (by simp)

theorem markdownToHtml_plain (text : String) (hne : text ≠ "")
    (hplain : ∀ c ∈ text.toList, isMarkdownTrigger c = false) :
    markdownToHtml text = "<p>" ++ escapeHtmlSpec text ++ "</p>"
      ∧ '<' ∉ (escapeHtmlSpec text).toList ∧ '>' ∉ (escapeHtmlSpec text).toList := by
  have hE := escapeHtmlSpec_chars text hplain
  have hT : ∀ c ∈ (escapeHtmlSpec text).toList,
      c ≠ '#' ∧ c ≠ '*' ∧ c ≠ '_' ∧ c ≠ Char.ofNat 96 ∧ c ≠ '-' ∧ c.isDigit = false
        ∧ c ≠ '\n' ∧ c ≠ '<' := by
    intro c hc
    obtain ⟨h1, h2, _⟩ := hE c hc
    simp only [isMarkdownTrigger, Bool.or_eq_false_iff, beq_eq_false_iff_ne] at h1
    obtain ⟨⟨⟨⟨⟨⟨a1, a2⟩, a3⟩, a4⟩, a5⟩, a6⟩, a7⟩ := h1
    exact ⟨a1, a2, a3, a4, a5, a6, a7, h2⟩
  refine ⟨?_, fun h => (hE _ h).2.1 rfl, fun h => (hE _ h).2.2 rfl⟩
  have hnil : text.toList.isEmpty = false := by
    cases ht : text.toList with
    | nil => exact absurd (String.ext ht) hne
    | cons a as => rfl
  unfold markdownToHtml
  rw [if_neg (by rw [hnil]; simp)]
  simp only [escape_chain_eq]
  rw [replaceAll_id (lineMatcher true "### " "<h4>" "</h4>") _
      (fun c hc => lineMatcher_none _ _ _ _ '#' _ rfl c (hT c hc).1),
    replaceAll_id (lineMatcher true "## " "<h3>" "</h3>") _
      (fun c hc => lineMatcher_none _ _ _ _ '#' _ rfl c (hT c hc).1),
    replaceAll_id (lineMatcher true "# " "<h2>" "</h2>") _
      (fun c hc => lineMatcher_none _ _ _ _ '#' _ rfl c (hT c hc).1),
    replaceAll_id (delimitedMatcher "**" "<strong>" "</strong>") _
      (fun c hc => delimitedMatcher_none _ _ _ '*' _ rfl c (hT c hc).2.1),
    replaceAll_id (delimitedMatcher "__" "<strong>" "</strong>") _
      (fun c hc => delimitedMatcher_none _ _ _ '_' _ rfl c (hT c hc).2.2.1),
    replaceAll_id (delimitedMatcher "*" "<em>" "</em>") _
      (fun c hc => delimitedMatcher_none _ _ _ '*' _ rfl c (hT c hc).2.1),
    replaceAll_id (delimitedMatcher "_" "<em>" "</em>") _
      (fun c hc => delimitedMatcher_none _ _ _ '_' _ rfl c (hT c hc).2.2.1),
    replaceAll_id codeBlockMatcher _
      (fun c hc => codeBlockMatcher_none c (hT c hc).2.2.2.1),
    replaceAll_id inlineCodeMatcher _
      (fun c hc => inlineCodeMatcher_none c (hT c hc).2.2.2.1),
    replaceAll_id bulletMatcher _
      (fun c hc => bulletMatcher_none c (hT c hc).2.2.2.2.1 (hT c hc).2.1),
    replaceAll_id numberedMatcher _
      (fun c hc => numberedMatcher_none c (hT c hc).2.2.2.2.2.1),
    replaceAll_id (literal "\n\n" "</p><p>") _
      (fun c hc => literal_none _ _ '\n' _ rfl c (hT c hc).2.2.2.2.2.2.1),
    replaceAll_id (literal "\n" "<br>") _
      (fun c hc => literal_none _ _ '\n' _ rfl c (hT c hc).2.2.2.2.2.2.1),
    replaceAll_id listBlockMatcher _
      (fun c hc => listBlockMatcher_none c (hT c hc).2.2.2.2.2.2.2)]
  cases hl : (escapeHtmlSpec text).toList with
  | nil => exact absurd hl (escapeHtmlSpec_ne_nil text hne)
  | cons e es =>
    have he : ¬ '<' = e := fun h => (hT e (by rw [hl]; exact List.mem_cons_self e es)).2.2.2.2.2.2.2 h.symm
    have hs : ∀ t : List Char, startsWith (escapeHtmlSpec text) (String.mk ('<' :: t)) = false := by
      intro t
      have hl' : (escapeHtmlSpec text).data = e :: es := hl
      simp [startsWith, hl', List.isPrefixOf, he]
    have h1 : startsWith (escapeHtmlSpec text) "<h" = false := hs ['h']
    have h2 : startsWith (escapeHtmlSpec text) "<ul" = false := hs ['u', 'l']
    have h3 : startsWith (escapeHtmlSpec text) "<pre" = false := hs ['p', 'r', 'e']
    simp [h1, h2, h3]

/-! ### The list conversion of `renderSummary` -/

theorem joinWrapped_data_cons_cons (sep o c : String) (i j : String) (rest : List String) :
    (joinWrapped sep o c (i :: j :: rest)).data
      = o.data ++ i.data ++ c.data ++ sep.data ++ (joinWrapped sep o c (j :: rest)).data := by
  simp [joinWrapped]

theorem joinWrapped_data_single (sep o c : String) (i : String) :
    (joinWrapped sep o c [i]).data = o.data ++ i.data ++ c.data := by
  simp [joinWrapped]

theorem restOfLine_append (item t : List Char)
    (hitem : ∀ c ∈ item, isLineTerminator c = false)
    (ht : t = [] ∨ ∃ u, t = '\n' :: u) : restOfLine (item ++ t) = item := by
  induction item with
  | nil =>
    rcases ht with rfl | ⟨u, rfl⟩
    · rfl
    · simp [restOfLine, List.takeWhile, isLineTerminator]
  | cons x xs ih =>
    have hx := hitem x (List.mem_cons_self x xs)
    have := ih (fun c hc => hitem c (List.mem_cons_of_mem x hc))
    simp only [restOfLine] at this ⊢
    simp [List.takeWhile, hx, this]

/-- One `- item` line under the list-item expression of `renderSummary`. -/
theorem bullet_line_step (item t : List Char)
    (hitem : ∀ c ∈ item, isLineTerminator c = false)
    (ht : t = [] ∨ ∃ u, t = '\n' :: u) (b : Bool) :
    ∃ b', replaceAllAux (lineMatcher false "- " "<li>" "</li>") 0 b
        ('-' :: ' ' :: (item ++ t))
      = "<li>".data ++ item ++ "</li>".data
          ++ replaceAllAux (lineMatcher false "- " "<li>" "</li>") 0 b' t := by
  have hg := restOfLine_append item t hitem ht
  obtain ⟨b', hb'⟩ := replaceAllAux_skip (lineMatcher false "- " "<li>" "</li>")
    (' ' :: item) (isLineTerminator '-') t
  refine ⟨b', ?_⟩
  have hm : lineMatcher false "- " "<li>" "</li>" b ('-' :: ' ' :: (item ++ t))
      = some ("<li>".data ++ item ++ "</li>".data, 2 + item.length) := by
    simp [lineMatcher, String.length, hg]
  rw [replaceAllAux, hm]
  have hlen : 2 + item.length - 1 = (' ' :: item).length := by simp; omega
  simp only [hlen]
  rw [show ' ' :: (item ++ t) = (' ' :: item) ++ t by rfl, hb']

theorem bulletLines_data_single (i : String) :
    (bulletLines [i]).data = '-' :: ' ' :: (i.data ++ []) := by
  simp [bulletLines, joinWrapped]

theorem bulletLines_data_cons_cons (i j : String) (rest : List String) :
    (bulletLines (i :: j :: rest)).data
      = '-' :: ' ' :: (i.data ++ '\n' :: (bulletLines (j :: rest)).data) := by
  simp [bulletLines, joinWrapped]

/-- Second replacement of `renderSummary` on consecutive `- item` lines. -/
theorem summary_step_li (items : List String)
    (hplain : ∀ i ∈ items, ∀ c ∈ i.data, isLineTerminator c = false) :
    ∀ b, replaceAllAux (lineMatcher false "- " "<li>" "</li>") 0 b (bulletLines items).data
      = (joinWrapped "\n" "<li>" "</li>" items).data := by
  induction items with
  | nil => intro b; rfl
  | cons i rest ih =>
    intro b
    have hi := hplain i (List.mem_cons_self i rest)
    cases rest with
    | nil =>
      obtain ⟨b', hb'⟩ := bullet_line_step i.data [] hi (Or.inl rfl) b
      rw [bulletLines_data_single, hb', joinWrapped_data_single]
      simp [replaceAllAux]
    | cons j rest' =>
      have ih' := ih (fun k hk => hplain k (List.mem_cons_of_mem i hk))
      obtain ⟨b', hb'⟩ := bullet_line_step i.data ('\n' :: (bulletLines (j :: rest')).data) hi
        (Or.inr ⟨_, rfl⟩) b
      rw [bulletLines_data_cons_cons, hb', joinWrapped_data_cons_cons]
      have hn : lineMatcher false "- " "<li>" "</li>" b'
          ('\n' :: (bulletLines (j :: rest')).data) = none :=
        lineMatcher_none _ _ _ _ '-' [' '] rfl '\n' (by decide) _ _
      rw [replaceAllAux, hn]
      simp only [ih']
      simp

theorem bulletLines_no_hash (items : List String)
    (hplain : ∀ i ∈ items, ∀ c ∈ i.data, c ≠ '#') :
    ∀ c ∈ (bulletLines items).data, c ≠ '#' := by
  induction items with
  | nil => intro c hc; simp [bulletLines, joinWrapped] at hc
  | cons i rest ih =>
    have hi := hplain i (List.mem_cons_self i rest)
    cases rest with
    | nil =>
      intro c hc
      rw [bulletLines_data_single] at hc
      simp only [List.mem_cons, List.mem_append, List.not_mem_nil, or_false] at hc
      rcases hc with rfl | rfl | hc
      · decide
      · decide
      · exact hi c hc
    | cons j rest' =>
      have ih' := ih (fun k hk => hplain k (List.mem_cons_of_mem i hk))
      intro c hc
      rw [bulletLines_data_cons_cons] at hc
      simp only [List.mem_cons, List.mem_append] at hc
      rcases hc with rfl | rfl | hc | rfl | hc
      · decide
      · decide
      · exact hi c hc
      · decide
      · exact ih' c hc

theorem listItem_chars (i : List Char) (hi : ∀ c ∈ i, isLineTerminator c = false) :
    ∀ c ∈ "<li>".data ++ i ++ "</li>".data, isLineTerminator c = false := by
  intro c hc
  simp only [List.mem_append] at hc
  rcases hc with (hc | hc) | hc
  · revert c; decide
  · exact hi c hc
  · revert c; decide

theorem joinWrapped_li_head (sep : String) (j : String) (rest : List String) :
    ∃ u, (joinWrapped sep "<li>" "</li>" (j :: rest)).data = '<' :: u := by
  cases rest with
  | nil => exact ⟨_, by rw [joinWrapped_data_single]; rfl⟩
  | cons k rest' => exact ⟨_, by rw [joinWrapped_data_cons_cons]; rfl⟩

theorem ne_newline_of_not_lineTerminator (c : Char) (h : isLineTerminator c = false) :
    c ≠ '\n' := by
  intro hc
  subst hc
  exact absurd h (by decide)

/-- Third replacement of `renderSummary`: no blank line between the items. -/
theorem summary_step_paragraph (items : List String)
    (hplain : ∀ i ∈ items, ∀ c ∈ i.data, isLineTerminator c = false) :
    ∀ b, replaceAllAux (literal "\n\n" "</p><p>") 0 b
        (joinWrapped "\n" "<li>" "</li>" items).data
      = (joinWrapped "\n" "<li>" "</li>" items).data := by
  induction items with
  | nil => intro b; rfl
  | cons i rest ih =>
    intro b
    have hi := listItem_chars i.data (hplain i (List.mem_cons_self i rest))
    have hcopy : ∀ c ∈ "<li>".data ++ i.data ++ "</li>".data, ∀ b rest,
        literal "\n\n" "</p><p>" b (c :: rest) = none := fun c hc b rest =>
      literal_none _ _ '\n' ['\n'] rfl c (ne_newline_of_not_lineTerminator c (hi c hc)) b rest
    cases rest with
    | nil =>
      rw [joinWrapped_data_single]
      exact replaceAllAux_id _ _ hcopy b
    | cons j rest' =>
      have ih' := ih (fun k hk => hplain k (List.mem_cons_of_mem i hk))
      obtain ⟨u, hu⟩ := joinWrapped_li_head "\n" j rest'
      rw [joinWrapped_data_cons_cons, List.append_assoc]
      obtain ⟨b', hb'⟩ := replaceAllAux_copy (literal "\n\n" "</p><p>")
        ("\n".data ++ (joinWrapped "\n" "<li>" "</li>" (j :: rest')).data) _ hcopy b
      rw [hb']
      congr 1
      show replaceAllAux _ 0 b' ('\n' :: (joinWrapped "\n" "<li>" "</li>" (j :: rest')).data) = _
      have hn : literal "\n\n" "</p><p>" b'
          ('\n' :: (joinWrapped "\n" "<li>" "</li>" (j :: rest')).data) = none := by
        rw [hu]; simp [literal]
      rw [replaceAllAux, hn, ih']
      rfl

/-- Fourth replacement of `renderSummary`: every newline becomes `<br>`. -/
theorem summary_step_break (items : List String)
    (hplain : ∀ i ∈ items, ∀ c ∈ i.data, isLineTerminator c = false) :
    ∀ b, replaceAllAux (literal "\n" "<br>") 0 b
        (joinWrapped "\n" "<li>" "</li>" items).data
      = (joinWrapped "<br>" "<li>" "</li>" items).data := by
  induction items with
  | nil => intro b; rfl
  | cons i rest ih =>
    intro b
    have hi := listItem_chars i.data (hplain i (List.mem_cons_self i rest))
    have hcopy : ∀ c ∈ "<li>".data ++ i.data ++ "</li>".data, ∀ b rest,
        literal "\n" "<br>" b (c :: rest) = none := fun c hc b rest =>
      literal_none _ _ '\n' [] rfl c (ne_newline_of_not_lineTerminator c (hi c hc)) b rest
    cases rest with
    | nil =>
      rw [joinWrapped_data_single, joinWrapped_data_single]
      exact replaceAllAux_id _ _ hcopy b
    | cons j rest' =>
      have ih' := ih (fun k hk => hplain k (List.mem_cons_of_mem i hk))
      rw [joinWrapped_data_cons_cons, joinWrapped_data_cons_cons, List.append_assoc,
        List.append_assoc ("<li>".data ++ i.data ++ "</li>".data)]
      obtain ⟨b', hb'⟩ := replaceAllAux_copy (literal "\n" "<br>")
        ("\n".data ++ (joinWrapped "\n" "<li>" "</li>" (j :: rest')).data) _ hcopy b
      rw [hb']
      congr 1
      show replaceAllAux _ 0 b' ('\n' :: (joinWrapped "\n" "<li>" "</li>" (j :: rest')).data) = _
      have hm : literal "\n" "<br>" b'
          ('\n' :: (joinWrapped "\n" "<li>" "</li>" (j :: rest')).data)
          = some ("<br>".data, 1) := by
        simp [literal, String.length]
      rw [replaceAllAux, hm]
      simp only [Nat.sub_self, ih']

theorem throughLast_append_self (xs : List Char) :
    throughLast "</li>".data (xs ++ "</li>".data) = some (xs ++ "</li>".data) := by
  induction xs with
  | nil => rfl
  | cons x xs ih => simp [throughLast, ih]

theorem listItems_no_lineTerminator (items : List String)
    (hplain : ∀ i ∈ items, ∀ c ∈ i.data, isLineTerminator c = false) :
    ∀ c ∈ (joinWrapped "<br>" "<li>" "</li>" items).data, isLineTerminator c = false := by
  induction items with
  | nil => intro c hc; simp [joinWrapped] at hc
  | cons i rest ih =>
    have hi := listItem_chars i.data (hplain i (List.mem_cons_self i rest))
    cases rest with
    | nil =>
      rw [joinWrapped_data_single]
      exact hi
    | cons j rest' =>
      have ih' := ih (fun k hk => hplain k (List.mem_cons_of_mem i hk))
      intro c hc
      rw [joinWrapped_data_cons_cons] at hc
      rcases List.mem_append.mp hc with hc | hc
      · rcases List.mem_append.mp hc with hc | hc
        · exact hi c hc
        · have hbr : ∀ x ∈ "<br>".data, isLineTerminator x = false := by decide
          exact hbr c hc
      · exact ih' c hc

theorem listItems_shape (items : List String) (hne : items ≠ []) :
    ∃ v, (joinWrapped "<br>" "<li>" "</li>" items).data
      = '<' :: 'l' :: 'i' :: '>' :: (v ++ "</li>".data) := by
  induction items with
  | nil => exact absurd rfl hne
  | cons i rest ih =>
    cases rest with
    | nil => exact ⟨i.data, by rw [joinWrapped_data_single]; rfl⟩
    | cons j rest' =>
      obtain ⟨v, hv⟩ := ih (by simp)
      refine ⟨i.data ++ "</li>".data ++ "<br>".data ++ '<' :: 'l' :: 'i' :: '>' :: v, ?_⟩
      rw [joinWrapped_data_cons_cons, hv]
      simp

/-- Last replacement of `renderSummary`: the items, now on one line, are
wrapped in one list block. -/
theorem summary_step_wrap (items : List String) (hne : items ≠ [])
    (hplain : ∀ i ∈ items, ∀ c ∈ i.data, isLineTerminator c = false) (b : Bool) :
    replaceAllAux listBlockMatcher 0 b (joinWrapped "<br>" "<li>" "</li>" items).data
      = "<ul>".data ++ (joinWrapped "<br>" "<li>" "</li>" items).data ++ "</ul>".data := by
  obtain ⟨v, hv⟩ := listItems_shape items hne
  have hno := listItems_no_lineTerminator items hplain
  rw [hv] at hno ⊢
  have hbody : ∀ c ∈ v ++ "</li>".data, isLineTerminator c = false := fun c hc =>
    hno c (by simp only [List.mem_cons]; right; right; right; right; exact hc)
  have hrest : restOfLine (v ++ "</li>".data) = v ++ "</li>".data := by
    have := restOfLine_append (v ++ "</li>".data) [] hbody (Or.inl rfl)
    simpa using this
  have hm : listBlockMatcher b ('<' :: 'l' :: 'i' :: '>' :: (v ++ "</li>".data))
      = some ("<ul>".data ++ "<li>".data ++ (v ++ "</li>".data) ++ "</ul>".data,
          4 + (v ++ "</li>".data).length) := by
    have hp : "<li>".toList.isPrefixOf ('<' :: 'l' :: 'i' :: '>' :: (v ++ "</li>".data))
        = true := by simp [List.isPrefixOf]
    simp only [listBlockMatcher, hp, if_true, List.drop_succ_cons, List.drop_zero, hrest]
    rw [show throughLast "</li>".toList (v ++ ['<', '/', 'l', 'i', '>'])
      = some (v ++ ['<', '/', 'l', 'i', '>']) from throughLast_append_self v]
    rfl
  obtain ⟨b', hb'⟩ := replaceAllAux_skip listBlockMatcher
    ('l' :: 'i' :: '>' :: (v ++ "</li>".data)) (isLineTerminator '<') []
  have hlen : 4 + (v ++ "</li>".data).length - 1
      = ('l' :: 'i' :: '>' :: (v ++ "</li>".data)).length := by
    simp only [List.length_cons]; omega
  rw [replaceAllAux, hm]
  simp only [hlen]
  rw [List.append_nil] at hb'
  rw [hb']
  simp [replaceAllAux]

/-- The conversion of `renderSummary` on consecutive `- item` lines. -/
theorem summaryToHtml_bulletLines (items : List String) (hne : items ≠ [])
    (hplain : ∀ i ∈ items, ∀ c ∈ i.data, isLineTerminator c = false ∧ c ≠ '#') :
    summaryToHtml (bulletLines items)
      = "<ul>" ++ joinWrapped "<br>" "<li>" "</li>" items ++ "</ul>" := by
  have h0 : ∀ i ∈ items, ∀ c ∈ i.data, isLineTerminator c = false :=
    fun i hi c hc => (hplain i hi c hc).1
  have h1 : replaceAll (lineMatcher false "## " "<h2>" "</h2>") (bulletLines items)
      = bulletLines items :=
    replaceAll_id _ _ (fun c hc => lineMatcher_none _ _ _ _ '#' _ rfl c
      (bulletLines_no_hash items (fun i hi c hc => (hplain i hi c hc).2) c hc))
  have h2 : replaceAll (lineMatcher false "- " "<li>" "</li>") (bulletLines items)
      = joinWrapped "\n" "<li>" "</li>" items :=
    String.ext (summary_step_li items h0 true)
  have h3 : replaceAll (literal "\n\n" "</p><p>") (joinWrapped "\n" "<li>" "</li>" items)
      = joinWrapped "\n" "<li>" "</li>" items :=
    String.ext (summary_step_paragraph items h0 true)
  have h4 : replaceAll (literal "\n" "<br>") (joinWrapped "\n" "<li>" "</li>" items)
      = joinWrapped "<br>" "<li>" "</li>" items :=
    String.ext (summary_step_break items h0 true)
  have h5 : replaceAll listBlockMatcher (joinWrapped "<br>" "<li>" "</li>" items)
      = "<ul>" ++ joinWrapped "<br>" "<li>" "</li>" items ++ "</ul>" := by
    apply String.ext
    have := summary_step_wrap items hne h0 true
    simpa [replaceAll] using this
  unfold summaryToHtml
  rw [h1, h2, h3, h4, h5]

/-! ### Counting tags -/

theorem occurrencesAux_skip (ps xs ys : List Char) (h : ∀ c ∈ xs, c ≠ '<') :
    occurrencesAux ('<' :: ps) (xs ++ ys) = occurrencesAux ('<' :: ps) ys := by
  induction xs with
  | nil => rfl
  | cons x xs ih =>
    have hx : ¬ '<' = x := fun e => h x (List.mem_cons_self x xs) e.symm
    have := ih (fun c hc => h c (List.mem_cons_of_mem x hc))
    simp [occurrencesAux, List.isPrefixOf, hx, this]

theorem occurrencesAux_ul_item (i t : List Char) (hi : ∀ c ∈ i, c ≠ '<') :
    occurrencesAux "<ul>".data ("<li>".data ++ i ++ "</li>".data ++ t)
      = occurrencesAux "<ul>".data t := by
  have h := occurrencesAux_skip ['u', 'l', '>'] i ('<' :: '/' :: 'l' :: 'i' :: '>' :: t) hi
  simp [occurrencesAux, List.isPrefixOf] at h ⊢
  rw [h]

theorem occurrencesAux_li_item (i t : List Char) (hi : ∀ c ∈ i, c ≠ '<') :
    occurrencesAux "<li>".data ("<li>".data ++ i ++ "</li>".data ++ t)
      = 1 + occurrencesAux "<li>".data t := by
  have h := occurrencesAux_skip ['l', 'i', '>'] i ('<' :: '/' :: 'l' :: 'i' :: '>' :: t) hi
  simp [occurrencesAux, List.isPrefixOf] at h ⊢
  rw [h]

theorem occurrencesAux_ul_listItems (items : List String)
    (hplain : ∀ i ∈ items, ∀ c ∈ i.data, c ≠ '<') (t : List Char) :
    occurrencesAux "<ul>".data ((joinWrapped "<br>" "<li>" "</li>" items).data ++ t)
      = occurrencesAux "<ul>".data t := by
  induction items with
  | nil => rfl
  | cons i rest ih =>
    have hi := hplain i (List.mem_cons_self i rest)
    cases rest with
    | nil => rw [joinWrapped_data_single, occurrencesAux_ul_item i.data t hi]
    | cons j rest' =>
      have ih' := ih (fun k hk => hplain k (List.mem_cons_of_mem i hk))
      rw [joinWrapped_data_cons_cons, List.append_assoc, List.append_assoc,
        occurrencesAux_ul_item i.data _ hi, ← ih']
      simp [occurrencesAux, List.isPrefixOf]

theorem occurrencesAux_li_listItems (items : List String)
    (hplain : ∀ i ∈ items, ∀ c ∈ i.data, c ≠ '<') (t : List Char) :
    occurrencesAux "<li>".data ((joinWrapped "<br>" "<li>" "</li>" items).data ++ t)
      = items.length + occurrencesAux "<li>".data t := by
  induction items with
  | nil => simp [joinWrapped]
  | cons i rest ih =>
    have hi := hplain i (List.mem_cons_self i rest)
    cases rest with
    | nil =>
      rw [joinWrapped_data_single, occurrencesAux_li_item i.data t hi]
      simp
    | cons j rest' =>
      have ih' := ih (fun k hk => hplain k (List.mem_cons_of_mem i hk))
      rw [joinWrapped_data_cons_cons, List.append_assoc, List.append_assoc,
        occurrencesAux_li_item i.data _ hi]
      have hbr : occurrencesAux "<li>".data ("<br>".data ++
          ((joinWrapped "<br>" "<li>" "</li>" (j :: rest')).data ++ t))
          = occurrencesAux "<li>".data
            ((joinWrapped "<br>" "<li>" "</li>" (j :: rest')).data ++ t) := by
        simp [occurrencesAux, List.isPrefixOf]
      rw [hbr, ih']
      simp only [List.length_cons]
      omega

theorem occurrences_listBlock (items : List String)
    (hplain : ∀ i ∈ items, ∀ c ∈ i.data, c ≠ '<') :
    occurrences "<ul>" ("<ul>" ++ joinWrapped "<br>" "<li>" "</li>" items ++ "</ul>") = 1
      ∧ occurrences "<li>" ("<ul>" ++ joinWrapped "<br>" "<li>" "</li>" items ++ "</ul>")
        = items.length := by
  have hu := occurrencesAux_ul_listItems items hplain "</ul>".data
  have hl := occurrencesAux_li_listItems items hplain "</ul>".data
  have hu0 : occurrencesAux "<ul>".data "</ul>".data = 0 := by decide
  have hl0 : occurrencesAux "<li>".data "</ul>".data = 0 := by decide
  rw [hu0] at hu
  rw [hl0] at hl
  constructor
  · simp only [occurrences, String.toList, String.data_append, List.append_assoc]
    simp [occurrencesAux, List.isPrefixOf] at hu ⊢
    exact hu
  · simp only [occurrences, String.toList, String.data_append, List.append_assoc]
    simp [occurrencesAux, List.isPrefixOf] at hl ⊢
    exact hl

/-! ### Lemmas on the chat history -/

theorem sliceLast_length_le {α : Type} (n : Nat) (xs : List α) :
    (sliceLast n xs).length ≤ n := by
  simp only [sliceLast, List.length_drop]
  omega

theorem sliceLast_of_length_le {α : Type} (n : Nat) (xs : List α) (h : xs.length ≤ n) :
    sliceLast n xs = xs := by
  simp [sliceLast, Nat.sub_eq_zero_of_le h]

theorem sliceLast_append {α : Type} (n : Nat) (a b : List α) :
    sliceLast n (sliceLast n a ++ b) = sliceLast n (a ++ b) := by
  by_cases h : a.length ≤ n
  · rw [sliceLast_of_length_le n a h]
  · simp only [sliceLast, List.length_append, List.length_drop, List.drop_append_eq_append_drop,
      List.drop_drop]
    have e1 : a.length - n + (a.length - (a.length - n) + b.length - n)
        = a.length + b.length - n := by omega
    have e2 : a.length - (a.length - n) + b.length - n - (a.length - (a.length - n))
        = a.length + b.length - n - a.length := by omega
    rw [e1, e2]

theorem addChatMessage_history (st : ChatState) (content : String) (isUser : Bool) :
    (addChatMessage st content isUser true).conversationHistory
      = sliceLast 10 (st.conversationHistory ++ [historyEntry (content, isUser)]) := by
  by_cases h : (st.conversationHistory ++ [historyEntry (content, isUser)]).length > 10
  · simp only [addChatMessage, historyEntry] at h ⊢
    simp only [if_true, if_pos h]
  · simp only [addChatMessage, historyEntry] at h ⊢
    simp only [if_true, if_neg h]
    rw [sliceLast_of_length_le]
    omega

theorem addChatMessages_history (calls : List (String × Bool)) : ∀ st : ChatState,
    st.conversationHistory.length ≤ 10 →
    (addChatMessages st calls).conversationHistory
      = sliceLast 10 (st.conversationHistory ++ calls.map historyEntry) := by
  induction calls with
  | nil =>
    intro st h
    simp [addChatMessages, sliceLast_of_length_le 10 _ h]
  | cons c cs ih =>
    intro st _
    have hstep : addChatMessages st (c :: cs)
        = addChatMessages (addChatMessage st c.1 c.2 true) cs := rfl
    rw [hstep, ih _ (by rw [addChatMessage_history]; exact sliceLast_length_le _ _),
      addChatMessage_history, sliceLast_append]
    simp

/-! ### Lemmas on the quiz -/

theorem updateAt_map_of_invariant {α β : Type} (f : α → α) (g : α → β)
    (h : ∀ x, g (f x) = g x) : ∀ (n : Nat) (l : List α),
    (updateAt f n l).map g = l.map g := by
  intro n l
  induction l generalizing n with
  | nil => cases n <;> rfl
  | cons x xs ih =>
    cases n with
    | zero => simp [updateAt, h]
    | succ n => simp [updateAt, ih]

theorem updateAt_getElem? {α : Type} (f : α → α) : ∀ (n : Nat) (l : List α) (j : Nat),
    (updateAt f n l)[j]? = if j = n then l[j]?.map f else l[j]? := by
  intro n l
  induction l generalizing n with
  | nil => intro j; cases n <;> simp [updateAt]
  | cons x xs ih =>
    intro j
    cases n with
    | zero =>
      cases j with
      | zero => simp [updateAt]
      | succ j => simp [updateAt]
    | succ n =>
      cases j with
      | zero => simp [updateAt]
      | succ j => simp [updateAt, ih]

theorem mem_classListAdd (classList : List String) (name x : String) :
    x ∈ classListAdd classList name ↔ x ∈ classList ∨ x = name := by
  unfold classListAdd
  split
  · next h =>
    constructor
    · exact Or.inl
    · rintro (h' | rfl)
      · exact h'
      · exact h
  · simp

theorem markSelected_disabled (b : OptionButton) : (markSelected b).disabled = b.disabled := by
  unfold markSelected
  split <;> rfl

theorem markSelected_correct (b : OptionButton) :
    "correct" ∈ (markSelected b).classList ↔ "correct" ∈ b.classList := by
  unfold markSelected
  split
  · simp [mem_classListAdd]
  · simp [mem_classListAdd]

theorem markSelected_incorrect (b : OptionButton) (h : "incorrect" ∉ b.classList) :
    "incorrect" ∈ (markSelected b).classList ↔ "correct" ∉ b.classList := by
  unfold markSelected
  split
  · next hc =>
    have hc' : "correct" ∉ b.classList := by simpa using hc
    simp [mem_classListAdd, hc']
  · next hc =>
    have hc' : "correct" ∈ b.classList := by simpa using hc
    simp [mem_classListAdd, hc', h]

theorem markSelected_selected (b : OptionButton) : "selected" ∈ (markSelected b).classList := by
  unfold markSelected
  simp [mem_classListAdd]

theorem lockOption_rendered (correctAnswer option : String) :
    (lockOption correctAnswer ⟨option, false, ["quiz-option"]⟩).disabled = true
      ∧ ("correct" ∈ (lockOption correctAnswer ⟨option, false, ["quiz-option"]⟩).classList
          ↔ matchesCorrect correctAnswer option = true)
      ∧ "incorrect" ∉ (lockOption correctAnswer ⟨option, false, ["quiz-option"]⟩).classList
      ∧ "selected" ∉ (lockOption correctAnswer ⟨option, false, ["quiz-option"]⟩).classList
      ∧ (lockOption correctAnswer ⟨option, false, ["quiz-option"]⟩).textContent = option := by
  unfold lockOption
  by_cases h : matchesCorrect correctAnswer option = true
  · simp [h, mem_classListAdd]
  · simp [h]

theorem updateAt_countP_of_invariant {α : Type} (f : α → α) (p : α → Bool)
    (h : ∀ x, p (f x) = p x) : ∀ (n : Nat) (l : List α),
    (updateAt f n l).countP p = l.countP p := by
  intro n l
  induction l generalizing n with
  | nil => cases n <;> rfl
  | cons x xs ih =>
    cases n with
    | zero => simp [updateAt, List.countP_cons, h]
    | succ n => simp [updateAt, List.countP_cons, ih]

/-- The body of the loop on any option: the option is disabled, keeps its text
and its classes, and gains `correct` exactly when its text matches. -/
theorem lockOption_spec (correctAnswer : String) (opt : OptionButton) :
    (lockOption correctAnswer opt).disabled = true
      ∧ (lockOption correctAnswer opt).textContent = opt.textContent
      ∧ ∀ x, x ∈ (lockOption correctAnswer opt).classList
          ↔ x ∈ opt.classList
            ∨ (x = "correct" ∧ matchesCorrect correctAnswer opt.textContent = true) := by
  unfold lockOption
  by_cases h : matchesCorrect correctAnswer opt.textContent = true
  · simp [h, mem_classListAdd]
  · simp [h]

theorem markSelected_textContent (b : OptionButton) :
    (markSelected b).textContent = b.textContent := by
  unfold markSelected
  split <;> rfl

/-! ### Lemmas on the search rendering -/

theorem ite_isEmpty_ne_empty (html fallback : String) (h : fallback ≠ "") :
    (if html.toList.isEmpty then fallback else html) ≠ "" := by
  split
  · exact h
  · next hne =>
    intro he
    rw [he] at hne
    exact hne rfl

theorem noResultsHtml_ne_empty (query : String) : noResultsHtml query ≠ "" := by
  intro h
  have := congrArg String.data h
  simp [noResultsHtml] at this

/-! ### Further lemmas on the fallback chain -/

/-- The shape of every run: `m ≥ 1` consecutive attempts from `retryCount` on,
never past the last index unless `retryCount` already is. -/
theorem generateChatCompletion_calls (cfg : ModelConfig) (hf : Remote) (sp um : String)
    (d : Nat) : ∀ r : Nat, cfg.models.length - 1 - r = d →
    ∃ m, 1 ≤ m ∧ m ≤ max 1 (cfg.models.length - r)
      ∧ (generateChatCompletion cfg hf sp um r).calls
        = (List.range' r m).map (completionRequest cfg sp um) := by
  induction d with
  | zero =>
    intro r hr
    refine ⟨1, le_refl 1, by omega, ?_⟩
    cases h : hf r (completionRequest cfg sp um r) with
    | ok t => rw [generateChatCompletion_ok cfg hf sp um r t h]; rfl
    | error e =>
      rw [generateChatCompletion_error_last cfg hf sp um r e h (by omega)]; rfl
  | succ d ih =>
    intro r hr
    cases h : hf r (completionRequest cfg sp um r) with
    | ok t =>
      refine ⟨1, le_refl 1, by omega, ?_⟩
      rw [generateChatCompletion_ok cfg hf sp um r t h]; rfl
    | error e =>
      obtain ⟨m, hm1, hm2, hcalls⟩ := ih (r + 1) (by omega)
      refine ⟨m + 1, by omega, by omega, ?_⟩
      rw [generateChatCompletion_error_step cfg hf sp um r e h (by omega), hcalls]
      simp [List.range'_succ]

/-- The models of consecutive attempts are consecutive models of the list. -/
theorem modelAt_map_range' (cfg : ModelConfig) (r m : Nat)
    (h2 : m ≤ max 1 (cfg.models.length - r)) :
    (List.range' r m).map cfg.modelAt
      = (cfg.models.drop (min r (cfg.models.length - 1))).take m := by
  have hpos : 0 < cfg.models.length := by simp [ModelConfig.models]
  apply List.ext_getElem
  · simp only [List.length_map, List.length_range', List.length_take, List.length_drop]
    omega
  · intro i hi1 hi2
    simp only [List.length_map, List.length_range'] at hi1
    simp only [List.getElem_map, List.getElem_range', List.getElem_take, List.getElem_drop]
    simp only [ModelConfig.modelAt]
    have hidx : min (r + 1 * i) (cfg.models.length - 1)
        = min r (cfg.models.length - 1) + i := by omega
    rw [hidx, List.getD_eq_getElem?_getD, List.getElem?_eq_getElem (by omega)]
    rfl

theorem generateChatCompletionWithHistory_eq (cfg : ModelConfig) (hf : Remote)
    (sp um : String) (d : Nat) : ∀ r : Nat, cfg.models.length - 1 - r = d →
    generateChatCompletionWithHistory cfg hf [⟨"system", sp⟩, ⟨"user", um⟩] r
      = generateChatCompletion cfg hf sp um r := by
  have hreq : ∀ r, historyRequest cfg [⟨"system", sp⟩, ⟨"user", um⟩] r
      = completionRequest cfg sp um r := fun _ => rfl
  induction d with
  | zero =>
    intro r hr
    rw [generateChatCompletionWithHistory, generateChatCompletion]
    simp only [hreq]
    cases hf r (completionRequest cfg sp um r) with
    | ok t => rfl
    | error e =>
      have hlt : ¬ r < cfg.models.length - 1 := by omega
      simp only [hlt, if_false]
  | succ d ih =>
    intro r hr
    rw [generateChatCompletionWithHistory, generateChatCompletion]
    simp only [hreq]
    cases hf r (completionRequest cfg sp um r) with
    | ok t => rfl
    | error e =>
      have hlt : r < cfg.models.length - 1 := by omega
      simp only [hlt, if_true, ih (r + 1) (by omega)]

/-- Every request of a run with history carries the message list given. -/
theorem generateChatCompletionWithHistory_calls (cfg : ModelConfig) (hf : Remote)
    (messages : List Message) (d : Nat) : ∀ r : Nat, cfg.models.length - 1 - r = d →
    (generateChatCompletionWithHistory cfg hf messages r).calls ≠ []
      ∧ ∀ c ∈ (generateChatCompletionWithHistory cfg hf messages r).calls,
          c.messages = messages := by
  induction d with
  | zero =>
    intro r hr
    rw [generateChatCompletionWithHistory]
    cases hf r (historyRequest cfg messages r) with
    | ok t => simp [historyRequest]
    | error e =>
      have hlt : ¬ r < cfg.models.length - 1 := by omega
      simp [hlt, historyRequest]
  | succ d ih =>
    intro r hr
    rw [generateChatCompletionWithHistory]
    cases hf r (historyRequest cfg messages r) with
    | ok t => simp [historyRequest]
    | error e =>
      have hlt : r < cfg.models.length - 1 := by omega
      obtain ⟨_, h2⟩ := ih (r + 1) (by omega)
      simp only [hlt, if_true]
      refine ⟨by simp, ?_⟩
      intro c hc
      rcases List.mem_cons.mp hc with rfl | hc
      · rfl
      · exact h2 c hc

/-! ### Lemmas on the generation request of the client -/

theorem foldl_append_string (l : List String) : ∀ acc : String,
    l.foldl (fun r s => r ++ s) acc = acc ++ l.foldl (fun r s => r ++ s) "" := by
  induction l with
  | nil => intro acc; simp
  | cons x xs ih =>
    intro acc
    simp only [List.foldl_cons]
    rw [ih (acc ++ x), ih ("" ++ x), String.empty_append, String.append_assoc]

theorem string_join_cons (x : String) (xs : List String) :
    String.join (x :: xs) = x ++ String.join xs := by
  simp only [String.join, List.foldl_cons]
  rw [foldl_append_string xs ("" ++ x), String.empty_append]

theorem collectFile_foldl_text (files : List ClientFile) : ∀ acc : String × List FormEntry,
    (files.foldl collectFile acc).1 = acc.1 ++ textOfTextFiles files := by
  induction files with
  | nil => intro acc; simp [textOfTextFiles, String.join]
  | cons f fs ih =>
    intro acc
    simp only [List.foldl_cons]
    rw [ih]
    by_cases h1 : f.type = "text/plain"
    · have hf : textOfTextFiles (f :: fs) = (f.text ++ "\n\n") ++ textOfTextFiles fs := by
        simp only [textOfTextFiles, List.filter_cons, h1, decide_True, if_true, List.map_cons]
        exact string_join_cons _ _
      rw [hf]
      simp only [collectFile, h1, if_true, String.append_assoc]
    · have hf : textOfTextFiles (f :: fs) = textOfTextFiles fs := by
        simp [textOfTextFiles, List.filter_cons, h1]
      rw [hf]
      by_cases h2 : startsWith f.type "image/" = true
      · simp only [collectFile, h1, if_false, h2, if_true]
      · simp [collectFile, h1, h2]

/-! ### Lemmas on the request handlers -/

theorem generationHandler_blank {β : Type} (cfg : ModelConfig) (hf : Remote)
    (hfVision : VisionRemote) (decode : List Nat → String) (visionPrompt systemPrompt : String)
    (finish : String → β) (req : GenerateRequest) (vc : List VisionRequest) (t : String)
    (hext : extractTextContent hfVision decode visionPrompt req = (vc, .ok t))
    (hblank : (trim t).toList.isEmpty = true) :
    (generationHandler cfg hf hfVision decode visionPrompt systemPrompt finish req).visionCalls
        = vc
      ∧ (generationHandler cfg hf hfVision decode visionPrompt systemPrompt finish req).calls = []
      ∧ (generationHandler cfg hf hfVision decode visionPrompt systemPrompt finish req).reply
        = .clientError "No text content provided" := by
  simp only [generationHandler, hext]
  rw [if_pos hblank]
  exact ⟨rfl, rfl, rfl⟩

theorem generationHandler_text {β : Type} (cfg : ModelConfig) (hf : Remote)
    (hfVision : VisionRemote) (decode : List Nat → String) (visionPrompt systemPrompt : String)
    (finish : String → β) (req : GenerateRequest) (vc : List VisionRequest) (t : String)
    (hext : extractTextContent hfVision decode visionPrompt req = (vc, .ok t))
    (htext : (trim t).toList.isEmpty = false) :
    (generationHandler cfg hf hfVision decode visionPrompt systemPrompt finish req).visionCalls
        = vc
      ∧ (generationHandler cfg hf hfVision decode visionPrompt systemPrompt finish req).calls
        = (generateChatCompletion cfg hf systemPrompt t 0).calls
      ∧ (∀ response, (generateChatCompletion cfg hf systemPrompt t 0).result = .ok response →
          (generationHandler cfg hf hfVision decode visionPrompt systemPrompt finish req).reply
            = .ok (finish response))
      ∧ (∀ message, (generateChatCompletion cfg hf systemPrompt t 0).result = .error message →
          (generationHandler cfg hf hfVision decode visionPrompt systemPrompt finish req).reply
            = .serverError message) := by
  simp only [generationHandler, hext, htext, Bool.false_eq_true, if_false]
  cases hres : (generateChatCompletion cfg hf systemPrompt t 0).result with
  | ok response =>
    refine ⟨rfl, rfl, ?_, ?_⟩
    · intro r hr; cases hr; rfl
    · intro m hm; cases hm
  | error message =>
    refine ⟨rfl, rfl, ?_, ?_⟩
    · intro r hr; cases hr
    · intro m hm; cases hm; rfl

theorem extractTextContent_cases (hfVision : VisionRemote) (decode : List Nat → String)
    (p : String) (req : GenerateRequest) :
    (∀ f, req.file = some f → startsWith f.mimetype "image/" = true →
        extractTextContent hfVision decode p req
          = ((processImageWithVision hfVision f.buffer p).calls,
             (processImageWithVision hfVision f.buffer p).result))
      ∧ (∀ f, req.file = some f → startsWith f.mimetype "image/" = false →
          f.mimetype = "text/plain" →
          extractTextContent hfVision decode p req = ([], .ok (decode f.buffer)))
      ∧ ((req.file = none ∨ ∃ f, req.file = some f ∧ startsWith f.mimetype "image/" = false
            ∧ f.mimetype ≠ "text/plain") →
          extractTextContent hfVision decode p req = ([], .ok (req.text.getD ""))) := by
  have hbody : (if truthy req.text then req.text.getD "" else "") = req.text.getD "" := by
    cases ht : req.text with
    | none => simp [truthy]
    | some t =>
      by_cases he : t.data = []
      · have : t = "" := String.ext he
        subst this
        simp [truthy]
      · simp [truthy, he]
  refine ⟨?_, ?_, ?_⟩
  · intro f hf himg
    simp only [extractTextContent, hf, himg, if_true]
  · intro f hf himg htxt
    simp only [extractTextContent, hf, himg, Bool.false_eq_true, if_false]
    rw [if_pos htxt]
  · rintro (hnone | ⟨f, hf, himg, htxt⟩)
    · simp only [extractTextContent, hnone, hbody]
    · simp only [extractTextContent, hf, himg, htxt, Bool.false_eq_true, if_false, hbody]

/-! ### Lemmas on the search handler -/

theorem searchContext_empty (ddgData : DdgData)
    (h1 : truthy ddgData.Abstract = false) (h2 : truthy ddgData.Definition = false)
    (h3 : truthy ddgData.Answer = false)
    (h4 : ∀ t ∈ (ddgData.RelatedTopics.getD []).take 5, truthy t.Text = false) :
    searchContext ddgData = "" := by
  unfold searchContext
  simp only [h1, h2, h3, Bool.false_eq_true, if_false]
  cases hr : ddgData.RelatedTopics with
  | none => rfl
  | some relatedTopics =>
    have hfilter : (relatedTopics.take 5).filter (fun t => truthy t.Text) = [] := by
      rw [List.filter_eq_nil_iff]
      intro t ht
      have := h4 t (by rw [hr]; exact ht)
      simp [this]
    simp only [hfilter, List.map_nil]
    split
    · rfl
    · rfl

theorem searchAiSummary_not_invoked (cfg : ModelConfig) (hf : Remote) (q : String)
    (ddgData : DdgData) (h : searchContext ddgData = "") :
    searchAiSummary cfg hf q ddgData = ([], none) := by
  unfold searchAiSummary
  rw [h]
  rfl

theorem searchHandler_ok (cfg : ModelConfig) (hf : Remote) (q : String) (ddgData : DdgData)
    (hq : q ≠ "") :
    (searchHandler cfg hf (some q) (.ok ddgData)).reply
        = .ok (searchResult q ddgData (searchAiSummary cfg hf q ddgData).2)
      ∧ (searchHandler cfg hf (some q) (.ok ddgData)).calls
        = (searchAiSummary cfg hf q ddgData).1 := by
  have ht : truthy (some q) = true := by
    have : ¬ q.data = [] := fun h => hq (String.ext h)
    simp [truthy, this]
  simp only [searchHandler, ht, Bool.not_true, Bool.false_eq_true, if_false, Option.getD_some,
    apiSearch, and_self]

/-! ### Lemmas on the order of the search blocks -/

theorem searchResultHtml_blocks (query : String) (result : SearchResult) :
    searchResultHtml query result
      = if ((if truthy result.aiSummary then aiSummaryBlock result else "")
            ++ (if truthy result.abstract then abstractBlock result else "")
            ++ (if truthy result.definition then definitionBlock result else "")
            ++ (if truthy result.answer then answerBlock result else "")
            ++ (if result.relatedTopics.length > 0 then relatedTopicsBlock result else "")
            ).toList.isEmpty
        then noResultsHtml query
        else (if truthy result.aiSummary then aiSummaryBlock result else "")
            ++ (if truthy result.abstract then abstractBlock result else "")
            ++ (if truthy result.definition then definitionBlock result else "")
            ++ (if truthy result.answer then answerBlock result else "")
            ++ (if result.relatedTopics.length > 0 then relatedTopicsBlock result else "") := by
  have e1 : ∀ x : String, "" ++ x = x := String.empty_append
  have e2 : ∀ x : String, x ++ "" = x := String.append_empty
  unfold searchResultHtml
  simp only []
  cases truthy result.aiSummary <;> cases truthy result.abstract
    <;> cases truthy result.definition <;> cases truthy result.answer
    <;> by_cases hE : result.relatedTopics.length > 0
    <;> simp only [hE, Bool.false_eq_true, if_false, if_true, e1, e2]
    <;> rfl

theorem data_head_append (p : List Char) (a b : String) (h : p <+: a.data) :
    p <+: (a ++ b).data := by
  rw [String.data_append]
  exact h.trans (List.prefix_append _ _)

theorem aiSummaryBlock_head (result : SearchResult) :
    ("\n          <div class=\"search-result-item\" ").data <+: (aiSummaryBlock result).data := by
  unfold aiSummaryBlock
  repeat apply data_head_append
  decide

theorem abstractBlock_head (result : SearchResult) :
    ("\n          <div class=\"search-result-item\">\n            <div class=\"search-result-title\">").data <+: (abstractBlock result).data := by
  unfold abstractBlock
  repeat apply data_head_append
  decide

theorem definitionBlock_head (result : SearchResult) :
    ("\n          <div class=\"search-result-item\">\n            <div class=\"search-result-title\">").data <+: (definitionBlock result).data := by
  unfold definitionBlock
  repeat apply data_head_append
  decide

theorem answerBlock_head (result : SearchResult) :
    ("\n          <div class=\"search-result-item\">\n            <div class=\"search-result-title\">").data <+: (answerBlock result).data := by
  unfold answerBlock
  repeat apply data_head_append
  decide

theorem relatedTopicsBlock_head (result : SearchResult) :
    ("\n          <div class=\"search-result-item\">\n            <div class=\"search-result-title\">").data <+: (relatedTopicsBlock result).data := by
  unfold relatedTopicsBlock
  repeat apply data_head_append
  decide

theorem noResultsHtml_head (query : String) :
    ("\n          <div class=\"search-result-item\">\n            <div class=\"search-result-text\">").data <+: (noResultsHtml query).data := by
  unfold noResultsHtml
  repeat apply data_head_append
  decide

/-- The blocks put one after the other begin like a block when one of them is
present. -/
theorem search_blocks_head (result : SearchResult)
    (h : ¬ (truthy result.aiSummary = false ∧ truthy result.abstract = false
      ∧ truthy result.definition = false ∧ truthy result.answer = false
      ∧ result.relatedTopics = [])) :
    ("\n          <div class=\"search-result-item\" ").data <+: ((if truthy result.aiSummary then aiSummaryBlock result else "")
            ++ (if truthy result.abstract then abstractBlock result else "")
            ++ (if truthy result.definition then definitionBlock result else "")
            ++ (if truthy result.answer then answerBlock result else "")
            ++ (if result.relatedTopics.length > 0 then relatedTopicsBlock result else "")).data
      ∨ ("\n          <div class=\"search-result-item\">\n            <div class=\"search-result-title\">").data <+: ((if truthy result.aiSummary then aiSummaryBlock result else "")
            ++ (if truthy result.abstract then abstractBlock result else "")
            ++ (if truthy result.definition then definitionBlock result else "")
            ++ (if truthy result.answer then answerBlock result else "")
            ++ (if result.relatedTopics.length > 0 then relatedTopicsBlock result else "")).data := by
  have e1 : ∀ x : String, "" ++ x = x := String.empty_append
  by_cases hA : truthy result.aiSummary = true
  · left
    rw [if_pos hA]
    apply data_head_append
    apply data_head_append
    apply data_head_append
    apply data_head_append
    exact aiSummaryBlock_head result
  · right
    rw [if_neg hA, e1]
    by_cases hB : truthy result.abstract = true
    · rw [if_pos hB]
      apply data_head_append
      apply data_head_append
      apply data_head_append
      exact abstractBlock_head result
    · rw [if_neg hB, e1]
      by_cases hC : truthy result.definition = true
      · rw [if_pos hC]
        apply data_head_append
        apply data_head_append
        exact definitionBlock_head result
      · rw [if_neg hC, e1]
        by_cases hD : truthy result.answer = true
        · rw [if_pos hD]
          apply data_head_append
          exact answerBlock_head result
        · rw [if_neg hD, e1]
          have hE : result.relatedTopics.length > 0 := by
            rcases hl : result.relatedTopics with _ | ⟨t, ts⟩
            · exact absurd ⟨by simpa using hA, by simpa using hB, by simpa using hC,
                by simpa using hD, hl⟩ h
            · simp
          rw [if_pos hE]
          exact relatedTopicsBlock_head result

/-! ### Lemmas on the shape of the parsed value -/

/-- A successful `parseElements` yields an array. -/
theorem parseElements_arr (fuel : Nat) : ∀ (cs : List Char) (acc : List Json) (v : Json)
    (r : List Char), JSON.parseElements fuel cs acc = some (v, r) → ∃ items, v = .arr items := by
  induction fuel with
  | zero => intro cs acc v r h; simp [JSON.parseElements] at h
  | succ n ih =>
    intro cs acc v r h
    rw [JSON.parseElements] at h
    split at h
    · cases h
    · split at h
      · exact ih _ _ _ _ h
      · simp only [Option.some.injEq, Prod.mk.injEq] at h
        exact ⟨_, h.1.symm⟩
      · cases h

/-- A value read from a text that starts with `[` is an array. -/
theorem parseValue_bracket (fuel : Nat) (rest : List Char) (v : Json) (r : List Char)
    (h : JSON.parseValue fuel ('[' :: rest) = some (v, r)) : ∃ items, v = .arr items := by
  cases fuel with
  | zero => simp [JSON.parseValue] at h
  | succ n =>
    rw [JSON.parseValue] at h
    have hs : JSON.skipWhitespace ('[' :: rest) = '[' :: rest := by
      simp [JSON.skipWhitespace, JSON.isWhitespace]
    rw [hs] at h
    simp only at h
    split at h
    · simp only [Option.some.injEq, Prod.mk.injEq] at h
      exact ⟨_, h.1.symm⟩
    · exact parseElements_arr _ _ _ _ _ h

/-- The match of the bracket scan starts with `[`. -/
theorem bracketMatch_head (response m : String) (h : bracketMatch response = some m) :
    ∃ rest, m.toList = '[' :: rest := by
  unfold bracketMatch at h
  split at h
  · cases h
  · split at h
    · cases h
    · simp only [Option.some.injEq] at h
      exact ⟨_, by rw [← h]; rfl⟩

/-- When the bracket scan matches, a successful parse gives an array. -/
theorem parseBracketed_match_arr (response m : String) (v : Json)
    (hm : bracketMatch response = some m) (hv : parseBracketed response = some v) :
    ∃ items, v = .arr items := by
  obtain ⟨rest, hrest⟩ := bracketMatch_head response m hm
  simp only [parseBracketed, hm, JSON.parse] at hv
  rw [hrest] at hv
  split at hv
  · next v' r hp =>
    split at hv
    · simp only [Option.some.injEq] at hv
      subst hv
      exact parseValue_bracket _ _ _ _ hp
    · cases hv
  · cases hv

/-- The value of the response parsing is an array in the arm of the bracket
match and in the `catch` arm; only the arm that parses the whole response can
give a value of another shape. -/
theorem parse_response_is_array_or_whole (response : String) :
    ((∃ items, parseFlashcardsResponse response = .arr items)
        ∧ (∃ items, parseQuizResponse response = .arr items))
      ∨ (bracketMatch response = none
        ∧ ∃ v, JSON.parse response = some v
          ∧ parseFlashcardsResponse response = v ∧ parseQuizResponse response = v) := by
  cases hv : parseBracketed response with
  | none =>
    exact Or.inl ⟨⟨_, by unfold parseFlashcardsResponse; rw [hv]; rfl⟩,
      ⟨_, by unfold parseQuizResponse; rw [hv]; rfl⟩⟩
  | some v =>
    cases hm : bracketMatch response with
    | some m =>
      obtain ⟨items, hitems⟩ := parseBracketed_match_arr response m v hm hv
      exact Or.inl ⟨⟨items, by simp [parseFlashcardsResponse, hv, hitems]⟩,
        ⟨items, by simp [parseQuizResponse, hv, hitems]⟩⟩
    | none =>
      refine Or.inr ⟨rfl, v, ?_, by simp [parseFlashcardsResponse, hv],
        by simp [parseQuizResponse, hv]⟩
      simpa [parseBracketed, hm] using hv

/-! ### Lemmas on UTF-16 code units -/

theorem char_toNat_valid (c : Char) :
    c.toNat < 0xD800 ∨ (0xDFFF < c.toNat ∧ c.toNat < 0x110000) := c.valid

/-- Decoding the code units of a code point followed by `rest`. -/
theorem decodeUtf16_utf16Units (c : Char) (rest : List Nat) :
    decodeUtf16 (utf16Units c ++ rest) = (decodeUtf16 rest).map fun cs => c :: cs := by
  have hv := char_toNat_valid c
  unfold utf16Units
  by_cases hb : c.toNat < 0x10000
  · rw [if_pos hb]
    cases rest with
    | nil =>
      have h1 : ¬ (0xD800 ≤ c.toNat ∧ c.toNat < 0xE000) := by omega
      simp only [List.singleton_append, decodeUtf16, h1, if_false, Char.ofNat_toNat, Option.map_some']
    | cons l rest =>
      have h1 : ¬ (0xD800 ≤ c.toNat ∧ c.toNat < 0xDC00) := by omega
      have h2 : ¬ (0xDC00 ≤ c.toNat ∧ c.toNat < 0xE000) := by omega
      simp only [List.singleton_append, decodeUtf16, h1, h2, if_false, Char.ofNat_toNat]
  · rw [if_neg hb]
    have h1 : 0xD800 ≤ 0xD800 + (c.toNat - 0x10000) / 0x400
        ∧ 0xD800 + (c.toNat - 0x10000) / 0x400 < 0xDC00 := by omega
    have h2 : 0xDC00 ≤ 0xDC00 + (c.toNat - 0x10000) % 0x400
        ∧ 0xDC00 + (c.toNat - 0x10000) % 0x400 < 0xE000 := by omega
    have h3 : 0x10000 + (0xD800 + (c.toNat - 0x10000) / 0x400 - 0xD800) * 0x400
        + (0xDC00 + (c.toNat - 0x10000) % 0x400 - 0xDC00) = c.toNat := by omega
    show decodeUtf16 ((0xD800 + (c.toNat - 0x10000) / 0x400)
      :: (0xDC00 + (c.toNat - 0x10000) % 0x400) :: rest) = _
    simp only [decodeUtf16, h1, h2, and_self, if_true, h3, Char.ofNat_toNat]

theorem decodeUtf16_flatMap (cs : List Char) :
    decodeUtf16 (cs.flatMap utf16Units) = some cs := by
  induction cs with
  | nil => rfl
  | cons c cs ih =>
    rw [List.flatMap_cons, decodeUtf16_utf16Units, ih]
    rfl

/-- Encoding then decoding gives the string back. -/
theorem decodeUtf16_toUtf16 (s : String) : decodeUtf16 (toUtf16 s) = some s.toList :=
  decodeUtf16_flatMap s.toList

theorem flatMap_utf16Units_bmp (cs : List Char) (h : ∀ c ∈ cs, c.toNat < 0x10000) :
    cs.flatMap utf16Units = cs.map Char.toNat := by
  induction cs with
  | nil => rfl
  | cons c cs ih =>
    have hc := h c (List.mem_cons_self c cs)
    rw [List.flatMap_cons, List.map_cons, ih (fun d hd => h d (List.mem_cons_of_mem c hd))]
    simp [utf16Units, hc]

/-- On text of the Basic Multilingual Plane the first `n` code units are the
first `n` characters. -/
theorem take_toUtf16_bmp (s : String) (n : Nat) (h : ∀ c ∈ s.toList, c.toNat < 0x10000) :
    (toUtf16 s).take n = toUtf16 (String.mk (s.toList.take n)) := by
  unfold toUtf16
  rw [flatMap_utf16Units_bmp _ h]
  show _ = (s.toList.take n).flatMap utf16Units
  rw [flatMap_utf16Units_bmp _ (fun c hc => h c (List.mem_of_mem_take hc)), List.map_take]

/-- The string value of the code units of a string is the string. -/
theorem ofUtf16_toUtf16 (s : String) : Json.ofUtf16 (toUtf16 s) = .str s := by
  unfold Json.ofUtf16
  rw [decodeUtf16_toUtf16]
  rfl

/-- On text of the Basic Multilingual Plane `substring(0, n)` is the string of
the first `n` characters. -/
theorem ofUtf16_take_bmp (s : String) (n : Nat) (h : ∀ c ∈ s.toList, c.toNat < 0x10000) :
    Json.ofUtf16 ((toUtf16 s).take n) = .str (String.mk (s.toList.take n)) := by
  rw [take_toUtf16_bmp s n h, ofUtf16_toUtf16]

/-! ## Claims -/

/-- Claim C1. With `retryCount` 0, if the models at indices `0..k-1` fail and
the model at index `k` succeeds with text `t`, the client issues exactly `k+1`
remote calls, one to each of the models `0..k` in list order, and returns `t`. -/
theorem fallback_returns_first_success (cfg : ModelConfig) (hf : Remote)
    (systemPrompt userMessage : String) (k : Nat) (t : String)
    (hk : k < cfg.models.length)
    (hfail : ∀ i, i < k →
      ∃ e, hf i (completionRequest cfg systemPrompt userMessage i) = .error e)
    (hok : hf k (completionRequest cfg systemPrompt userMessage k) = .ok t) :
    (generateChatCompletion cfg hf systemPrompt userMessage 0).calls
        = (List.range' 0 (k + 1)).map (completionRequest cfg systemPrompt userMessage)
      ∧ (generateChatCompletion cfg hf systemPrompt userMessage 0).calls.length = k + 1
      ∧ (generateChatCompletion cfg hf systemPrompt userMessage 0).calls.map (fun r => r.model)
        = cfg.models.take (k + 1)
      ∧ (generateChatCompletion cfg hf systemPrompt userMessage 0).result = .ok t := by
  have h := generateChatCompletion_fail_then_ok cfg hf systemPrompt userMessage t k 0
    (by omega) (fun i _ h2 => hfail i (by omega)) (by simpa using hok)
  rw [h]
  refine ⟨rfl, by simp, ?_, rfl⟩
  rw [← modelAt_map_range cfg k hk]
  simp [List.map_map, Function.comp_def, completionRequest]

/-- The example of the specification for C1: list `[A, B, C]`, `A` and `B` fail,
`C` succeeds. -/
theorem fallback_returns_first_success_witness :
    (generateChatCompletion ⟨"A", ["B", "C"]⟩
        (fun i _ => if i < 2 then .error "down" else .ok "text of C") "sys" "msg" 0).calls
        = (List.range' 0 3).map (completionRequest ⟨"A", ["B", "C"]⟩ "sys" "msg")
      ∧ (generateChatCompletion ⟨"A", ["B", "C"]⟩
        (fun i _ => if i < 2 then .error "down" else .ok "text of C") "sys" "msg" 0).calls.length
        = 3
      ∧ (generateChatCompletion ⟨"A", ["B", "C"]⟩
        (fun i _ => if i < 2 then .error "down" else .ok "text of C") "sys" "msg" 0).calls.map
          (fun r => r.model) = (["A", "B", "C"] : List String).take 3
      ∧ (generateChatCompletion ⟨"A", ["B", "C"]⟩
        (fun i _ => if i < 2 then .error "down" else .ok "text of C") "sys" "msg" 0).result
        = .ok "text of C" :=
  fallback_returns_first_success ⟨"A", ["B", "C"]⟩
    (fun i _ => if i < 2 then .error "down" else .ok "text of C") "sys" "msg" 2 "text of C"
    (by decide) (fun i hi => ⟨"down", by simp [hi]⟩) (by simp)

/-- Claim C2. With `retryCount` 0, if every model of the list fails, every model
is attempted exactly once, in list order, and the call raises one error whose
message is `AI generation failed: ` followed by the message of the last model's
error (wrapped once). -/
theorem fallback_exhausted_raises_last_error (cfg : ModelConfig) (hf : Remote)
    (systemPrompt userMessage : String) (e : String)
    (hfail : ∀ i, i < cfg.models.length - 1 →
      ∃ m, hf i (completionRequest cfg systemPrompt userMessage i) = .error m)
    (hlast : hf (cfg.models.length - 1)
      (completionRequest cfg systemPrompt userMessage (cfg.models.length - 1)) = .error e) :
    (generateChatCompletion cfg hf systemPrompt userMessage 0).result
        = .error ("AI generation failed: " ++ e)
      ∧ (generateChatCompletion cfg hf systemPrompt userMessage 0).calls
        = (List.range' 0 cfg.models.length).map
            (completionRequest cfg systemPrompt userMessage)
      ∧ (generateChatCompletion cfg hf systemPrompt userMessage 0).calls.map (fun r => r.model)
        = cfg.models := by
  have hpos : 0 < cfg.models.length := by simp [ModelConfig.models]
  have h := generateChatCompletion_all_fail cfg hf systemPrompt userMessage e
    (cfg.models.length - 1) 0 (by omega) (fun i _ h2 => hfail i (by omega))
    (by simpa using hlast)
  have hlen : cfg.models.length - 1 + 1 = cfg.models.length := by omega
  rw [h, hlen]
  refine ⟨rfl, rfl, ?_⟩
  have hm := modelAt_map_range cfg (cfg.models.length - 1) (by omega)
  rw [hlen, List.take_length] at hm
  rw [← hm]
  simp [List.map_map, Function.comp_def, completionRequest]

/-- The example of the specification for C2: list `[A, B, C]`, all three fail. -/
theorem fallback_exhausted_raises_last_error_witness :
    (generateChatCompletion ⟨"A", ["B", "C"]⟩
        (fun i r => .error (r.model ++ " failed " ++ toString i)) "sys" "msg" 0).result
        = .error ("AI generation failed: " ++ "C failed 2")
      ∧ (generateChatCompletion ⟨"A", ["B", "C"]⟩
        (fun i r => .error (r.model ++ " failed " ++ toString i)) "sys" "msg" 0).calls
        = (List.range' 0 3).map (completionRequest ⟨"A", ["B", "C"]⟩ "sys" "msg")
      ∧ (generateChatCompletion ⟨"A", ["B", "C"]⟩
        (fun i r => .error (r.model ++ " failed " ++ toString i)) "sys" "msg" 0).calls.map
          (fun r => r.model) = ["A", "B", "C"] :=
  fallback_exhausted_raises_last_error ⟨"A", ["B", "C"]⟩
    (fun i r => .error (r.model ++ " failed " ++ toString i)) "sys" "msg" "C failed 2"
    (fun i _ => ⟨_, rfl⟩) (by rfl)

/-- Claim C3, refuted as stated: the response
`Cards [draft]: [{"question":"q","answer":"a"}]` contains a well-formed JSON
array as a substring, yet the greedy bracket scan takes the span from `[draft`
to the last `]`, which is not JSON, and both handlers return the fallback. -/
theorem parse_misses_array_after_bracketed_prose :
    JSON.parse "[\x7b\"question\":\"q\",\"answer\":\"a\"\x7d]"
        = some (.arr [.obj [("question", .str "q"), ("answer", .str "a")]])
      ∧ "Cards [draft]: [\x7b\"question\":\"q\",\"answer\":\"a\"\x7d]"
        = "Cards [draft]: " ++ "[\x7b\"question\":\"q\",\"answer\":\"a\"\x7d]" ++ ""
      ∧ bracketMatch "Cards [draft]: [\x7b\"question\":\"q\",\"answer\":\"a\"\x7d]"
        = some "[draft]: [\x7b\"question\":\"q\",\"answer\":\"a\"\x7d]"
      ∧ parseFlashcardsResponse "Cards [draft]: [\x7b\"question\":\"q\",\"answer\":\"a\"\x7d]"
        = flashcardFallback "Cards [draft]: [\x7b\"question\":\"q\",\"answer\":\"a\"\x7d]"
      ∧ parseFlashcardsResponse "Cards [draft]: [\x7b\"question\":\"q\",\"answer\":\"a\"\x7d]"
        ≠ .arr [.obj [("question", .str "q"), ("answer", .str "a")]]
      ∧ parseQuizResponse "Cards [draft]: [\x7b\"question\":\"q\",\"answer\":\"a\"\x7d]"
        = quizFallback "Cards [draft]: [\x7b\"question\":\"q\",\"answer\":\"a\"\x7d]"
      ∧ parseQuizResponse "Cards [draft]: [\x7b\"question\":\"q\",\"answer\":\"a\"\x7d]"
        ≠ .arr [.obj [("question", .str "q"), ("answer", .str "a")]] := by
  have hf : parseFlashcardsResponse "Cards [draft]: [\x7b\"question\":\"q\",\"answer\":\"a\"\x7d]"
      = flashcardFallback "Cards [draft]: [\x7b\"question\":\"q\",\"answer\":\"a\"\x7d]" := by rfl
  have hq : parseQuizResponse "Cards [draft]: [\x7b\"question\":\"q\",\"answer\":\"a\"\x7d]"
      = quizFallback "Cards [draft]: [\x7b\"question\":\"q\",\"answer\":\"a\"\x7d]" := by rfl
  refine ⟨by rfl, by decide, by rfl, hf, ?_, hq, ?_⟩
  · rw [hf]
    simp [flashcardFallback]
  · rw [hq]
    simp [quizFallback]

/-- Claim C3, amended: when the span from the first `[` to the last `]` of the
response is a well-formed JSON array, the flashcard and the quiz parsing both
yield exactly that array. -/
theorem parse_extracts_bracket_span (pre mid post : String) (items : List Json)
    (hpre : '[' ∉ pre.toList) (hpost : ']' ∉ post.toList)
    (harr : JSON.parse ("[" ++ mid ++ "]") = some (.arr items)) :
    parseFlashcardsResponse (pre ++ "[" ++ mid ++ "]" ++ post) = .arr items
      ∧ parseQuizResponse (pre ++ "[" ++ mid ++ "]" ++ post) = .arr items := by
  have hm := bracketMatch_span pre mid post hpre hpost
  simp [parseFlashcardsResponse, parseQuizResponse, parseBracketed, hm, harr]

/-- An instance of the amended C3: prose without brackets around one array. -/
theorem parse_extracts_bracket_span_witness :
    parseFlashcardsResponse ("Here: " ++ "[" ++ "\x7b\"question\":\"q\",\"answer\":\"a\"\x7d" ++ "]"
        ++ " Done.") = .arr [.obj [("question", .str "q"), ("answer", .str "a")]]
      ∧ parseQuizResponse ("Here: " ++ "[" ++ "\x7b\"question\":\"q\",\"answer\":\"a\"\x7d" ++ "]"
        ++ " Done.") = .arr [.obj [("question", .str "q"), ("answer", .str "a")]] :=
  parse_extracts_bracket_span "Here: " "\x7b\"question\":\"q\",\"answer\":\"a\"\x7d" " Done."
    [.obj [("question", .str "q"), ("answer", .str "a")]] (by decide) (by decide) (by rfl)

/-- Claim C4, the code at the failing input: the response `42` contains no
bracket at all and is valid JSON, so the `else` arm of the conditional returns
the number itself, where the claim (and the client, which maps over the value)
expects the one fallback item. -/
theorem parse_returns_non_array_json :
    (∀ pre mid post : List Char, "42".toList ≠ pre ++ '[' :: (mid ++ ']' :: post))
      ∧ parseFlashcardsResponse "42" = .num "42"
      ∧ parseFlashcardsResponse "42" ≠ flashcardFallback "42"
      ∧ parseQuizResponse "42" = .num "42"
      ∧ parseQuizResponse "42" ≠ quizFallback "42" := by
  have hf : parseFlashcardsResponse "42" = .num "42" := by rfl
  have hq : parseQuizResponse "42" = .num "42" := by rfl
  refine ⟨?_, hf, ?_, hq, ?_⟩
  · intro pre mid post h
    have hmem : '[' ∈ "42".toList := by rw [h]; simp
    revert hmem
    decide
  · rw [hf]; simp [flashcardFallback]
  · rw [hq]; simp [quizFallback]

/-- For a response in which no `[` is followed by a `]` and which is not valid
JSON as a whole, both handlers yield the fallback item, whose text is
`response.substring(0, 500)` or `response.substring(0, 200)`. -/
theorem parse_falls_back_without_brackets (response : String)
    (hno : ∀ pre mid post : List Char,
      response.toList ≠ pre ++ '[' :: (mid ++ ']' :: post))
    (hbad : JSON.parse response = none) :
    parseFlashcardsResponse response
        = .arr [.obj [("question", .str "Generated content"),
                      ("answer", Json.ofUtf16 ((toUtf16 response).take 500))]]
      ∧ parseQuizResponse response
        = .arr [.obj [("question", .str "Generated content"),
                      ("options", .arr [.str "A) See details"]),
                      ("correct", .str "A"),
                      ("explanation", Json.ofUtf16 ((toUtf16 response).take 200))]] := by
  have hm := bracketMatch_none response hno
  simp [parseFlashcardsResponse, parseQuizResponse, parseBracketed, hm, hbad,
    flashcardFallback, quizFallback, substring0]

/-- Claim C5. Starting from an empty history, after any sequence of
`addChatMessage` calls that add to the history, the history is the last
`min n 10` pushed `{role, content}` entries in their original order, hence of
length at most 10.  The sequence is arbitrary, so this holds after each call. -/
theorem history_keeps_last_ten (dom : List ChatMessageDiv) (calls : List (String × Bool)) :
    (addChatMessages ⟨dom, []⟩ calls).conversationHistory
        = (calls.map fun call =>
            ({ role := if call.2 then "user" else "assistant", content := call.1 } : Message)).drop
            (calls.length - 10)
      ∧ (addChatMessages ⟨dom, []⟩ calls).conversationHistory.length = min calls.length 10
      ∧ (addChatMessages ⟨dom, []⟩ calls).conversationHistory.length ≤ 10 := by
  have h := addChatMessages_history calls ⟨dom, []⟩ (by simp)
  have hmap : (calls.map fun call =>
      ({ role := if call.2 then "user" else "assistant", content := call.1 } : Message))
      = calls.map historyEntry := rfl
  rw [h, hmap]
  simp only [List.nil_append, sliceLast, List.length_map, List.length_drop]
  refine ⟨trivial, ?_, ?_⟩ <;> omega

/-- Claim C6. The conversion of `renderSummary` turns `## Title\n- a\n- b` into
`<h2>Title</h2>` followed by one `<ul>` that wraps `<li>a</li>` and `<li>b</li>`;
and for `n ≥ 1` items without line terminator, `<` or `#`, written as
consecutive `- item` lines, the output is one `<ul>` around the `n` `<li>`
elements: it contains exactly one `<ul>` and exactly `n` `<li>`. -/
theorem summary_list_is_one_block (items : List String) (hne : items ≠ [])
    (hplain : ∀ i ∈ items, ∀ c ∈ i.toList,
      isLineTerminator c = false ∧ c ≠ '<' ∧ c ≠ '#') :
    summaryToHtml "## Title\n- a\n- b" = "<h2>Title</h2><br><ul><li>a</li><br><li>b</li></ul>"
      ∧ occurrences "<ul>" (summaryToHtml "## Title\n- a\n- b") = 1
      ∧ occurrences "<li>" (summaryToHtml "## Title\n- a\n- b") = 2
      ∧ renderSummary "## Title\n- a\n- b"
        = "\n    <div class=\"summary-container\">\n      <p><h2>Title</h2><br><ul><li>a</li><br><li>b</li></ul></p>\n    </div>\n  "
      ∧ summaryToHtml (bulletLines items)
        = "<ul>" ++ joinWrapped "<br>" "<li>" "</li>" items ++ "</ul>"
      ∧ occurrences "<ul>" (summaryToHtml (bulletLines items)) = 1
      ∧ occurrences "<li>" (summaryToHtml (bulletLines items)) = items.length := by
  have hconv := summaryToHtml_bulletLines items hne
    (fun i hi c hc => ⟨(hplain i hi c hc).1, (hplain i hi c hc).2.2⟩)
  have hocc := occurrences_listBlock items (fun i hi c hc => (hplain i hi c hc).2.1)
  refine ⟨by decide, by decide, by decide, by decide, hconv, ?_, ?_⟩
  · rw [hconv]; exact hocc.1
  · rw [hconv]; exact hocc.2

/-- An instance of C6 with three items, one of them with a hyphen. -/
theorem summary_list_is_one_block_witness :
    summaryToHtml "## Title\n- a\n- b" = "<h2>Title</h2><br><ul><li>a</li><br><li>b</li></ul>"
      ∧ occurrences "<ul>" (summaryToHtml "## Title\n- a\n- b") = 1
      ∧ occurrences "<li>" (summaryToHtml "## Title\n- a\n- b") = 2
      ∧ renderSummary "## Title\n- a\n- b"
        = "\n    <div class=\"summary-container\">\n      <p><h2>Title</h2><br><ul><li>a</li><br><li>b</li></ul></p>\n    </div>\n  "
      ∧ summaryToHtml (bulletLines ["one", "well-known", "x > y"])
        = "<ul>" ++ joinWrapped "<br>" "<li>" "</li>" ["one", "well-known", "x > y"] ++ "</ul>"
      ∧ occurrences "<ul>" (summaryToHtml (bulletLines ["one", "well-known", "x > y"])) = 1
      ∧ occurrences "<li>" (summaryToHtml (bulletLines ["one", "well-known", "x > y"]))
        = ["one", "well-known", "x > y"].length :=
  summary_list_is_one_block ["one", "well-known", "x > y"] (by decide) (by decide)

/-- Claim C7, refuted as stated: for `## Title\n- a\n- b` the chat converter
`markdownToHtml` returns `<h3>Title</h3>...`, which does not contain
`<h2>Title</h2>` (it maps `##` to `<h3>` and `#` to `<h2>`). -/
theorem chat_markdown_heading_is_h3 :
    markdownToHtml "## Title\n- a\n- b" = "<h3>Title</h3><br><ul><li>a</li><br><li>b</li></ul>"
      ∧ ¬ ("<h2>Title</h2>".toList <:+: (markdownToHtml "## Title\n- a\n- b").toList)
      ∧ occurrences "<h2>" (markdownToHtml "## Title\n- a\n- b") = 0 := by
  refine ⟨by decide, by decide, by decide⟩

/-- Claim C7, amended: `markdownToHtml` applied to `## Title\n- a\n- b` returns
`<h3>Title</h3>` followed by a single `<ul>` that wraps the two `<li>`
elements, not two separate lists. -/
theorem chat_markdown_list_is_one_block :
    markdownToHtml "## Title\n- a\n- b" = "<h3>Title</h3><br><ul><li>a</li><br><li>b</li></ul>"
      ∧ "<h3>Title</h3>".toList <+: (markdownToHtml "## Title\n- a\n- b").toList
      ∧ "<ul><li>a</li><br><li>b</li></ul>".toList
          <:+ (markdownToHtml "## Title\n- a\n- b").toList
      ∧ occurrences "<ul>" (markdownToHtml "## Title\n- a\n- b") = 1
      ∧ occurrences "<li>" (markdownToHtml "## Title\n- a\n- b") = 2 := by
  refine ⟨by decide, by decide, by decide, by decide, by decide⟩

/-- Claim C8, refuted as stated: the options marked `correct` are all those
whose text starts with the label followed by `)` or a space, not exactly one.
With the option texts `A) x`, `A y`, `B) z` and the label `A` a click on the
third option marks the first two as correct; with the label `a` it marks
none. -/
theorem quiz_answer_marks_two_or_no_options :
    (handleQuizAnswer
        ⟨[⟨"A) x", false, ["quiz-option"]⟩, ⟨"A y", false, ["quiz-option"]⟩,
          ⟨"B) z", false, ["quiz-option"]⟩], some ⟨"", ["quiz-explanation"]⟩⟩ 2 "A").options
        = [⟨"A) x", true, ["quiz-option", "correct"]⟩, ⟨"A y", true, ["quiz-option", "correct"]⟩,
           ⟨"B) z", true, ["quiz-option", "incorrect", "selected"]⟩]
      ∧ (handleQuizAnswer
        ⟨[⟨"A) x", false, ["quiz-option"]⟩, ⟨"A y", false, ["quiz-option"]⟩,
          ⟨"B) z", false, ["quiz-option"]⟩], some ⟨"", ["quiz-explanation"]⟩⟩ 2 "a").options
        = [⟨"A) x", true, ["quiz-option"]⟩, ⟨"A y", true, ["quiz-option"]⟩,
           ⟨"B) z", true, ["quiz-option", "incorrect", "selected"]⟩] := by
  refine ⟨by decide, by decide⟩

/-- Claim C8, amended. For a question whose options carry none of the marks
`correct`, `incorrect`, `selected` yet (any number of options, any texts, any
label passed to the handler), and whichever option is clicked,
`handleQuizAnswer` disables every option and keeps its text; an option is
marked `correct` exactly when its text starts with the label followed by `)`
or by a space, so that as many options are marked as texts match (none, one
or several), whatever option was clicked; the clicked option is marked
`selected`, and it is marked `incorrect` exactly when it is not marked
`correct`; no other option is marked `incorrect` or `selected`. -/
theorem quiz_answer_marks_matching_options (questionDiv : QuizQuestionDiv)
    (correctAnswer : String) (button : Nat)
    (hb : button < questionDiv.options.length)
    (hfresh : ∀ o ∈ questionDiv.options,
      "correct" ∉ o.classList ∧ "incorrect" ∉ o.classList ∧ "selected" ∉ o.classList) :
    (handleQuizAnswer questionDiv button correctAnswer).options.length
        = questionDiv.options.length
      ∧ (∀ j o, (handleQuizAnswer questionDiv button correctAnswer).options[j]? = some o →
          o.disabled = true
          ∧ (∃ before, questionDiv.options[j]? = some before
              ∧ o.textContent = before.textContent
              ∧ ("correct" ∈ o.classList ↔
                  ((correctAnswer ++ ")").toList <+: before.textContent.toList
                    ∨ (correctAnswer ++ " ").toList <+: before.textContent.toList)))
          ∧ ("incorrect" ∈ o.classList ↔ j = button ∧ "correct" ∉ o.classList)
          ∧ ("selected" ∈ o.classList ↔ j = button))
      ∧ (handleQuizAnswer questionDiv button correctAnswer).options.countP
            (fun o => decide ("correct" ∈ o.classList))
          = questionDiv.options.countP
            (fun o => matchesCorrect correctAnswer o.textContent)
      ∧ (∀ (other j : Nat) (o o' : OptionButton),
          (handleQuizAnswer questionDiv other correctAnswer).options[j]? = some o' →
          (handleQuizAnswer questionDiv button correctAnswer).options[j]? = some o →
          ("correct" ∈ o'.classList ↔ "correct" ∈ o.classList))
      ∧ (∃ o, (handleQuizAnswer questionDiv button correctAnswer).options[button]? = some o
          ∧ "selected" ∈ o.classList
          ∧ ("incorrect" ∈ o.classList ↔ "correct" ∉ o.classList)) := by
  have hget : ∀ (b j : Nat) (o : OptionButton),
      (handleQuizAnswer questionDiv b correctAnswer).options[j]? = some o →
      ∃ before, questionDiv.options[j]? = some before ∧
        o = (if j = b then markSelected (lockOption correctAnswer before)
             else lockOption correctAnswer before) := by
    intro b j o ho
    simp only [handleQuizAnswer, updateAt_getElem?, List.getElem?_map] at ho
    cases ht : questionDiv.options[j]? with
    | none => simp [ht] at ho
    | some before =>
      refine ⟨before, rfl, ?_⟩
      by_cases hj : j = b
      · simp [ht, hj] at ho ⊢
        rw [← hj] at ho
        simp [ht] at ho
        exact ho.symm
      · simp [ht, hj] at ho ⊢
        exact ho.symm
  have hprop : ∀ (b j : Nat) (o : OptionButton),
      (handleQuizAnswer questionDiv b correctAnswer).options[j]? = some o →
      o.disabled = true
      ∧ (∃ before, questionDiv.options[j]? = some before
          ∧ o.textContent = before.textContent
          ∧ ("correct" ∈ o.classList ↔
              ((correctAnswer ++ ")").toList <+: before.textContent.toList
                ∨ (correctAnswer ++ " ").toList <+: before.textContent.toList)))
      ∧ ("incorrect" ∈ o.classList ↔ j = b ∧ "correct" ∉ o.classList)
      ∧ ("selected" ∈ o.classList ↔ j = b) := by
    intro b j o ho
    obtain ⟨before, ht, ho⟩ := hget b j o ho
    obtain ⟨hfc, hfi, hfs⟩ := hfresh before (List.mem_iff_getElem?.mpr ⟨j, ht⟩)
    obtain ⟨hd, htext, hcls⟩ := lockOption_spec correctAnswer before
    have hm : matchesCorrect correctAnswer before.textContent = true ↔
        ((correctAnswer ++ ")").toList <+: before.textContent.toList
          ∨ (correctAnswer ++ " ").toList <+: before.textContent.toList) := by
      simp [matchesCorrect, startsWith]
    have hc : "correct" ∈ (lockOption correctAnswer before).classList
        ↔ matchesCorrect correctAnswer before.textContent = true := by
      rw [hcls]; simp [hfc]
    have hi : "incorrect" ∉ (lockOption correctAnswer before).classList := by
      rw [hcls]; simp [hfi]
    have hsel : "selected" ∉ (lockOption correctAnswer before).classList := by
      rw [hcls]; simp [hfs]
    by_cases hj : j = b
    · rw [if_pos hj] at ho
      subst ho
      refine ⟨by rw [markSelected_disabled]; exact hd, ⟨before, ht, ?_, ?_⟩, ?_, ?_⟩
      · rw [markSelected_textContent]; exact htext
      · rw [markSelected_correct, hc, hm]
      · rw [markSelected_incorrect _ hi, markSelected_correct]
        simp [hj]
      · simp [hj, markSelected_selected]
    · rw [if_neg hj] at ho
      subst ho
      refine ⟨hd, ⟨before, ht, htext, ?_⟩, ?_, ?_⟩
      · rw [hc, hm]
      · simp [hj, hi]
      · simp [hj, hsel]
  have hlen : ∀ b, (handleQuizAnswer questionDiv b correctAnswer).options.length
      = questionDiv.options.length := by
    intro b
    have := updateAt_map_of_invariant markSelected (fun _ => ()) (fun _ => rfl) b
      (questionDiv.options.map (lockOption correctAnswer))
    have hl := congrArg List.length this
    simpa [handleQuizAnswer] using hl
  have hcount : (handleQuizAnswer questionDiv button correctAnswer).options.countP
        (fun o => decide ("correct" ∈ o.classList))
      = questionDiv.options.countP (fun o => matchesCorrect correctAnswer o.textContent) := by
    show (updateAt markSelected button
      (questionDiv.options.map (lockOption correctAnswer))).countP _ = _
    rw [updateAt_countP_of_invariant markSelected _
      (fun x => by simp only [markSelected_correct]), List.countP_map]
    apply List.countP_congr
    intro o ho
    obtain ⟨hfc, _, _⟩ := hfresh o ho
    have hcls := (lockOption_spec correctAnswer o).2.2 "correct"
    simp only [Function.comp, decide_eq_true_eq, hcls]
    simp [hfc]
  refine ⟨hlen button, hprop button, hcount, ?_, ?_⟩
  · intro other j o o' ho' ho
    obtain ⟨_, ⟨t', ht', _, hc'⟩, _, _⟩ := hprop other j o' ho'
    obtain ⟨_, ⟨t, ht, _, hc⟩, _, _⟩ := hprop button j o ho
    rw [ht'] at ht
    cases ht
    rw [hc', hc]
  · have hlt : button < (handleQuizAnswer questionDiv button correctAnswer).options.length := by
      rw [hlen]; exact hb
    refine ⟨_, List.getElem?_eq_getElem hlt, ?_⟩
    obtain ⟨_, _, hi, hs⟩ := hprop button button _ (List.getElem?_eq_getElem hlt)
    exact ⟨hs.mpr rfl, by rw [hi]; simp⟩

/-- An instance of the amended C8: four options, label `A`, the second option
is clicked; one text matches and one option is marked correct. -/
theorem quiz_answer_marks_matching_options_witness :
    (handleQuizAnswer
        ⟨[⟨"A) x", false, ["quiz-option"]⟩, ⟨"B) y", false, ["quiz-option"]⟩,
          ⟨"C) z", false, ["quiz-option"]⟩, ⟨"D) w", false, ["quiz-option"]⟩],
          some ⟨"Because.", ["quiz-explanation"]⟩⟩ 1 "A").options.length = 4
      ∧ (handleQuizAnswer
        ⟨[⟨"A) x", false, ["quiz-option"]⟩, ⟨"B) y", false, ["quiz-option"]⟩,
          ⟨"C) z", false, ["quiz-option"]⟩, ⟨"D) w", false, ["quiz-option"]⟩],
          some ⟨"Because.", ["quiz-explanation"]⟩⟩ 1 "A").options.countP
            (fun o => decide ("correct" ∈ o.classList)) = 1
      ∧ (∃ o, (handleQuizAnswer
            ⟨[⟨"A) x", false, ["quiz-option"]⟩, ⟨"B) y", false, ["quiz-option"]⟩,
              ⟨"C) z", false, ["quiz-option"]⟩, ⟨"D) w", false, ["quiz-option"]⟩],
              some ⟨"Because.", ["quiz-explanation"]⟩⟩ 1 "A").options[1]? = some o
          ∧ "selected" ∈ o.classList
          ∧ ("incorrect" ∈ o.classList ↔ "correct" ∉ o.classList)) :=
  ⟨(quiz_answer_marks_matching_options
      ⟨[⟨"A) x", false, ["quiz-option"]⟩, ⟨"B) y", false, ["quiz-option"]⟩,
        ⟨"C) z", false, ["quiz-option"]⟩, ⟨"D) w", false, ["quiz-option"]⟩],
        some ⟨"Because.", ["quiz-explanation"]⟩⟩ "A" 1 (by decide) (by decide)).1,
    (quiz_answer_marks_matching_options
      ⟨[⟨"A) x", false, ["quiz-option"]⟩, ⟨"B) y", false, ["quiz-option"]⟩,
        ⟨"C) z", false, ["quiz-option"]⟩, ⟨"D) w", false, ["quiz-option"]⟩],
        some ⟨"Because.", ["quiz-explanation"]⟩⟩ "A" 1 (by decide) (by decide)).2.2.1.trans
      (by decide),
    (quiz_answer_marks_matching_options
      ⟨[⟨"A) x", false, ["quiz-option"]⟩, ⟨"B) y", false, ["quiz-option"]⟩,
        ⟨"C) z", false, ["quiz-option"]⟩, ⟨"D) w", false, ["quiz-option"]⟩],
        some ⟨"Because.", ["quiz-explanation"]⟩⟩ "A" 1 (by decide) (by decide)).2.2.2.2⟩

/-- Claim C9. For a non-empty (trimmed) query and a successful response whose
result has no `aiSummary`, `abstract`, `definition` or `answer` and an empty
`relatedTopics` list, `handleSearch` builds exactly the literal
`No results found for "<query>"...` item; the server produces such a result
from the empty upstream object without calling the completion client; and for
every successful response the markup built is not the empty string. -/
theorem search_without_blocks_shows_no_results (cfg : ModelConfig) (hf : Remote)
    (input : String) (result : SearchResult)
    (hquery : trim input ≠ "")
    (hai : truthy result.aiSummary = false) (habs : truthy result.abstract = false)
    (hdef : truthy result.definition = false) (hans : truthy result.answer = false)
    (htopics : result.relatedTopics = []) :
    handleSearch input (.success result)
        = some ("\n          <div class=\"search-result-item\">\n            <div class=\"search-result-text\">No results found for \""
            ++ trim input
            ++ "\". Try a different search term or ask the AI chatbot above!</div>\n          </div>\n        ")
      ∧ apiSearch cfg hf (trim input) DdgData.empty
        = ([], ⟨trim input, none, none, none, none, none, none, []⟩)
      ∧ handleSearch input (.success (apiSearch cfg hf (trim input) DdgData.empty).2)
        = some ("\n          <div class=\"search-result-item\">\n            <div class=\"search-result-text\">No results found for \""
            ++ trim input
            ++ "\". Try a different search term or ask the AI chatbot above!</div>\n          </div>\n        ")
      ∧ (∀ r : SearchResult, ∃ html, handleSearch input (.success r) = some html ∧ html ≠ "") := by
  have hq : (trim input).toList.isEmpty = false := by
    cases ht : (trim input).toList with
    | nil => exact absurd (String.ext ht) hquery
    | cons a as => rfl
  have hq' : ¬ (trim input).data = [] := fun h => hquery (String.ext h)
  have hnone : ∀ r : SearchResult, truthy r.aiSummary = false → truthy r.abstract = false →
      truthy r.definition = false → truthy r.answer = false → r.relatedTopics = [] →
      handleSearch input (.success r) = some (noResultsHtml (trim input)) := by
    intro r h1 h2 h3 h4 h5
    simp [handleSearch, hq', searchResultHtml, h1, h2, h3, h4, h5, noResultsHtml]
  have hapi : apiSearch cfg hf (trim input) DdgData.empty
      = ([], ⟨trim input, none, none, none, none, none, none, []⟩) := by
    rfl
  refine ⟨hnone result hai habs hdef hans htopics, hapi, ?_, ?_⟩
  · rw [hapi]
    exact hnone _ rfl rfl rfl rfl rfl
  · intro r
    refine ⟨searchResultHtml (trim input) r, by simp [handleSearch, hq'], ?_⟩
    unfold searchResultHtml
    exact ite_isEmpty_ne_empty _ _ (noResultsHtml_ne_empty _)

/-- An instance of C9: the query `  zzzz ` and the result the server builds
from `{}`. -/
theorem search_without_blocks_shows_no_results_witness :
    handleSearch "  zzzz " (.success ⟨"zzzz", none, none, none, none, none, none, []⟩)
        = some ("\n          <div class=\"search-result-item\">\n            <div class=\"search-result-text\">No results found for \""
            ++ trim "  zzzz "
            ++ "\". Try a different search term or ask the AI chatbot above!</div>\n          </div>\n        ")
      ∧ trim "  zzzz " = "zzzz" :=
  ⟨(search_without_blocks_shows_no_results modelConfig (fun _ _ => .error "down") "  zzzz "
      ⟨"zzzz", none, none, none, none, none, none, []⟩
      (by decide) rfl rfl rfl rfl rfl).1, by decide⟩

/-- Claim C10. For a non-empty text without `#`, `*`, `_`, backtick, `-`, digit
and newline, `markdownToHtml` returns `<p>` + E + `</p>` where E is the text
with `&`, `<`, `>` replaced by `&amp;`, `&lt;`, `&gt;` (ampersands of the
later replacements not escaped again); E contains neither `<` nor `>`. -/
theorem chat_markdown_escapes_plain_text (text : String) (hne : text ≠ "")
    (hplain : ∀ c ∈ text.toList,
      c ≠ '#' ∧ c ≠ '*' ∧ c ≠ '_' ∧ c ≠ Char.ofNat 96 ∧ c ≠ '-' ∧ c.isDigit = false
        ∧ c ≠ '\n') :
    markdownToHtml text = "<p>" ++ escapeHtmlSpec text ++ "</p>"
      ∧ escapeHtmlSpec text
        = replaceAll (literal ">" "&gt;") (replaceAll (literal "<" "&lt;")
            (replaceAll (literal "&" "&amp;") text))
      ∧ '<' ∉ (escapeHtmlSpec text).toList ∧ '>' ∉ (escapeHtmlSpec text).toList :=
  have h := markdownToHtml_plain text hne (fun c hc => by
    obtain ⟨h1, h2, h3, h4, h5, h6, h7⟩ := hplain c hc
    simp [isMarkdownTrigger, h1, h2, h3, h4, h5, h6, h7])
  ⟨h.1, (escape_chain_eq text).symm, h.2⟩

/-- An instance of C10: text with all three HTML-special characters. -/
theorem chat_markdown_escapes_plain_text_witness :
    markdownToHtml "a<b> & c" = "<p>" ++ escapeHtmlSpec "a<b> & c" ++ "</p>"
      ∧ escapeHtmlSpec "a<b> & c" = "a&lt;b&gt; &amp; c"
      ∧ '<' ∉ (escapeHtmlSpec "a<b> & c").toList ∧ '>' ∉ (escapeHtmlSpec "a<b> & c").toList :=
  ⟨(chat_markdown_escapes_plain_text "a<b> & c" (by decide) (by decide)).1, by decide,
    (chat_markdown_escapes_plain_text "a<b> & c" (by decide) (by decide)).2.2⟩

/-- Claim C15. For every image buffer and prompt, `processImageWithVision`
issues exactly one remote call, to the vision model, which is none of the text
models; if the call fails there is no second call and the error raised has
the message `Vision processing failed: ` followed by the underlying message. -/
theorem vision_is_single_shot (hfVision : VisionRemote) (imageBuffer : List Nat)
    (prompt : String) :
    (∃ req : VisionRequest, (processImageWithVision hfVision imageBuffer prompt).calls = [req]
        ∧ req.model = VISION_MODEL
        ∧ req.messages = [⟨"user", [.text prompt,
            .image_url ("data:image/png;base64," ++ toBase64 imageBuffer)]⟩]
        ∧ (∀ text, hfVision req = .ok text →
            (processImageWithVision hfVision imageBuffer prompt).result = .ok text)
        ∧ (∀ message, hfVision req = .error message →
            (processImageWithVision hfVision imageBuffer prompt).result
              = .error ("Vision processing failed: " ++ message)))
      ∧ (processImageWithVision hfVision imageBuffer prompt).calls.length = 1
      ∧ VISION_MODEL ∉ modelConfig.models := by
  refine ⟨?_, ?_, by decide⟩
  · refine ⟨⟨VISION_MODEL, [⟨"user", [.text prompt,
        .image_url ("data:" ++ "image/png" ++ ";base64," ++ toBase64 imageBuffer)]⟩], 2048⟩,
      ?_, rfl, ?_, ?_, ?_⟩
    · unfold processImageWithVision
      simp only []
      split <;> rfl
    · apply congrArg (fun u => [VisionMessage.mk "user" [ContentPart.text prompt,
        ContentPart.image_url u]])
      apply String.ext
      simp
    · intro text h
      unfold processImageWithVision
      simp only [h]
    · intro message h
      unfold processImageWithVision
      simp only [h]
  · unfold processImageWithVision
    simp only []
    split <;> rfl

/-- An instance of C15: a failing vision call on the bytes of `Man`. -/
theorem vision_is_single_shot_witness :
    (processImageWithVision (fun _ => .error "overloaded") [77, 97, 110] "Extract").calls.length
        = 1
      ∧ (processImageWithVision (fun _ => .error "overloaded") [77, 97, 110] "Extract").result
        = .error "Vision processing failed: overloaded"
      ∧ toBase64 [77, 97, 110] = "TWFu" :=
  ⟨(vision_is_single_shot (fun _ => .error "overloaded") [77, 97, 110] "Extract").2.1,
    by decide, by decide⟩

/-- Claim C16. For a chat request with a non-empty message, any context and
any history, every request issued to the completion client carries the list
`[system prompt] ++ last min(8, |history|) entries of the history ++
[{role: 'user', content: message}]`; the list has at most 10 entries, begins
with the system message and ends with the new user message. -/
theorem chat_messages_are_system_history_user (cfg : ModelConfig) (hf : Remote)
    (message : String) (context : Option String) (history : Option (List Message))
    (hmsg : message ≠ "") :
    (chatHandler cfg hf ⟨some message, context, history⟩).calls ≠ []
      ∧ (∀ c ∈ (chatHandler cfg hf ⟨some message, context, history⟩).calls,
          c.messages
            = [⟨"system", chatSystemPrompt context⟩]
              ++ (history.getD []).drop ((history.getD []).length - 8)
              ++ [⟨"user", message⟩])
      ∧ ((history.getD []).drop ((history.getD []).length - 8)).length
          = min 8 (history.getD []).length
      ∧ ([(⟨"system", chatSystemPrompt context⟩ : Message)]
              ++ (history.getD []).drop ((history.getD []).length - 8)
              ++ [(⟨"user", message⟩ : Message)]).length ≤ 10
      ∧ ([(⟨"system", chatSystemPrompt context⟩ : Message)]
              ++ (history.getD []).drop ((history.getD []).length - 8)
              ++ [(⟨"user", message⟩ : Message)]).head? = some ⟨"system", chatSystemPrompt context⟩
      ∧ ([(⟨"system", chatSystemPrompt context⟩ : Message)]
              ++ (history.getD []).drop ((history.getD []).length - 8)
              ++ [(⟨"user", message⟩ : Message)]).getLast? = some ⟨"user", message⟩ := by
  have htruthy : truthy (some message) = true := by
    have : ¬ message.data = [] := fun h => hmsg (String.ext h)
    simp [truthy, this]
  have hrun := generateChatCompletionWithHistory_calls cfg hf
    (chatMessageList message context (history.getD [])) _ 0 rfl
  have hcalls : (chatHandler cfg hf ⟨some message, context, history⟩).calls
      = (generateChatCompletionWithHistory cfg hf
          (chatMessageList message context (history.getD [])) 0).calls := by
    simp only [chatHandler, htruthy, Bool.not_true, Option.getD_some]
    simp only [Bool.false_eq_true, if_false]
    split <;> rfl
  refine ⟨by rw [hcalls]; exact hrun.1, ?_, ?_, ?_, ?_, ?_⟩
  · intro c hc
    rw [hcalls] at hc
    exact hrun.2 c hc
  · simp only [List.length_drop]; omega
  · simp only [List.length_append, List.length_drop, List.length_cons, List.length_nil]; omega
  · simp
  · rw [List.append_assoc, List.getLast?_append]
    simp

/-- An instance of C16: a history of nine entries. -/
theorem chat_messages_are_system_history_user_witness :
    (chatHandler modelConfig (fun _ _ => .ok "hi")
        ⟨some "why?", none, some (List.replicate 9 ⟨"user", "x"⟩)⟩).calls ≠ []
      ∧ ([(⟨"system", chatSystemPrompt none⟩ : Message)]
              ++ ((some (List.replicate 9 (⟨"user", "x"⟩ : Message))).getD []).drop
                  (((some (List.replicate 9 (⟨"user", "x"⟩ : Message))).getD []).length - 8)
              ++ [(⟨"user", "why?"⟩ : Message)]).length ≤ 10 :=
  ⟨(chat_messages_are_system_history_user modelConfig (fun _ _ => .ok "hi") "why?" none
      (some (List.replicate 9 ⟨"user", "x"⟩)) (by decide)).1,
    (chat_messages_are_system_history_user modelConfig (fun _ _ => .ok "hi") "why?" none
      (some (List.replicate 9 ⟨"user", "x"⟩)) (by decide)).2.2.2.1⟩

/-- Claim C18. For every starting `retryCount` and every outcome of the remote
calls, `generateChatCompletion` returns (it is a total function); its
attempts are `m` consecutive models of the list starting at index
`min(retryCount, n-1)`, with `1 ≤ m ≤ max(1, n - retryCount)`, so that no index
is attempted twice and the indices increase strictly; with
`retryCount ≥ n-1` the only attempt is the last model, and an error there is
final. -/
theorem fallback_attempts_are_bounded (cfg : ModelConfig) (hf : Remote)
    (systemPrompt userMessage : String) (retryCount : Nat) :
    (∃ m, 1 ≤ m ∧ m ≤ max 1 (cfg.models.length - retryCount)
        ∧ (generateChatCompletion cfg hf systemPrompt userMessage retryCount).calls
          = (List.range' retryCount m).map (completionRequest cfg systemPrompt userMessage)
        ∧ (generateChatCompletion cfg hf systemPrompt userMessage retryCount).calls.length = m
        ∧ (generateChatCompletion cfg hf systemPrompt userMessage retryCount).calls.map
            (fun r => r.model)
          = (cfg.models.drop (min retryCount (cfg.models.length - 1))).take m
        ∧ (∀ i j, i < j → j < m →
            min (retryCount + i) (cfg.models.length - 1)
              < min (retryCount + j) (cfg.models.length - 1)))
      ∧ (generateChatCompletion cfg hf systemPrompt userMessage retryCount).calls.head?
        = some (completionRequest cfg systemPrompt userMessage retryCount)
      ∧ (completionRequest cfg systemPrompt userMessage retryCount).model
        = cfg.models.getD (min retryCount (cfg.models.length - 1)) cfg.TEXT_MODEL
      ∧ (cfg.models.length - 1 ≤ retryCount →
          (generateChatCompletion cfg hf systemPrompt userMessage retryCount).calls
            = [completionRequest cfg systemPrompt userMessage retryCount]
          ∧ some (completionRequest cfg systemPrompt userMessage retryCount).model
            = cfg.models.getLast?
          ∧ ∀ e, hf retryCount (completionRequest cfg systemPrompt userMessage retryCount)
              = .error e →
            (generateChatCompletion cfg hf systemPrompt userMessage retryCount).result
              = .error ("AI generation failed: " ++ e)) := by
  obtain ⟨m, hm1, hm2, hcalls⟩ :=
    generateChatCompletion_calls cfg hf systemPrompt userMessage _ retryCount rfl
  have hpos : 0 < cfg.models.length := by simp [ModelConfig.models]
  refine ⟨⟨m, hm1, hm2, hcalls, by rw [hcalls]; simp, ?_, ?_⟩, ?_, rfl, ?_⟩
  · rw [hcalls, ← modelAt_map_range' cfg retryCount m hm2]
    simp [List.map_map, Function.comp_def, completionRequest]
  · intro i j hij hj
    omega
  · rw [hcalls]
    obtain ⟨k, rfl⟩ : ∃ k, m = k + 1 := ⟨m - 1, by omega⟩
    simp [List.range'_succ]
  · intro hlast
    have hm : m = 1 := by omega
    subst hm
    refine ⟨by rw [hcalls]; rfl, ?_, ?_⟩
    · simp only [completionRequest, ModelConfig.modelAt]
      have hidx : min retryCount (cfg.models.length - 1) = cfg.models.length - 1 := by omega
      rw [hidx, List.getD_eq_getElem?_getD, List.getElem?_eq_getElem (by omega),
        List.getLast?_eq_getElem?, List.getElem?_eq_getElem (by omega)]
      rfl
    · intro e he
      rw [generateChatCompletion_error_last cfg hf systemPrompt userMessage retryCount e he
        (by omega)]

/-- An instance of C18: the source's four models, `retryCount` 7, a remote
endpoint that always fails. -/
theorem fallback_attempts_are_bounded_witness :
    (generateChatCompletion modelConfig (fun _ _ => .error "down") "sys" "msg" 7).calls
        = [completionRequest modelConfig "sys" "msg" 7]
      ∧ some (completionRequest modelConfig "sys" "msg" 7).model = modelConfig.models.getLast?
      ∧ (∀ e, (fun _ _ => .error "down" : Remote) 7 (completionRequest modelConfig "sys" "msg" 7)
            = .error e →
          (generateChatCompletion modelConfig (fun _ _ => .error "down") "sys" "msg" 7).result
            = .error ("AI generation failed: " ++ e)) :=
  (fallback_attempts_are_bounded modelConfig (fun _ _ => .error "down") "sys" "msg" 7).2.2.2
    (by decide)

/-- Claim C19. For every system prompt, user message, starting `retryCount`
and outcome of the remote calls, `generateChatCompletion(systemPrompt,
userMessage, retryCount)` and `generateChatCompletionWithHistory` on the list
of the two messages issue the same requests in the same order and produce the
same text or the same error. -/
theorem completion_with_history_refines_completion (cfg : ModelConfig) (hf : Remote)
    (systemPrompt userMessage : String) (retryCount : Nat) :
    generateChatCompletionWithHistory cfg hf
        [⟨"system", systemPrompt⟩, ⟨"user", userMessage⟩] retryCount
      = generateChatCompletion cfg hf systemPrompt userMessage retryCount :=
  generateChatCompletionWithHistory_eq cfg hf systemPrompt userMessage _ retryCount rfl

/-- Claim C11, refuted as stated: a request with one text file `abc` stores
`abc` followed by an empty line; a following request with only an image, or
with only an empty text file, leaves that value in `documentContext`, although
the text inputs of the latest request concatenate to the empty string. -/
theorem document_context_survives_request_without_text :
    documentContextAfter [⟨"text/plain", "abc"⟩] .summary "" = "abc\n\n"
      ∧ documentContextAfter [⟨"image/png", ""⟩] .summary "abc\n\n" = "abc\n\n"
      ∧ String.join (([(⟨"image/png", ""⟩ : ClientFile)].filter
          fun f => f.type = "text/plain").map fun f => f.text) = ""
      ∧ documentContextAfter [⟨"text/plain", ""⟩] .summary "abc\n\n" = "abc\n\n"
      ∧ String.join (([(⟨"text/plain", ""⟩ : ClientFile)].filter
          fun f => f.type = "text/plain").map fun f => f.text) = "" := by
  refine ⟨by decide, by decide, by decide, by decide, by decide⟩

/-- Claim C11, amended: let `T` be the texts of the `text/plain` files of the
request, each followed by an empty line.  After `handleGenerate`,
`documentContext` is `T` when `T` is not blank, and keeps its previous value
when `T` is blank (no file, only images, only blank text files); image files
and earlier requests contribute nothing to `T`. -/
theorem document_context_after_generate (uploadedFiles : List ClientFile) (currentMode : Mode)
    (documentContext : String) :
    documentContextAfter uploadedFiles currentMode documentContext
        = (if (trim (textOfTextFiles uploadedFiles)).toList.isEmpty then documentContext
           else textOfTextFiles uploadedFiles)
      ∧ textOfTextFiles uploadedFiles
        = String.join ((uploadedFiles.filter fun f => f.type = "text/plain").map
            fun f => f.text ++ "\n\n") := by
  refine ⟨?_, rfl⟩
  have htext := collectFile_foldl_text uploadedFiles ("", [])
  rw [String.empty_append] at htext
  unfold documentContextAfter handleGenerate
  by_cases h0 : uploadedFiles.length = 0
  · have hnil : uploadedFiles = [] := List.length_eq_zero.mp h0
    subst hnil
    have hblank : (trim (textOfTextFiles [])).toList.isEmpty = true := by decide
    rw [hblank]
    rfl
  · simp only [h0, if_false, htext]
    cases hb : (trim (textOfTextFiles uploadedFiles)).toList.isEmpty with
    | true => rfl
    | false => rfl

/-- Claim C12. In each of the flashcard, summary and quiz handlers the text
content is the result of the vision call when the MIME type of the file starts
with `image/`, the UTF-8 decoding of the file bytes when it is `text/plain`,
and the `text` of the body (or the empty string) otherwise; when the text is
empty or blank the handler replies `400` with `No text content provided` and
issues no request to the text models; otherwise the text is the user message
of the completion. -/
theorem generation_handlers_extract_text (cfg : ModelConfig) (hf : Remote)
    (hfVision : VisionRemote) (decode : List Nat → String) (req : GenerateRequest) :
    (∀ p : String,
      (∀ f, req.file = some f → startsWith f.mimetype "image/" = true →
          extractTextContent hfVision decode p req
            = ((processImageWithVision hfVision f.buffer p).calls,
               (processImageWithVision hfVision f.buffer p).result))
        ∧ (∀ f, req.file = some f → startsWith f.mimetype "image/" = false →
            f.mimetype = "text/plain" →
            extractTextContent hfVision decode p req = ([], .ok (decode f.buffer)))
        ∧ ((req.file = none ∨ ∃ f, req.file = some f
              ∧ startsWith f.mimetype "image/" = false ∧ f.mimetype ≠ "text/plain") →
            extractTextContent hfVision decode p req = ([], .ok (req.text.getD ""))))
      ∧ (∀ (vc : List VisionRequest) (t : String), (trim t).toList.isEmpty = true →
          (extractTextContent hfVision decode
              "Extract all text from this image. Return only the text content." req
              = (vc, .ok t) →
            (generateFlashcardsHandler cfg hf hfVision decode req).visionCalls = vc
              ∧ (generateFlashcardsHandler cfg hf hfVision decode req).calls = []
              ∧ (generateFlashcardsHandler cfg hf hfVision decode req).reply
                = .clientError "No text content provided"
              ∧ (generateFlashcardsHandler cfg hf hfVision decode req).reply.status = 400)
          ∧ (extractTextContent hfVision decode "Extract all text from this image." req
              = (vc, .ok t) →
            ((summarizeHandler cfg hf hfVision decode req).visionCalls = vc
              ∧ (summarizeHandler cfg hf hfVision decode req).calls = []
              ∧ (summarizeHandler cfg hf hfVision decode req).reply
                = .clientError "No text content provided"
              ∧ (summarizeHandler cfg hf hfVision decode req).reply.status = 400)
            ∧ ((generateQuizHandler cfg hf hfVision decode req).visionCalls = vc
              ∧ (generateQuizHandler cfg hf hfVision decode req).calls = []
              ∧ (generateQuizHandler cfg hf hfVision decode req).reply
                = .clientError "No text content provided"
              ∧ (generateQuizHandler cfg hf hfVision decode req).reply.status = 400)))
      ∧ (∀ (vc : List VisionRequest) (t : String), (trim t).toList.isEmpty = false →
          (extractTextContent hfVision decode
              "Extract all text from this image. Return only the text content." req
              = (vc, .ok t) →
            (generateFlashcardsHandler cfg hf hfVision decode req).calls
              = (generateChatCompletion cfg hf flashcardsSystemPrompt t 0).calls)
          ∧ (extractTextContent hfVision decode "Extract all text from this image." req
              = (vc, .ok t) →
            (summarizeHandler cfg hf hfVision decode req).calls
                = (generateChatCompletion cfg hf summarySystemPrompt t 0).calls
              ∧ (generateQuizHandler cfg hf hfVision decode req).calls
                = (generateChatCompletion cfg hf quizSystemPrompt t 0).calls)) := by
  refine ⟨fun p => extractTextContent_cases hfVision decode p req, ?_, ?_⟩
  · intro vc t hblank
    refine ⟨fun hext => ?_, fun hext => ⟨?_, ?_⟩⟩
    · obtain ⟨h1, h2, h3⟩ := generationHandler_blank cfg hf hfVision decode _
        flashcardsSystemPrompt parseFlashcardsResponse req vc t hext hblank
      exact ⟨h1, h2, h3, by rw [generateFlashcardsHandler, h3]; rfl⟩
    · obtain ⟨h1, h2, h3⟩ := generationHandler_blank cfg hf hfVision decode _
        summarySystemPrompt (fun summary => summary) req vc t hext hblank
      exact ⟨h1, h2, h3, by rw [summarizeHandler, h3]; rfl⟩
    · obtain ⟨h1, h2, h3⟩ := generationHandler_blank cfg hf hfVision decode _
        quizSystemPrompt parseQuizResponse req vc t hext hblank
      exact ⟨h1, h2, h3, by rw [generateQuizHandler, h3]; rfl⟩
  · intro vc t htext
    refine ⟨fun hext => ?_, fun hext => ⟨?_, ?_⟩⟩
    · exact (generationHandler_text cfg hf hfVision decode _ flashcardsSystemPrompt
        parseFlashcardsResponse req vc t hext htext).2.1
    · exact (generationHandler_text cfg hf hfVision decode _ summarySystemPrompt
        (fun summary => summary) req vc t hext htext).2.1
    · exact (generationHandler_text cfg hf hfVision decode _ quizSystemPrompt
        parseQuizResponse req vc t hext htext).2.1

/-- An instance of C12: a `text/plain` file whose bytes are a space and a
newline, with a decoding that reads each byte as a character. -/
theorem generation_handlers_extract_text_witness :
    (generateFlashcardsHandler modelConfig (fun _ _ => .ok "[]") (fun _ => .ok "seen")
        (fun bytes => String.mk (bytes.map Char.ofNat))
        ⟨some "body text", some ⟨"text/plain", [32, 10]⟩⟩).visionCalls = []
      ∧ (generateFlashcardsHandler modelConfig (fun _ _ => .ok "[]") (fun _ => .ok "seen")
        (fun bytes => String.mk (bytes.map Char.ofNat))
        ⟨some "body text", some ⟨"text/plain", [32, 10]⟩⟩).calls = []
      ∧ (generateFlashcardsHandler modelConfig (fun _ _ => .ok "[]") (fun _ => .ok "seen")
        (fun bytes => String.mk (bytes.map Char.ofNat))
        ⟨some "body text", some ⟨"text/plain", [32, 10]⟩⟩).reply
        = .clientError "No text content provided"
      ∧ (generateFlashcardsHandler modelConfig (fun _ _ => .ok "[]") (fun _ => .ok "seen")
        (fun bytes => String.mk (bytes.map Char.ofNat))
        ⟨some "body text", some ⟨"text/plain", [32, 10]⟩⟩).reply.status = 400 :=
  ((generation_handlers_extract_text modelConfig (fun _ _ => .ok "[]") (fun _ => .ok "seen")
      (fun bytes => String.mk (bytes.map Char.ofNat))
      ⟨some "body text", some ⟨"text/plain", [32, 10]⟩⟩).2.1 [] " \n" (by decide)).1 (by decide)

/-- Claim C17. Whenever the JSON extraction of a model response raises (the
bracket-scanned substring, or the whole response when nothing matches, is not
valid JSON), the flashcard value is the one-element list with question
`Generated content` and, as answer, the first `min(500, |response|)` UTF-16
code units of the response (`|response|` being its JavaScript `length`), the
quiz value is the one question with options `['A) See details']`, correct `A`
and, as explanation, the first `min(200, |response|)` code units; on text of
the Basic Multilingual Plane these are the first 500 or 200 characters; the
handler replies `200`. -/
theorem parse_failure_gives_fallback (cfg : ModelConfig) (hf : Remote)
    (hfVision : VisionRemote) (decode : List Nat → String) (req : GenerateRequest)
    (response : String)
    (hraise : (∃ m, bracketMatch response = some m ∧ JSON.parse m = none)
      ∨ (bracketMatch response = none ∧ JSON.parse response = none)) :
    parseFlashcardsResponse response
        = .arr [.obj [("question", .str "Generated content"),
                      ("answer", Json.ofUtf16 ((toUtf16 response).take 500))]]
      ∧ ((toUtf16 response).take 500).length = min 500 (toUtf16 response).length
      ∧ parseQuizResponse response
        = .arr [.obj [("question", .str "Generated content"),
                      ("options", .arr [.str "A) See details"]),
                      ("correct", .str "A"),
                      ("explanation", Json.ofUtf16 ((toUtf16 response).take 200))]]
      ∧ ((toUtf16 response).take 200).length = min 200 (toUtf16 response).length
      ∧ ((∀ c ∈ response.toList, c.toNat < 0x10000) →
          Json.ofUtf16 ((toUtf16 response).take 500)
              = .str (String.mk (response.toList.take 500))
            ∧ Json.ofUtf16 ((toUtf16 response).take 200)
              = .str (String.mk (response.toList.take 200))
            ∧ (toUtf16 response).length = response.length)
      ∧ (∀ (vc : List VisionRequest) (t : String), (trim t).toList.isEmpty = false →
          (extractTextContent hfVision decode
              "Extract all text from this image. Return only the text content." req
              = (vc, .ok t) →
            (generateChatCompletion cfg hf flashcardsSystemPrompt t 0).result = .ok response →
            (generateFlashcardsHandler cfg hf hfVision decode req).reply
                = .ok (.arr [.obj [("question", .str "Generated content"),
                      ("answer", Json.ofUtf16 ((toUtf16 response).take 500))]])
              ∧ (generateFlashcardsHandler cfg hf hfVision decode req).reply.status = 200)
          ∧ (extractTextContent hfVision decode "Extract all text from this image." req
              = (vc, .ok t) →
            (generateChatCompletion cfg hf quizSystemPrompt t 0).result = .ok response →
            (generateQuizHandler cfg hf hfVision decode req).reply
                = .ok (.arr [.obj [("question", .str "Generated content"),
                      ("options", .arr [.str "A) See details"]),
                      ("correct", .str "A"),
                      ("explanation", Json.ofUtf16 ((toUtf16 response).take 200))]])
              ∧ (generateQuizHandler cfg hf hfVision decode req).reply.status = 200)) := by
  have hparse : parseBracketed response = none := by
    rcases hraise with ⟨m, hm, hj⟩ | ⟨hm, hj⟩
    · simp [parseBracketed, hm, hj]
    · simp [parseBracketed, hm, hj]
  have hflash : parseFlashcardsResponse response
      = .arr [.obj [("question", .str "Generated content"),
                    ("answer", Json.ofUtf16 ((toUtf16 response).take 500))]] := by
    simp [parseFlashcardsResponse, hparse, flashcardFallback, substring0]
  have hquiz : parseQuizResponse response
      = .arr [.obj [("question", .str "Generated content"),
                    ("options", .arr [.str "A) See details"]),
                    ("correct", .str "A"),
                    ("explanation", Json.ofUtf16 ((toUtf16 response).take 200))]] := by
    simp [parseQuizResponse, hparse, quizFallback, substring0]
  refine ⟨hflash, List.length_take 500 _, hquiz, List.length_take 200 _, ?_, ?_⟩
  · intro hbmp
    refine ⟨ofUtf16_take_bmp response 500 hbmp, ofUtf16_take_bmp response 200 hbmp, ?_⟩
    unfold toUtf16
    rw [flatMap_utf16Units_bmp _ hbmp, List.length_map]
    rfl
  · intro vc t htext
    refine ⟨fun hext hres => ?_, fun hext hres => ?_⟩
    · have h := (generationHandler_text cfg hf hfVision decode _ flashcardsSystemPrompt
        parseFlashcardsResponse req vc t hext htext).2.2.1 response hres
      rw [hflash] at h
      exact ⟨h, by rw [generateFlashcardsHandler, h]; rfl⟩
    · have h := (generationHandler_text cfg hf hfVision decode _ quizSystemPrompt
        parseQuizResponse req vc t hext htext).2.2.1 response hres
      rw [hquiz] at h
      exact ⟨h, by rw [generateQuizHandler, h]; rfl⟩

set_option maxRecDepth 100000 in
/-- An instance of C17 that reaches the cut: the response is 300 times the
character U+1F600, 600 code units; the flashcard answer keeps 500 code units,
250 characters, the quiz explanation 200 code units, 100 characters.  With
one letter before them the cut at 500 falls inside a pair, and the answer
ends with the unpaired high surrogate `0xD83D`. -/
theorem parse_failure_gives_fallback_witness :
    parseFlashcardsResponse (String.mk (List.replicate 300 (Char.ofNat 0x1F600)))
        = .arr [.obj [("question", .str "Generated content"),
                      ("answer", .str (String.mk (List.replicate 250 (Char.ofNat 0x1F600))))]]
      ∧ ((toUtf16 (String.mk (List.replicate 300 (Char.ofNat 0x1F600)))).take 500).length
        = min 500 (toUtf16 (String.mk (List.replicate 300 (Char.ofNat 0x1F600)))).length
      ∧ (toUtf16 (String.mk (List.replicate 300 (Char.ofNat 0x1F600)))).length = 600
      ∧ parseQuizResponse (String.mk (List.replicate 300 (Char.ofNat 0x1F600)))
        = .arr [.obj [("question", .str "Generated content"),
                      ("options", .arr [.str "A) See details"]),
                      ("correct", .str "A"),
                      ("explanation",
                        .str (String.mk (List.replicate 100 (Char.ofNat 0x1F600))))]]
      ∧ Json.ofUtf16 ((toUtf16 (String.mk ('a' :: List.replicate 300 (Char.ofNat 0x1F600)))).take
          500)
        = .str16 (97 :: (List.replicate 249 [0xD83D, 0xDE00]).flatten ++ [0xD83D]) :=
  ⟨(parse_failure_gives_fallback modelConfig (fun _ _ => .ok "")
      (fun _ => .ok "seen") (fun bytes => String.mk (bytes.map Char.ofNat))
      ⟨some "notes", none⟩ (String.mk (List.replicate 300 (Char.ofNat 0x1F600)))
      (Or.inr ⟨by rfl, by rfl⟩)).1.trans (by rfl),
   (parse_failure_gives_fallback modelConfig (fun _ _ => .ok "")
      (fun _ => .ok "seen") (fun bytes => String.mk (bytes.map Char.ofNat))
      ⟨some "notes", none⟩ (String.mk (List.replicate 300 (Char.ofNat 0x1F600)))
      (Or.inr ⟨by rfl, by rfl⟩)).2.1,
   by rfl,
   (parse_failure_gives_fallback modelConfig (fun _ _ => .ok "")
      (fun _ => .ok "seen") (fun bytes => String.mk (bytes.map Char.ofNat))
      ⟨some "notes", none⟩ (String.mk (List.replicate 300 (Char.ofNat 0x1F600)))
      (Or.inr ⟨by rfl, by rfl⟩)).2.2.1.trans (by rfl),
   by rfl⟩

/-- Claim C13. For every query and upstream data the search handler replies
with success; the fields `query`, `abstract`, `abstractSource`, `abstractUrl`,
`definition`, `answer` and `relatedTopics` of the result do not depend on the
outcome of the AI step; when the completion client raises, `aiSummary` is
`null`; and the AI step is invoked only when `Abstract`, `Definition`,
`Answer` or the text of one of the first five related topics is non-empty. -/
theorem search_survives_ai_failure (cfg : ModelConfig) (hf hf' : Remote) (q : String)
    (ddgData : DdgData) (hq : q ≠ "") :
    (∃ result result' : SearchResult,
        (searchHandler cfg hf (some q) (.ok ddgData)).reply = .ok result
        ∧ (searchHandler cfg hf (some q) (.ok ddgData)).reply.status = 200
        ∧ (searchHandler cfg hf' (some q) (.ok ddgData)).reply = .ok result'
        ∧ result.query = q ∧ result'.query = q
        ∧ result.abstract = result'.abstract
        ∧ result.abstractSource = result'.abstractSource
        ∧ result.abstractUrl = result'.abstractUrl
        ∧ result.definition = result'.definition
        ∧ result.answer = result'.answer
        ∧ result.relatedTopics = result'.relatedTopics
        ∧ ((∃ e, (generateChatCompletion cfg hf searchSystemPrompt
              (searchUserPrompt q (searchContext ddgData)) 0).result = .error e) →
            result.aiSummary = none))
      ∧ ((searchHandler cfg hf (some q) (.ok ddgData)).calls ≠ [] →
          truthy ddgData.Abstract = true ∨ truthy ddgData.Definition = true
            ∨ truthy ddgData.Answer = true
            ∨ ∃ t ∈ (ddgData.RelatedTopics.getD []).take 5, truthy t.Text = true) := by
  obtain ⟨hr, hc⟩ := searchHandler_ok cfg hf q ddgData hq
  obtain ⟨hr', _⟩ := searchHandler_ok cfg hf' q ddgData hq
  refine ⟨⟨_, _, hr, by rw [hr]; rfl, hr', rfl, rfl, rfl, rfl, rfl, rfl, rfl, rfl, ?_⟩, ?_⟩
  · rintro ⟨e, he⟩
    show (searchAiSummary cfg hf q ddgData).2 = none
    unfold searchAiSummary
    split
    · simp only [he]
    · rfl
  · intro hcalls
    by_contra hnone
    simp only [not_or, not_exists, not_and, Bool.not_eq_true] at hnone
    obtain ⟨h1, h2, h3, h4⟩ := hnone
    have hctx := searchContext_empty ddgData h1 h2 h3 h4
    rw [hc, searchAiSummary_not_invoked cfg hf q ddgData hctx] at hcalls
    exact hcalls rfl

/-- An instance of C13: the four models of the source all fail on a query with
an abstract. -/
theorem search_survives_ai_failure_witness :
    ∃ result result' : SearchResult,
        (searchHandler modelConfig (fun _ _ => .error "down") (some "cats")
          (.ok ⟨some "Cats are animals.", none, none, none, none, none⟩)).reply = .ok result
        ∧ (searchHandler modelConfig (fun _ _ => .error "down") (some "cats")
          (.ok ⟨some "Cats are animals.", none, none, none, none, none⟩)).reply.status = 200
        ∧ (searchHandler modelConfig (fun _ _ => .ok "Cats.") (some "cats")
          (.ok ⟨some "Cats are animals.", none, none, none, none, none⟩)).reply = .ok result'
        ∧ result.query = "cats" ∧ result'.query = "cats"
        ∧ result.abstract = result'.abstract
        ∧ result.abstractSource = result'.abstractSource
        ∧ result.abstractUrl = result'.abstractUrl
        ∧ result.definition = result'.definition
        ∧ result.answer = result'.answer
        ∧ result.relatedTopics = result'.relatedTopics
        ∧ ((∃ e, (generateChatCompletion modelConfig (fun _ _ => .error "down")
              searchSystemPrompt
              (searchUserPrompt "cats"
                (searchContext ⟨some "Cats are animals.", none, none, none, none, none⟩))
              0).result = .error e) →
            result.aiSummary = none) :=
  (search_survives_ai_failure modelConfig (fun _ _ => .error "down") (fun _ _ => .ok "Cats.")
    "cats" ⟨some "Cats are animals.", none, none, none, none, none⟩ (by decide)).1

/-- Claim C14. `handleSearch` puts the blocks AI Summary, abstract, Definition,
Quick Answer, Related Topics one after the other in this order, each block
being there exactly when its field is non-empty (`aiSummary`, `abstract`,
`definition`, `answer` truthy, `relatedTopics` a non-empty list); the markup is
the `No results found` message exactly when no block qualifies. -/
theorem search_blocks_in_fixed_order (query : String) (result : SearchResult) :
    searchResultHtml query result
        = (if truthy result.aiSummary = false ∧ truthy result.abstract = false
              ∧ truthy result.definition = false ∧ truthy result.answer = false
              ∧ result.relatedTopics = []
           then "\n          <div class=\"search-result-item\">\n            <div class=\"search-result-text\">No results found for \""
              ++ query
              ++ "\". Try a different search term or ask the AI chatbot above!</div>\n          </div>\n        "
           else (if truthy result.aiSummary then aiSummaryBlock result else "")
              ++ (if truthy result.abstract then abstractBlock result else "")
              ++ (if truthy result.definition then definitionBlock result else "")
              ++ (if truthy result.answer then answerBlock result else "")
              ++ (if result.relatedTopics.length > 0 then relatedTopicsBlock result else ""))
      ∧ (searchResultHtml query result
          = "\n          <div class=\"search-result-item\">\n            <div class=\"search-result-text\">No results found for \""
              ++ query
              ++ "\". Try a different search term or ask the AI chatbot above!</div>\n          </div>\n        "
        ↔ truthy result.aiSummary = false ∧ truthy result.abstract = false
              ∧ truthy result.definition = false ∧ truthy result.answer = false
              ∧ result.relatedTopics = []) := by
  by_cases h : truthy result.aiSummary = false ∧ truthy result.abstract = false
      ∧ truthy result.definition = false ∧ truthy result.answer = false
      ∧ result.relatedTopics = []
  · have hhtml : searchResultHtml query result = noResultsHtml query := by
      obtain ⟨h1, h2, h3, h4, h5⟩ := h
      rw [searchResultHtml_blocks, h1, h2, h3, h4, h5]
      rfl
    rw [if_pos h]
    exact ⟨hhtml, fun _ => h, fun _ => hhtml⟩
  · have hhead := search_blocks_head result h
    have hne : ((if truthy result.aiSummary then aiSummaryBlock result else "")
            ++ (if truthy result.abstract then abstractBlock result else "")
            ++ (if truthy result.definition then definitionBlock result else "")
            ++ (if truthy result.answer then answerBlock result else "")
            ++ (if result.relatedTopics.length > 0 then relatedTopicsBlock result else "")
            ).toList.isEmpty = false := by
      rcases hhead with ⟨t, ht⟩ | ⟨t, ht⟩
      · show List.isEmpty (String.data _) = false
        rw [← ht]
        rfl
      · show List.isEmpty (String.data _) = false
        rw [← ht]
        rfl
    have hhtml := searchResultHtml_blocks query result
    rw [hne] at hhtml
    rw [if_neg h]
    refine ⟨hhtml, fun heq => ?_, fun hall => absurd hall h⟩
    exfalso
    have hnr := noResultsHtml_head query
    have heq' : searchResultHtml query result = noResultsHtml query := heq
    rw [hhtml] at heq'
    rw [← heq'] at hnr
    rcases hhead with hs | hs
    · rcases List.prefix_or_prefix_of_prefix hs hnr with hp | hp
      · exact absurd hp (by decide)
      · exact absurd hp (by decide)
    · rcases List.prefix_or_prefix_of_prefix hs hnr with hp | hp
      · exact absurd hp (by decide)
      · exact absurd hp (by decide)

set_option maxRecDepth 10000 in
/-- An instance of C14: a result with an abstract and an answer only. -/
theorem search_blocks_in_fixed_order_witness :
    searchResultHtml "cats" ⟨"cats", none, some "Cats are animals.", none, none, none,
        some "Yes.", []⟩
      = abstractBlock ⟨"cats", none, some "Cats are animals.", none, none, none, some "Yes.", []⟩
        ++ answerBlock ⟨"cats", none, some "Cats are animals.", none, none, none, some "Yes.", []⟩ :=
  (search_blocks_in_fixed_order "cats"
    ⟨"cats", none, some "Cats are animals.", none, none, none, some "Yes.", []⟩).1.trans
    (by rfl)

end Quizolute
